import Mathlib

/-!
# DECemu: execution box and floating-point load/store conversions

A shallow embedding of `src/comutl/AXP_Execute_Box.c` (the worker loop shared
by the Ebox and the Fbox, with its register-readiness check and its pthread
calls) and of `src/cpu/AXP_21264_Fbox_LoadStore.c` (the eight floating-point
load/store functions with their memory to register conversions), followed by
theorems about them.

Conventions of the embedding:

* C enumerations are inductive types whose constructors are listed in the
  order given by the string tables of the C file (`insPipelineStr`,
  `insStateStr`, `regStateStr`).
* Machine integers are natural numbers; a `u16` decrement is taken modulo
  `2 ^ 16`, 64-bit additions modulo `2 ^ 64`.
* The issue queue (a counted doubly linked list) is a `List` of entries, head
  first.  An entry's `ins` pointer is embedded as the instruction record it
  points to: every queued entry refers to its own decoded instruction.
* The register unions `src1v`, `src2v`, `destv` are the 64-bit pattern they
  hold; the views `.r.uq` and `.fp.uq` name the same 64 bits.
* Trace output (`AXP_UTL_OPT2` blocks) only reads state and is left out.
-/

namespace DECemu

/-! ## Enumerations -/

/-- Pipelines, in the order of `insPipelineStr`: the value doubles as the
capability token of a queue entry and as the identity of a worker. -/
inductive AXP_PIPELINE where
  | PipelineNone
  | EboxU0
  | EboxU1
  | EboxU0U1
  | EboxL0
  | EboxL1
  | EboxL0L1
  | EboxL0L1U0U1
  | FboxMul
  | FboxOther
  deriving DecidableEq, Repr

/-- Numeric value of the enumeration, used to index `pipeCond`. -/
def AXP_PIPELINE.toNat : AXP_PIPELINE → Nat
  | .PipelineNone => 0
  | .EboxU0 => 1
  | .EboxU1 => 2
  | .EboxU0U1 => 3
  | .EboxL0 => 4
  | .EboxL1 => 5
  | .EboxL0L1 => 6
  | .EboxL0L1U0U1 => 7
  | .FboxMul => 8
  | .FboxOther => 9

/-- Instruction states, in the order of `insStateStr`. -/
inductive AXP_INS_STATE where
  | Retired
  | Queued
  | Executing
  | WaitingRetirement
  | Aborted
  deriving DecidableEq, Repr

/-- Physical register states, in the order of `regStateStr`. -/
inductive AXP_REG_STATE where
  | Free
  | PendingUpdate
  | Valid
  deriving DecidableEq, Repr

/-- Exception indicators the two C files mention. -/
inductive AXP_EXCEPTIONS where
  | NoException
  | FloatingDisabledFault
  deriving DecidableEq, Repr

/-- State of the emulated CPU as far as the worker loop looks at it. -/
inductive AXP_CPU_STATE where
  | Run
  | ShuttingDown
  deriving DecidableEq, Repr

open AXP_PIPELINE AXP_INS_STATE AXP_REG_STATE AXP_EXCEPTIONS

/-! ## The pipeline condition table -/

/-- The table `pipeCond[AXP_PIPE_OPTIONS][3]`, row by row. -/
def pipeCond : List (List AXP_PIPELINE) :=
  [ [PipelineNone, PipelineNone, PipelineNone],
    [EboxU0,       EboxU0U1,     EboxL0L1U0U1],
    [EboxU1,       EboxU0U1,     EboxL0L1U0U1],
    [PipelineNone, PipelineNone, PipelineNone],
    [EboxL0,       EboxL0L1,     EboxL0L1U0U1],
    [EboxL1,       EboxL0L1,     EboxL0L1U0U1],
    [PipelineNone, PipelineNone, PipelineNone],
    [PipelineNone, PipelineNone, PipelineNone],
    [FboxMul,      FboxMul,      FboxMul],
    [FboxOther,    FboxOther,    FboxOther] ]

/-- The C expression `pipeCond[pipeline][i]`. -/
def pipeCondAt (pipeline : AXP_PIPELINE) (i : Nat) : AXP_PIPELINE :=
  (pipeCond.getD pipeline.toNat []).getD i PipelineNone

/-- The pipeline test of the queue scan (lines 409-411 of the C file): the
entry's pipeline is compared with columns 0, 1 and 0 again of the worker's
row. -/
def pipelineTest (pipeline entryPipeline : AXP_PIPELINE) : Bool :=
  (entryPipeline == pipeCondAt pipeline 0) ||
  (entryPipeline == pipeCondAt pipeline 1) ||
  (entryPipeline == pipeCondAt pipeline 0)

/-- The match sets of the specification, section 4.1, one row per worker
slot (this definition follows the specification, not the code). -/
def specMatch : AXP_PIPELINE → List AXP_PIPELINE
  | EboxU0 => [EboxU0, EboxU0U1, EboxL0L1U0U1]
  | EboxU1 => [EboxU1, EboxU0U1, EboxL0L1U0U1]
  | EboxL0 => [EboxL0, EboxL0L1, EboxL0L1U0U1]
  | EboxL1 => [EboxL1, EboxL0L1, EboxL0L1U0U1]
  | FboxMul => [FboxMul]
  | FboxOther => [FboxOther]
  | _ => []

/-- The six worker slots: the pipelines `AXP_Execution_Box` is started for. -/
def workerSlots : List AXP_PIPELINE :=
  [EboxL0, EboxL1, EboxU0, EboxU1, FboxMul, FboxOther]

/-! ## Registers, instructions, queue entries -/

/-- A physical register: its 64-bit value and its scoreboard state. -/
structure AXP_REGISTERS where
  value : Nat
  state : AXP_REG_STATE
  deriving DecidableEq, Repr

/-- Modelled from the spec: the mask `AXP_REG_FP` (its header is not among the
sources) selecting the bit of a decoded register selector that says the
register is a floating-point one. -/
def AXP_REG_FP : Nat := 8

/-- Modelled from the spec: the constant `AXP_UNMAPPED_REG` (its header is not
among the sources), the sentinel physical register, index 31. -/
def AXP_UNMAPPED_REG : Nat := 31

/-- The fields of a decoded instruction the two C files use.
`decSrc1`, `decSrc2`, `decDest` are `decodedReg.bits.src1/src2/dest`. -/
structure AXP_INSTRUCTION where
  pc : Nat
  opcode : Nat
  displacement : Nat
  decSrc1 : Nat
  decSrc2 : Nat
  decDest : Nat
  src1 : Nat
  src2 : Nat
  dest : Nat
  src1v : Nat
  src2v : Nat
  destv : Nat
  state : AXP_INS_STATE
  excRegMask : AXP_EXCEPTIONS
  deriving DecidableEq, Repr

/-- An issue-queue entry. -/
structure AXP_QUEUE_ENTRY where
  ins : AXP_INSTRUCTION
  pipeline : AXP_PIPELINE
  processing : Bool
  deriving DecidableEq, Repr

/-- The part of the CPU structure the two C files use: the integer (`pr`)
and floating-point (`pf`) physical register files, the cluster counters
(arrays of `u16`), the floating-point enable bit `pCtx.fpe`, the big-endian
bit `vaCtl.b_endian`, and the CPU state. -/
structure AXP_21264_CPU where
  pr : Nat → AXP_REGISTERS
  pf : Nat → AXP_REGISTERS
  eBoxClusterCounter : Nat → Nat
  fBoxClusterCounter : Nat → Nat
  fpe : Nat
  b_endian : Nat
  cpuState : AXP_CPU_STATE

/-! ## AXP_RegistersReady -/

/-- The test `(bits & AXP_REG_FP) == AXP_REG_FP`. -/
def isFloatReg (bits : Nat) : Bool :=
  (bits &&& AXP_REG_FP) == AXP_REG_FP

/-- The register file a source or destination is looked up in. -/
def regFile (cpu : AXP_21264_CPU) (float : Bool) : Nat → AXP_REGISTERS :=
  if float then cpu.pf else cpu.pr

/-- The state the destination register is expected to be in. -/
def expectedDestState (dest : Nat) : AXP_REG_STATE :=
  if dest == AXP_UNMAPPED_REG then Valid else PendingUpdate

/-- The function `AXP_RegistersReady`: the returned flag and the entry after
the call (the call writes the instruction's operand slots).  The four
assignments of lines 200-207 are kept as they are in the C file: both the
second pair and the first pair assign `src1v`, and the second pair indexes
the register file of `src2` with `src1`. -/
def AXP_RegistersReady (cpu : AXP_21264_CPU) (entry : AXP_QUEUE_ENTRY) :
    Bool × AXP_QUEUE_ENTRY :=
  let src1Float := isFloatReg entry.ins.decSrc1
  let src2Float := isFloatReg entry.ins.decSrc2
  let destFloat := isFloatReg entry.ins.decDest
  let src1Reg := regFile cpu src1Float
  let src2Reg := regFile cpu src2Float
  let destReg := regFile cpu destFloat
  let retVal :=
    ((src1Reg entry.ins.src1).state == Valid) &&
    ((src2Reg entry.ins.src2).state == Valid) &&
    ((destReg entry.ins.dest).state == expectedDestState entry.ins.dest)
  let ins1 : AXP_INSTRUCTION :=
    if src1Float then { entry.ins with src1v := (src1Reg entry.ins.src1).value }
    else { entry.ins with src1v := (src1Reg entry.ins.src1).value }
  let ins2 : AXP_INSTRUCTION :=
    if src2Float then { ins1 with src1v := (src2Reg ins1.src1).value }
    else { ins1 with src1v := (src2Reg ins1.src1).value }
  (retVal, { entry with ins := ins2 })

/-! ## The queue scan of AXP_Execution_Box -/

/-- The condition of the `if` at lines 409-414, evaluated with the
short-circuit rules of C: `AXP_RegistersReady` is called exactly when the
pipeline test holds, the `Aborted` test is made when that conjunction is
false, and the `processing` test comes last.  Returns the value of the
condition and the entry as the evaluation leaves it. -/
def scanCondition (cpu : AXP_21264_CPU) (pipeline : AXP_PIPELINE)
    (entry : AXP_QUEUE_ENTRY) : Bool × AXP_QUEUE_ENTRY :=
  let r : Bool × AXP_QUEUE_ENTRY :=
    if pipelineTest pipeline entry.pipeline then AXP_RegistersReady cpu entry
    else (false, entry)
  ((r.1 || (r.2.ins.state == Aborted)) && (r.2.processing == false), r.2)

/-- The search loop of lines 354-424 over the queue, head first: the position
of the entry the loop breaks at (`none` when the walk comes back to the queue
header) and the queue as the loop leaves it (operand slots written by the
readiness checks, `processing` set on the selected entry). -/
def scanQueue (cpu : AXP_21264_CPU) (pipeline : AXP_PIPELINE) :
    List AXP_QUEUE_ENTRY → Option Nat × List AXP_QUEUE_ENTRY
  | [] => (none, [])
  | entry :: rest =>
    let c := scanCondition cpu pipeline entry
    if c.1 then
      (some 0, { c.2 with processing := true } :: rest)
    else
      let r := scanQueue cpu pipeline rest
      (r.1.map (· + 1), c.2 :: r.2)

/-- An entry qualifies for a worker when the condition of the scan holds for
it: not being processed, and either aborted or passing the pipeline test with
its registers ready. -/
def qualifies (cpu : AXP_21264_CPU) (pipeline : AXP_PIPELINE)
    (entry : AXP_QUEUE_ENTRY) : Bool :=
  (entry.processing == false) &&
  ((entry.ins.state == Aborted) ||
   (pipelineTest pipeline entry.pipeline && (AXP_RegistersReady cpu entry).1))

/-- The processing flags of a queue, head first. -/
def flags (queue : List AXP_QUEUE_ENTRY) : List Bool :=
  queue.map (fun e => e.processing)

/-- One step of a history of a queue: an atomic scan by the worker of some
pipeline against the current scoreboard, or a change made by another party
to the instruction records of the linked entries (position by position)
that touches no `processing` flag. -/
inductive QueueStep where
  | scan (cpu : AXP_21264_CPU) (pipeline : AXP_PIPELINE)
  | other (f : Nat → AXP_INSTRUCTION → AXP_INSTRUCTION)

/-- Apply the change of another party to the instruction records. -/
def applyOther (f : Nat → AXP_INSTRUCTION → AXP_INSTRUCTION) :
    Nat → List AXP_QUEUE_ENTRY → List AXP_QUEUE_ENTRY
  | _, [] => []
  | i, entry :: rest => { entry with ins := f i entry.ins } :: applyOther f (i + 1) rest

/-- Run a history from a queue: the positions claimed by its scans, in
order, and the final queue. -/
def runSteps : List QueueStep → List AXP_QUEUE_ENTRY → List Nat × List AXP_QUEUE_ENTRY
  | [], queue => ([], queue)
  | QueueStep.scan cpu pipeline :: steps, queue =>
    let r := scanQueue cpu pipeline queue
    let t := runSteps steps r.2
    (r.1.toList ++ t.1, t.2)
  | QueueStep.other f :: steps, queue => runSteps steps (applyOther f 0 queue)

/-! ## The rest of a worker iteration -/

/-- Indices into `eBoxClusterCounter`, in the order of `eBoxClusterStr`. -/
def AXP_21264_EBOX_L0 : Nat := 0
/-- Index of the L1 counter. -/
def AXP_21264_EBOX_L1 : Nat := 1
/-- Index of the U0 counter. -/
def AXP_21264_EBOX_U0 : Nat := 2
/-- Index of the U1 counter. -/
def AXP_21264_EBOX_U1 : Nat := 3
/-- Indices into `fBoxClusterCounter`, in the order of `fBoxClusterStr`. -/
def AXP_21264_FBOX_MULTIPLY : Nat := 0
/-- Index of the Other counter. -/
def AXP_21264_FBOX_OTHER : Nat := 1

/-- The statement `counter[i]--` on an array of `u16`. -/
def decU16 (counter : Nat → Nat) (i : Nat) : Nat → Nat :=
  Function.update counter i ((counter i + 65535) % 65536)

/-- The counter decrements of the abort path, lines 475-494. -/
def abortDecrement (cpu : AXP_21264_CPU) (p : AXP_PIPELINE) : AXP_21264_CPU :=
  let cpu1 := if p == EboxU0 || p == EboxU0U1 || p == EboxL0L1U0U1 then
    { cpu with eBoxClusterCounter := decU16 cpu.eBoxClusterCounter AXP_21264_EBOX_U0 } else cpu
  let cpu2 := if p == EboxU1 || p == EboxU0U1 || p == EboxL0L1U0U1 then
    { cpu1 with eBoxClusterCounter := decU16 cpu1.eBoxClusterCounter AXP_21264_EBOX_U1 } else cpu1
  let cpu3 := if p == EboxL0 || p == EboxL0L1 || p == EboxL0L1U0U1 then
    { cpu2 with eBoxClusterCounter := decU16 cpu2.eBoxClusterCounter AXP_21264_EBOX_L0 } else cpu2
  let cpu4 := if p == EboxL1 || p == EboxL0L1 || p == EboxL0L1U0U1 then
    { cpu3 with eBoxClusterCounter := decU16 cpu3.eBoxClusterCounter AXP_21264_EBOX_L1 } else cpu3
  if p == FboxMul then
    { cpu4 with fBoxClusterCounter := decU16 cpu4.fBoxClusterCounter AXP_21264_FBOX_MULTIPLY }
  else if p == FboxOther then
    { cpu4 with fBoxClusterCounter := decU16 cpu4.fBoxClusterCounter AXP_21264_FBOX_OTHER }
  else cpu4

/-- The counter decrements of the dispatch path, lines 519-538. -/
def dispatchDecrement (cpu : AXP_21264_CPU) (p : AXP_PIPELINE) : AXP_21264_CPU :=
  let cpu1 := if p == EboxU0 || p == EboxU0U1 || p == EboxL0L1U0U1 then
    { cpu with eBoxClusterCounter := decU16 cpu.eBoxClusterCounter AXP_21264_EBOX_U0 } else cpu
  let cpu2 := if p == EboxU1 || p == EboxU0U1 || p == EboxL0L1U0U1 then
    { cpu1 with eBoxClusterCounter := decU16 cpu1.eBoxClusterCounter AXP_21264_EBOX_U1 } else cpu1
  let cpu3 := if p == EboxL0 || p == EboxL0L1 || p == EboxL0L1U0U1 then
    { cpu2 with eBoxClusterCounter := decU16 cpu2.eBoxClusterCounter AXP_21264_EBOX_L0 } else cpu2
  let cpu4 := if p == EboxL1 || p == EboxL0L1 || p == EboxL0L1U0U1 then
    { cpu3 with eBoxClusterCounter := decU16 cpu3.eBoxClusterCounter AXP_21264_EBOX_L1 } else cpu3
  if p == FboxMul then
    { cpu4 with fBoxClusterCounter := decU16 cpu4.fBoxClusterCounter AXP_21264_FBOX_MULTIPLY }
  else if p == FboxOther then
    { cpu4 with fBoxClusterCounter := decU16 cpu4.fBoxClusterCounter AXP_21264_FBOX_OTHER }
  else cpu4

/-- Modelled from the spec: `AXP_RemoveCountedQueue` (defined in a file that
is not among the sources) unlinks one entry from the queue it is linked in;
the other entries stay linked in their order. -/
def AXP_RemoveCountedQueue (queue : List AXP_QUEUE_ENTRY) (idx : Nat) :
    List AXP_QUEUE_ENTRY :=
  queue.eraseIdx idx

/-- The external instruction dispatcher `AXP_Dispatcher(cpu, ins)`: it may
change the CPU and the instruction it is given. -/
abbrev Dispatcher := AXP_21264_CPU → AXP_INSTRUCTION → AXP_21264_CPU × AXP_INSTRUCTION

/-- What a worker iteration acts on: the CPU, the issue queue, and two logs
of calls to outside code, in call order: the entries handed to `returnEntry`
and the instructions handed to `AXP_Dispatcher`. -/
structure ExecState where
  cpu : AXP_21264_CPU
  queue : List AXP_QUEUE_ENTRY
  returned : List AXP_QUEUE_ENTRY
  dispatched : List AXP_INSTRUCTION

/-- Lines 461-464: under the ROB mutex, read the instruction state and move
`Queued` to `Executing`.  Returns the state read and the instruction. -/
def robCheck (ins : AXP_INSTRUCTION) : AXP_INS_STATE × AXP_INSTRUCTION :=
  let state := ins.state
  (state, if state == Queued then { ins with state := Executing } else ins)

/-- The abort path, lines 473-498, for the claimed entry at position `idx`
of the queue, `entry` being that entry after the ROB check. -/
def abortPath (s : ExecState) (idx : Nat) (entry : AXP_QUEUE_ENTRY) : ExecState :=
  let queue1 := AXP_RemoveCountedQueue s.queue idx
  let cpu1 := abortDecrement s.cpu entry.pipeline
  let entry1 := { entry with processing := false }
  { s with cpu := cpu1, queue := queue1, returned := s.returned ++ [entry1] }

/-- The flag `fpEnable` of lines 548-555. -/
def fpEnable (cpu : AXP_21264_CPU) (pipeline : AXP_PIPELINE) : Bool :=
  if pipeline == FboxMul || pipeline == FboxOther then cpu.fpe == 1 else true

/-- The first part of the dispatch path, lines 517-539: under the queue
mutex, unlink the entry and decrement the cluster counters. -/
def dispatchDequeue (s : ExecState) (idx : Nat) (entry : AXP_QUEUE_ENTRY) : ExecState :=
  let queue1 := AXP_RemoveCountedQueue s.queue idx
  let cpu1 := dispatchDecrement s.cpu entry.pipeline
  { s with cpu := cpu1, queue := queue1 }

/-- The second part of the dispatch path, lines 548-609: call the dispatcher
or record the floating-point disabled fault, then clear `processing` and hand
the entry to `returnEntry`. -/
def dispatchExecute (dispatcher : Dispatcher) (pipeline : AXP_PIPELINE) (s : ExecState)
    (entry : AXP_QUEUE_ENTRY) : ExecState :=
  if fpEnable s.cpu pipeline then
    let r := dispatcher s.cpu entry.ins
    let entry1 := { entry with ins := r.2, processing := false }
    { s with cpu := r.1, returned := s.returned ++ [entry1],
             dispatched := s.dispatched ++ [entry.ins] }
  else
    let ins1 := { entry.ins with excRegMask := FloatingDisabledFault,
                                 state := WaitingRetirement }
    let entry1 := { entry with ins := ins1, processing := false }
    { s with returned := s.returned ++ [entry1] }

/-- The dispatch path, lines 517-609. -/
def dispatchPath (dispatcher : Dispatcher) (pipeline : AXP_PIPELINE) (s : ExecState)
    (idx : Nat) (entry : AXP_QUEUE_ENTRY) : ExecState :=
  dispatchExecute dispatcher pipeline (dispatchDequeue s idx entry) entry

/-- Lines 461-610: what the worker of `pipeline` does with the entry it has
claimed at position `idx` of the queue. -/
def processClaimed (dispatcher : Dispatcher) (pipeline : AXP_PIPELINE) (s : ExecState)
    (idx : Nat) : ExecState :=
  match s.queue[idx]? with
  | none => s
  | some entry =>
    let r := robCheck entry.ins
    let entry1 := { entry with ins := r.2 }
    if r.1 == Aborted then abortPath s idx entry1
    else dispatchPath dispatcher pipeline s idx entry1

/-- The number of linked entries whose capability is in the match set of a
slot. -/
def occupancy (queue : List AXP_QUEUE_ENTRY) (slot : AXP_PIPELINE) : Nat :=
  queue.countP (fun e => decide (e.pipeline ∈ specMatch slot))

/-- The cluster counter of a worker slot (the `clusterCounter[clusterCountIdx]`
chosen by the `switch` at lines 269-309). -/
def clusterCounterOf (cpu : AXP_21264_CPU) : AXP_PIPELINE → Nat
  | EboxL0 => cpu.eBoxClusterCounter AXP_21264_EBOX_L0
  | EboxL1 => cpu.eBoxClusterCounter AXP_21264_EBOX_L1
  | EboxU0 => cpu.eBoxClusterCounter AXP_21264_EBOX_U0
  | EboxU1 => cpu.eBoxClusterCounter AXP_21264_EBOX_U1
  | FboxMul => cpu.fBoxClusterCounter AXP_21264_FBOX_MULTIPLY
  | FboxOther => cpu.fBoxClusterCounter AXP_21264_FBOX_OTHER
  | _ => 0

/-! ## Floating-point load/store: VAX F -/

/-- Read the bit field of `width` bits starting at bit `lo` of a word. -/
def getField (word lo width : Nat) : Nat :=
  (word / 2 ^ lo) % 2 ^ width

/-- Assign `value` to the bit field of `width` bits starting at bit `lo` of a
word: the value is truncated to the width of the field, the other bits of the
word are kept. -/
def setField (word lo width value : Nat) : Nat :=
  word - getField word lo width * 2 ^ lo + (value % 2 ^ width) * 2 ^ lo

/-- Modelled from the spec: the constant `AXP_G_BIAS` (its header is not among
the sources), the exponent bias of VAX G, the register format of VAX F
values: 1024. -/
def AXP_G_BIAS : Nat := 1024
/-- Modelled from the spec: the constant `AXP_F_BIAS` (its header is not among
the sources), the exponent bias of VAX F in memory: 128. -/
def AXP_F_BIAS : Nat := 128

/-- Modelled from the spec: the bit-field layout of `AXP_F_MEMORY` (declared
in a header that is not among the sources), the 32-bit VAX F memory format:
fraction high in bits 0-6, exponent in bits 7-14, sign in bit 15, fraction
low in bits 16-31.  Each field is given as (first bit, width). -/
def F_MEM_fractionHigh : Nat × Nat := (0, 7)
/-- Modelled from the spec: exponent field of `AXP_F_MEMORY`, 8 bits. -/
def F_MEM_exponent : Nat × Nat := (7, 8)
/-- Modelled from the spec: sign field of `AXP_F_MEMORY`. -/
def F_MEM_sign : Nat × Nat := (15, 1)
/-- Modelled from the spec: fraction low field of `AXP_F_MEMORY`. -/
def F_MEM_fractionLow : Nat × Nat := (16, 16)

/-- Modelled from the spec: the bit-field layout of the register view `fCvt`
(declared in a header that is not among the sources): a zero padding region
in bits 0-28, fraction low in bits 29-44, fraction high in bits 45-51, the
11-bit exponent in bits 52-62, sign in bit 63. -/
def F_CVT_zero : Nat × Nat := (0, 29)
/-- Modelled from the spec: fraction low field of the register view `fCvt`. -/
def F_CVT_fractionLow : Nat × Nat := (29, 16)
/-- Modelled from the spec: fraction high field of the register view `fCvt`. -/
def F_CVT_fractionHigh : Nat × Nat := (45, 7)
/-- Modelled from the spec: exponent field of the register view `fCvt`. -/
def F_CVT_exponent : Nat × Nat := (52, 11)
/-- Modelled from the spec: sign field of the register view `fCvt`. -/
def F_CVT_sign : Nat × Nat := (63, 1)
/-- Modelled from the spec: exponent field of the register view `f`, which
`AXP_STF` reads the exponent through; the same 11 bits as in `fCvt`. -/
def F_REG_exponent : Nat × Nat := (52, 11)

/-- Field read through a layout entry. -/
def rd (word : Nat) (field : Nat × Nat) : Nat :=
  getField word field.1 field.2

/-- Field assignment through a layout entry. -/
def wr (word : Nat) (field : Nat × Nat) (value : Nat) : Nat :=
  setField word field.1 field.2 value

/-- Lines 89-104 of `AXP_LDF`: from the memory word held in the low 32 bits
of `tmp` to the register value, written field by field into `destv`. -/
def AXP_LDF_convert (tmp destv : Nat) : Nat :=
  let exp0 := rd tmp F_MEM_exponent
  let exp := if exp0 != 0 then (exp0 + (AXP_G_BIAS - AXP_F_BIAS)) % 2 ^ 64 else exp0
  let d1 := wr destv F_CVT_sign (rd tmp F_MEM_sign)
  let d2 := wr d1 F_CVT_exponent exp
  let d3 := wr d2 F_CVT_fractionHigh (rd tmp F_MEM_fractionHigh)
  let d4 := wr d3 F_CVT_fractionLow (rd tmp F_MEM_fractionLow)
  wr d4 F_CVT_zero 0

/-- Lines 367-382 of `AXP_STF`: from the register value `src1v` to the memory
word, written field by field into the local `tmpF` (whose initial content is
whatever the stack held). -/
def AXP_STF_convert (src1v tmpF : Nat) : Nat :=
  let exp0 := rd src1v F_REG_exponent
  let exp := if exp0 != 0 then (exp0 + 2 ^ 64 - AXP_G_BIAS + AXP_F_BIAS) % 2 ^ 64 else exp0
  let t1 := wr tmpF F_MEM_sign (rd src1v F_CVT_sign)
  let t2 := wr t1 F_MEM_exponent exp
  let t3 := wr t2 F_MEM_fractionHigh (rd src1v F_CVT_fractionHigh)
  wr t3 F_MEM_fractionLow (rd src1v F_CVT_fractionLow)

/-! ## Floating-point load/store: IEEE S, VAX G, IEEE T -/

/-- Modelled from the spec: the constant `AXP_T_BIAS` (its header is not among
the sources), the exponent bias of IEEE T, the register format of IEEE S
values: 1023. -/
def AXP_T_BIAS : Nat := 1023
/-- Modelled from the spec: the constant `AXP_S_BIAS` (its header is not among
the sources), the exponent bias of IEEE S in memory: 127. -/
def AXP_S_BIAS : Nat := 127
/-- Modelled from the spec: the constant `AXP_S_NAN` (its header is not among
the sources), the all-ones 8-bit exponent of IEEE S. -/
def AXP_S_NAN : Nat := 0xff
/-- Modelled from the spec: the constant `AXP_R_NAN` (its header is not among
the sources), the all-ones 11-bit exponent of the register format. -/
def AXP_R_NAN : Nat := 0x7ff

/-- Modelled from the spec: the bit-field layout of `AXP_S_MEMORY` (declared
in a header that is not among the sources), the 32-bit IEEE S memory format:
fraction in bits 0-22, exponent in bits 23-30, sign in bit 31. -/
def S_MEM_fraction : Nat × Nat := (0, 23)
/-- Modelled from the spec: exponent field of `AXP_S_MEMORY`, 8 bits. -/
def S_MEM_exponent : Nat × Nat := (23, 8)
/-- Modelled from the spec: sign field of `AXP_S_MEMORY`. -/
def S_MEM_sign : Nat × Nat := (31, 1)

/-- Modelled from the spec: the bit-field layout of the register view `sCvt`
(declared in a header that is not among the sources): a zero padding region
in bits 0-28, the 23-bit fraction in bits 29-51, the 11-bit exponent in bits
52-62, sign in bit 63. -/
def S_CVT_zero : Nat × Nat := (0, 29)
/-- Modelled from the spec: fraction field of the register view `sCvt`. -/
def S_CVT_fraction : Nat × Nat := (29, 23)
/-- Modelled from the spec: exponent field of the register view `sCvt`. -/
def S_CVT_exponent : Nat × Nat := (52, 11)
/-- Modelled from the spec: sign field of the register view `sCvt`. -/
def S_CVT_sign : Nat × Nat := (63, 1)

/-- Lines 236-252 of `AXP_LDS`: from the memory word held in the low 32 bits
of `tmp` to the register value, written field by field into `destv`. -/
def AXP_LDS_convert (tmp destv : Nat) : Nat :=
  let exp0 := rd tmp S_MEM_exponent
  let exp :=
    if exp0 == AXP_S_NAN then AXP_R_NAN
    else if exp0 != 0 then (exp0 + (AXP_T_BIAS - AXP_S_BIAS)) % 2 ^ 64
    else exp0
  let d1 := wr destv S_CVT_sign (rd tmp S_MEM_sign)
  let d2 := wr d1 S_CVT_exponent exp
  let d3 := wr d2 S_CVT_fraction (rd tmp S_MEM_fraction)
  wr d3 S_CVT_zero 0

/-- Lines 500-516 of `AXP_STS`: from the register value `src1v` to the memory
word, written field by field into the local `tmpS` (whose initial content is
whatever the stack held). -/
def AXP_STS_convert (src1v tmpS : Nat) : Nat :=
  let exp0 := rd src1v S_CVT_exponent
  let exp :=
    if exp0 == AXP_R_NAN then AXP_S_NAN
    else if exp0 != 0 then (exp0 + 2 ^ 64 - AXP_T_BIAS + AXP_S_BIAS) % 2 ^ 64
    else exp0
  let t1 := wr tmpS S_MEM_sign (rd src1v S_CVT_sign)
  let t2 := wr t1 S_MEM_exponent exp
  wr t2 S_MEM_fraction (rd src1v S_CVT_fraction)

/-- Modelled from the spec: the bit-field layout of `AXP_G_MEMORY` (declared
in a header that is not among the sources), the 64-bit VAX G memory format:
fraction high in bits 0-3, exponent in bits 4-14, sign in bit 15, then the
three 16-bit fraction words mid-high, mid-low and low. -/
def G_MEM_fractionHigh : Nat × Nat := (0, 4)
/-- Modelled from the spec: exponent field of `AXP_G_MEMORY`, 11 bits. -/
def G_MEM_exponent : Nat × Nat := (4, 11)
/-- Modelled from the spec: sign field of `AXP_G_MEMORY`. -/
def G_MEM_sign : Nat × Nat := (15, 1)
/-- Modelled from the spec: fraction mid-high field of `AXP_G_MEMORY`. -/
def G_MEM_fractionMidHigh : Nat × Nat := (16, 16)
/-- Modelled from the spec: fraction mid-low field of `AXP_G_MEMORY`. -/
def G_MEM_fractionMidLow : Nat × Nat := (32, 16)
/-- Modelled from the spec: fraction low field of `AXP_G_MEMORY`. -/
def G_MEM_fractionLow : Nat × Nat := (48, 16)

/-- Modelled from the spec: the bit-field layout of the register view `gCvt`
(declared in a header that is not among the sources): the fraction words low,
mid-low and mid-high in bits 0-47, fraction high in bits 48-51, the 11-bit
exponent in bits 52-62, sign in bit 63. -/
def G_CVT_fractionLow : Nat × Nat := (0, 16)
/-- Modelled from the spec: fraction mid-low field of the register view `gCvt`. -/
def G_CVT_fractionMidLow : Nat × Nat := (16, 16)
/-- Modelled from the spec: fraction mid-high field of the register view `gCvt`. -/
def G_CVT_fractionMidHigh : Nat × Nat := (32, 16)
/-- Modelled from the spec: fraction high field of the register view `gCvt`. -/
def G_CVT_fractionHigh : Nat × Nat := (48, 4)
/-- Modelled from the spec: exponent field of the register view `gCvt`. -/
def G_CVT_exponent : Nat × Nat := (52, 11)
/-- Modelled from the spec: sign field of the register view `gCvt`. -/
def G_CVT_sign : Nat × Nat := (63, 1)

/-- Lines 159-168 of `AXP_LDG`: the six fields of the memory word `tmp` are
copied, one by one, into the register view of `destv`. -/
def AXP_LDG_convert (tmp destv : Nat) : Nat :=
  let d1 := wr destv G_CVT_sign (rd tmp G_MEM_sign)
  let d2 := wr d1 G_CVT_exponent (rd tmp G_MEM_exponent)
  let d3 := wr d2 G_CVT_fractionHigh (rd tmp G_MEM_fractionHigh)
  let d4 := wr d3 G_CVT_fractionMidHigh (rd tmp G_MEM_fractionMidHigh)
  let d5 := wr d4 G_CVT_fractionMidLow (rd tmp G_MEM_fractionMidLow)
  wr d5 G_CVT_fractionLow (rd tmp G_MEM_fractionLow)

/-- Lines 432-441 of `AXP_STG`: the six fields of the register value `src1v`
are copied, one by one, into the local `tmpG` (whose initial content is
whatever the stack held). -/
def AXP_STG_convert (src1v tmpG : Nat) : Nat :=
  let t1 := wr tmpG G_MEM_sign (rd src1v G_CVT_sign)
  let t2 := wr t1 G_MEM_exponent (rd src1v G_CVT_exponent)
  let t3 := wr t2 G_MEM_fractionHigh (rd src1v G_CVT_fractionHigh)
  let t4 := wr t3 G_MEM_fractionMidHigh (rd src1v G_CVT_fractionMidHigh)
  let t5 := wr t4 G_MEM_fractionMidLow (rd src1v G_CVT_fractionMidLow)
  wr t5 G_MEM_fractionLow (rd src1v G_CVT_fractionLow)

/-- Line 309 of `AXP_LDT`: the 64-bit memory value becomes the register value
as it is. -/
def AXP_LDT_convert (tmp : Nat) : Nat := tmp

/-- Line 567 of `AXP_STT` (the store the comment there spells out): the
register value is the memory value as it is. -/
def AXP_STT_convert (src1v : Nat) : Nat := src1v

/-! ## The eight load/store functions -/

/-- Modelled from the spec: the macro `AXP_BIG_ENDIAN_LONG` (its header is not
among the sources): the address of a longword in big-endian mode, the address
XOR 4. -/
def AXP_BIG_ENDIAN_LONG (va : Nat) : Nat := va ^^^ 4

/-- What a load/store function leaves behind: the exception it returns, the
instruction, the address it computed for the access (`vaPrime` for the 32-bit
formats, `va` for the 64-bit ones) and the memory word of the access (for a
load the word converted, for a store the word built).  The memory access
itself is a TODO in the C file: a load takes the address as the word loaded,
a store builds its word and drops it. -/
structure FpAccess where
  retVal : AXP_EXCEPTIONS
  instr : AXP_INSTRUCTION
  va : Nat
  word : Nat
  deriving DecidableEq, Repr

/-- The sum `instr->src1v.r.uq + instr->displacement` in 64 bits. -/
def effectiveAddress (instr : AXP_INSTRUCTION) : Nat :=
  (instr.src1v + instr.displacement) % 2 ^ 64

/-- The function `AXP_LDF`. -/
def AXP_LDF (cpu : AXP_21264_CPU) (instr : AXP_INSTRUCTION) : FpAccess :=
  let va := effectiveAddress instr
  let vaPrime := if cpu.b_endian == 1 then AXP_BIG_ENDIAN_LONG va else va
  let tmp := vaPrime
  { retVal := NoException,
    instr := { instr with destv := AXP_LDF_convert tmp instr.destv,
                          state := WaitingRetirement },
    va := vaPrime, word := tmp }

/-- The function `AXP_LDG`. -/
def AXP_LDG (_cpu : AXP_21264_CPU) (instr : AXP_INSTRUCTION) : FpAccess :=
  let va := effectiveAddress instr
  let tmp := va
  { retVal := NoException,
    instr := { instr with destv := AXP_LDG_convert tmp instr.destv,
                          state := WaitingRetirement },
    va := va, word := tmp }

/-- The function `AXP_LDS`. -/
def AXP_LDS (cpu : AXP_21264_CPU) (instr : AXP_INSTRUCTION) : FpAccess :=
  let va := effectiveAddress instr
  let vaPrime := if cpu.b_endian == 1 then AXP_BIG_ENDIAN_LONG va else va
  let tmp := vaPrime
  { retVal := NoException,
    instr := { instr with destv := AXP_LDS_convert tmp instr.destv,
                          state := WaitingRetirement },
    va := vaPrime, word := tmp }

/-- The function `AXP_LDT`. -/
def AXP_LDT (_cpu : AXP_21264_CPU) (instr : AXP_INSTRUCTION) : FpAccess :=
  let va := effectiveAddress instr
  { retVal := NoException,
    instr := { instr with destv := AXP_LDT_convert va, state := WaitingRetirement },
    va := va, word := va }

/-- The function `AXP_STF`; `tmpF` is the initial content of its local of
that name. -/
def AXP_STF (cpu : AXP_21264_CPU) (instr : AXP_INSTRUCTION) (tmpF : Nat) : FpAccess :=
  let va := effectiveAddress instr
  let vaPrime := if cpu.b_endian == 1 then AXP_BIG_ENDIAN_LONG va else va
  { retVal := NoException,
    instr := { instr with state := WaitingRetirement },
    va := vaPrime, word := AXP_STF_convert instr.src1v tmpF }

/-- The function `AXP_STG`; `tmpG` is the initial content of its local of
that name. -/
def AXP_STG (_cpu : AXP_21264_CPU) (instr : AXP_INSTRUCTION) (tmpG : Nat) : FpAccess :=
  let va := effectiveAddress instr
  { retVal := NoException,
    instr := { instr with state := WaitingRetirement },
    va := va, word := AXP_STG_convert instr.src1v tmpG }

/-- The function `AXP_STS`; `tmpS` is the initial content of its local of
that name. -/
def AXP_STS (cpu : AXP_21264_CPU) (instr : AXP_INSTRUCTION) (tmpS : Nat) : FpAccess :=
  let va := effectiveAddress instr
  let vaPrime := if cpu.b_endian == 1 then AXP_BIG_ENDIAN_LONG va else va
  { retVal := NoException,
    instr := { instr with state := WaitingRetirement },
    va := vaPrime, word := AXP_STS_convert instr.src1v tmpS }

/-- The function `AXP_STT`. -/
def AXP_STT (_cpu : AXP_21264_CPU) (instr : AXP_INSTRUCTION) : FpAccess :=
  let va := effectiveAddress instr
  { retVal := NoException,
    instr := { instr with state := WaitingRetirement },
    va := va, word := AXP_STT_convert instr.src1v }

/-! ## A whole worker iteration, and the worker loop with its locks -/

/-- Lines 354-610 run by one worker with no other party acting in between:
the scan, then the handling of the entry it claimed. -/
def workerIteration (dispatcher : Dispatcher) (pipeline : AXP_PIPELINE) (s : ExecState) :
    ExecState :=
  let r := scanQueue s.cpu pipeline s.queue
  match r.1 with
  | none => { s with queue := r.2 }
  | some idx => processClaimed dispatcher pipeline { s with queue := r.2 } idx

/-- The mutexes `AXP_Execution_Box` takes: the queue mutex passed as `mutex`
(`eBoxMutex` or `fBoxMutex`), `cpu->robMutex` and `cpu->iBoxIPRMutex`. -/
inductive AXP_MUTEX where
  | queueMutex
  | robMutex
  | iBoxIPRMutex
  deriving DecidableEq, Repr

/-- The pthread calls of the worker on a mutex. -/
inductive LockOp where
  | lock
  | unlock
  | condWait
  deriving DecidableEq, Repr

/-- One pthread call of the worker: the call, its mutex, and the mutexes the
worker holds when it makes the call. -/
structure LockEvent where
  op : LockOp
  mutex : AXP_MUTEX
  held : List AXP_MUTEX
  deriving DecidableEq, Repr

/-- Where the worker stands between two steps.  `robTest`, `pathTest` and
`execute` carry the claimed entry (and its position in the queue while it is
linked); `pathTest` also carries the state read under the ROB mutex. -/
inductive WorkerPC where
  | loopHead
  | waitTest
  | shutdownTest
  | robTest (idx : Nat) (entry : AXP_QUEUE_ENTRY)
  | pathTest (idx : Nat) (entry : AXP_QUEUE_ENTRY) (state : AXP_INS_STATE)
  | execute (entry : AXP_QUEUE_ENTRY)
  | returned
  deriving DecidableEq, Repr

/-- A worker and what it shares with the other threads: the shared state, the
worker's position, its local flag `nothingReadyForMe`, the mutexes it holds,
its pthread calls so far, and whether it is blocked for good in a
`pthread_mutex_lock` on a mutex it already holds (the mutexes are not
reentrant). -/
structure WorkerConfig where
  shared : ExecState
  pc : WorkerPC
  nothingReadyForMe : Bool
  held : List AXP_MUTEX
  events : List LockEvent
  blocked : Bool

/-- A worker entering `AXP_Execution_Box`. -/
def initWorker (s : ExecState) : WorkerConfig :=
  { shared := s, pc := WorkerPC.loopHead, nothingReadyForMe := false, held := [],
    events := [], blocked := false }

/-- Modelled from the spec: `pthread_mutex_lock` on a non-reentrant mutex.  The
call is recorded; the worker then holds the mutex, or is blocked for good
when it already holds it. -/
def mutexLock (m : AXP_MUTEX) (c : WorkerConfig) : WorkerConfig :=
  if c.blocked then c
  else if m ∈ c.held then
    { c with events := c.events ++ [⟨LockOp.lock, m, c.held⟩], blocked := true }
  else
    { c with events := c.events ++ [⟨LockOp.lock, m, c.held⟩], held := m :: c.held }

/-- Modelled from the spec: `pthread_mutex_unlock`.  The call is recorded and
the worker no longer holds the mutex. -/
def mutexUnlock (m : AXP_MUTEX) (c : WorkerConfig) : WorkerConfig :=
  if c.blocked then c
  else { c with events := c.events ++ [⟨LockOp.unlock, m, c.held⟩], held := c.held.erase m }

/-- Modelled from the spec: `pthread_cond_wait(cond, mutex)`.  The call is
recorded; the mutex is released while waiting and held again on return. -/
def condWait (c : WorkerConfig) : WorkerConfig :=
  if c.blocked then c
  else { c with events := c.events ++ [⟨LockOp.condWait, AXP_MUTEX.queueMutex, c.held⟩] }

/-- A change of the shared state by the worker. -/
def setShared (f : ExecState → ExecState) (c : WorkerConfig) : WorkerConfig :=
  if c.blocked then c else { c with shared := f c.shared }

/-- An assignment to the local `nothingReadyForMe`. -/
def setNothingReady (b : Bool) (c : WorkerConfig) : WorkerConfig :=
  if c.blocked then c else { c with nothingReadyForMe := b }

/-- The worker moves on to another position. -/
def goTo (pc : WorkerPC) (c : WorkerConfig) : WorkerConfig :=
  if c.blocked then c else { c with pc := pc }

/-- The entry a worker has claimed, as the shared state has it now: the entry
at its position while it is linked. -/
def claimedEntry (s : ExecState) (idx : Nat) (entry : AXP_QUEUE_ENTRY) : AXP_QUEUE_ENTRY :=
  (s.queue[idx]?).getD entry

/-- The wait predicate of lines 327-330. -/
def waitPredicate (pipeline : AXP_PIPELINE) (c : WorkerConfig) : Bool :=
  (c.shared.cpu.cpuState != AXP_CPU_STATE.ShuttingDown) &&
  (c.shared.queue.isEmpty || (clusterCounterOf c.shared.cpu pipeline == 0) ||
   (c.nothingReadyForMe == true))

/-- One step of the worker of `pipeline`, from one position to the next:

* `loopHead`: the test of the outer `while` (line 315), then either the lock
  of line 321 or, on shutdown, the unlock of line 616 and the return;
* `waitTest`: the wait predicate (lines 327-330), then one `pthread_cond_wait`
  or the way out of the inner loop;
* `shutdownTest`: the test of line 352, then the scan (lines 354-424) and the
  unlock of line 446 or 454, or on shutdown straight back to the loop head
  (the scan returns a position of the queue, so the last `none` is never
  taken);
* `robTest`: lines 461-464;
* `pathTest`: the test of line 465, then the abort path (lines 473-498) or the
  dequeue of the dispatch path (lines 517-539);
* `execute`: lines 548-609. -/
def workerStep (dispatcher : Dispatcher) (pipeline : AXP_PIPELINE) (c : WorkerConfig) :
    WorkerConfig :=
  if c.blocked then c
  else
    match c.pc with
    | WorkerPC.loopHead =>
      if c.shared.cpu.cpuState != AXP_CPU_STATE.ShuttingDown then
        c |> mutexLock AXP_MUTEX.queueMutex |> goTo WorkerPC.waitTest
      else
        c |> mutexUnlock AXP_MUTEX.queueMutex |> goTo WorkerPC.returned
    | WorkerPC.waitTest =>
      if waitPredicate pipeline c then
        c |> setNothingReady false |> condWait
      else
        c |> goTo WorkerPC.shutdownTest
    | WorkerPC.shutdownTest =>
      if c.shared.cpu.cpuState != AXP_CPU_STATE.ShuttingDown then
        let r := scanQueue c.shared.cpu pipeline c.shared.queue
        match r.1 with
        | none =>
          c |> setShared (fun s => { s with queue := r.2 }) |> setNothingReady true
            |> mutexUnlock AXP_MUTEX.queueMutex |> goTo WorkerPC.loopHead
        | some idx =>
          match r.2[idx]? with
          | some entry =>
            c |> setShared (fun s => { s with queue := r.2 })
              |> mutexUnlock AXP_MUTEX.queueMutex
              |> goTo (WorkerPC.robTest idx entry)
          | none => c
      else
        c |> goTo WorkerPC.loopHead
    | WorkerPC.robTest idx entry =>
      let e := claimedEntry c.shared idx entry
      let r := robCheck e.ins
      let e1 := { e with ins := r.2 }
      c |> mutexLock AXP_MUTEX.robMutex
        |> setShared (fun s => { s with queue := s.queue.set idx e1 })
        |> mutexUnlock AXP_MUTEX.robMutex
        |> goTo (WorkerPC.pathTest idx e1 r.1)
    | WorkerPC.pathTest idx entry state =>
      let e := claimedEntry c.shared idx entry
      if state == Aborted then
        c |> mutexLock AXP_MUTEX.queueMutex
          |> setShared (fun s => abortPath s idx e)
          |> mutexUnlock AXP_MUTEX.queueMutex
          |> goTo WorkerPC.loopHead
      else
        c |> mutexLock AXP_MUTEX.queueMutex
          |> setShared (fun s => dispatchDequeue s idx e)
          |> mutexUnlock AXP_MUTEX.queueMutex
          |> goTo (WorkerPC.execute e)
    | WorkerPC.execute entry =>
      let c1 :=
        if pipeline == FboxMul || pipeline == FboxOther then
          c |> mutexLock AXP_MUTEX.iBoxIPRMutex |> mutexUnlock AXP_MUTEX.iBoxIPRMutex
        else c
      if fpEnable c.shared.cpu pipeline then
        c1 |> setShared (fun s => dispatchExecute dispatcher pipeline s entry)
           |> goTo WorkerPC.loopHead
      else
        c1 |> mutexLock AXP_MUTEX.robMutex
           |> setShared (fun s => dispatchExecute dispatcher pipeline s entry)
           |> mutexUnlock AXP_MUTEX.robMutex
           |> goTo WorkerPC.loopHead
    | WorkerPC.returned => c

/-- A run of the worker: before each of its steps the other threads change
the shared state as the next element of `others` says. -/
def runWorker (dispatcher : Dispatcher) (pipeline : AXP_PIPELINE) :
    List (ExecState → ExecState) → WorkerConfig → WorkerConfig
  | [], c => c
  | f :: others, c =>
    runWorker dispatcher pipeline others
      (workerStep dispatcher pipeline { c with shared := f c.shared })

/-- The lock order of section 5: the ROB mutex is not acquired while the
queue mutex is held, and the queue mutex is not acquired while the ROB mutex
or the IPR mutex is held. -/
def lockOrderOK (e : LockEvent) : Bool :=
  if e.op == LockOp.lock then
    match e.mutex with
    | AXP_MUTEX.robMutex => !(e.held.contains AXP_MUTEX.queueMutex)
    | AXP_MUTEX.queueMutex =>
      !(e.held.contains AXP_MUTEX.robMutex) && !(e.held.contains AXP_MUTEX.iBoxIPRMutex)
    | AXP_MUTEX.iBoxIPRMutex => true
  else true

/-- A balanced call on a mutex: an unlock or a wait of a mutex the worker
holds, a lock of a mutex it does not hold. -/
def balancedCall (e : LockEvent) : Bool :=
  match e.op with
  | LockOp.lock => !(e.held.contains e.mutex)
  | LockOp.unlock => e.held.contains e.mutex
  | LockOp.condWait => e.held.contains e.mutex

/-! ## The lock invariant of the worker loop -/

/-- Every pthread call made so far respects the lock order and, unless the
worker is blocked, it holds exactly the mutexes `h`. -/
def lockState (c : WorkerConfig) (h : List AXP_MUTEX) : Prop :=
  (∀ e ∈ c.events, lockOrderOK e = true) ∧ (c.blocked = true ∨ c.held = h)

/-- The mutexes a running worker may hold at each position. -/
def heldAt : WorkerPC → List AXP_MUTEX → Bool
  | WorkerPC.loopHead, h => h == [] || h == [AXP_MUTEX.queueMutex]
  | WorkerPC.waitTest, h => h == [AXP_MUTEX.queueMutex]
  | WorkerPC.shutdownTest, h => h == [AXP_MUTEX.queueMutex]
  | WorkerPC.robTest _ _, h => h == []
  | WorkerPC.pathTest _ _ _, h => h == []
  | WorkerPC.execute _, h => h == []
  | WorkerPC.returned, _ => true

/-- The invariant of the worker loop. -/
def lockInv (c : WorkerConfig) : Prop :=
  (∀ e ∈ c.events, lockOrderOK e = true) ∧ (c.blocked = true ∨ heldAt c.pc c.held = true)

/-! ## Memory faults, and what a scan may touch -/

/-- Modelled from the spec: the fault classes the memory subsystem reports for
an access (section 7); the C file names them only in its TODO comments. -/
inductive MemFault where
  | AccessViolation
  | AlignmentFault
  | FaultOnRead
  | FaultOnWrite
  | TranslationNotValid
  deriving DecidableEq, Repr

/-- Modelled from the spec: the least an operation does when it surfaces a
fault: the exception it returns and the exception mask of the instruction are
not "no exception", and the instruction waits for retirement. -/
def surfacesFault (r : FpAccess) : Bool :=
  (r.retVal != NoException) && (r.instr.excRegMask != NoException) &&
  (r.instr.state == WaitingRetirement)

/-- Modelled from the spec: an operation honours the memory subsystem `mem`
(which reports, for an address, the fault of an access there, if any) when it
surfaces the fault reported for the address it accesses. -/
def honoursFaults (mem : Nat → Option MemFault) (r : FpAccess) : Prop :=
  ∀ fault, mem r.va = some fault → surfacesFault r = true

/-- Two entries that differ at most in the operand slots `src1v` and `src2v`
of their instruction. -/
def sameExceptOperands (a b : AXP_QUEUE_ENTRY) : Prop :=
  b.pipeline = a.pipeline ∧ b.processing = a.processing ∧
  { b.ins with src1v := 0, src2v := 0 } = { a.ins with src1v := 0, src2v := 0 }

/-- What a scan by the worker of `pipeline` may do to an entry it does not
select: the entry differs at most in the operand slots `src1v` and `src2v`,
and not at all when it fails the worker's pipeline test. -/
def sameUpToScan (pipeline : AXP_PIPELINE) (a b : AXP_QUEUE_ENTRY) : Prop :=
  sameExceptOperands a b ∧ (pipelineTest pipeline a.pipeline = false → b = a)

/-! ## Scans and waits in a run of the worker -/

/-- The configurations at which the worker takes its steps in a run: each is
the configuration right after the other threads have made their change. -/
def runConfigs (dispatcher : Dispatcher) (pipeline : AXP_PIPELINE) :
    List (ExecState → ExecState) → WorkerConfig → List WorkerConfig
  | [], _ => []
  | f :: others, c =>
    { c with shared := f c.shared } ::
      runConfigs dispatcher pipeline others
        (workerStep dispatcher pipeline { c with shared := f c.shared })

/-- The next step of the worker starts a queue scan: it stands at the test of
line 352 and the CPU is not shutting down. -/
def startsScan (c : WorkerConfig) : Bool :=
  !c.blocked && (c.pc == WorkerPC.shutdownTest) &&
  (c.shared.cpu.cpuState != AXP_CPU_STATE.ShuttingDown)

/-- The next step of the worker is a scan that selects nothing. -/
def scanFindsNothing (pipeline : AXP_PIPELINE) (c : WorkerConfig) : Bool :=
  startsScan c && (scanQueue c.shared.cpu pipeline c.shared.queue).1.isNone

/-- The next step of the worker is a wait on the condition variable: it
stands at the wait predicate and the predicate holds. -/
def startsWait (pipeline : AXP_PIPELINE) (c : WorkerConfig) : Bool :=
  !c.blocked && (c.pc == WorkerPC.waitTest) && waitPredicate pipeline c

/-- Modelled from the spec: what the other threads respect (section 5).  The
CPU state `ShuttingDown` is final, and while the worker holds the queue mutex
nobody else changes whether the queue is empty or the cluster counter of the
worker's slot.  `waited` says that the worker's last step was a wait on the
condition variable: the mutex was released during the wait, so the change made
meanwhile is free to touch the queue and its counters. -/
def respects (pipeline : AXP_PIPELINE) (waited : Bool) (f : ExecState → ExecState)
    (c : WorkerConfig) : Bool :=
  (!(c.shared.cpu.cpuState == AXP_CPU_STATE.ShuttingDown) ||
    ((f c.shared).cpu.cpuState == AXP_CPU_STATE.ShuttingDown)) &&
  (waited || !(c.held.contains AXP_MUTEX.queueMutex) ||
    (((f c.shared).queue.isEmpty == c.shared.queue.isEmpty) &&
     (clusterCounterOf (f c.shared).cpu pipeline == clusterCounterOf c.shared.cpu pipeline)))

/-- Every change of the other threads in a run respects the worker; `waited`
says whether the worker's last step was a wait. -/
def respectfulRun (dispatcher : Dispatcher) (pipeline : AXP_PIPELINE) :
    Bool → List (ExecState → ExecState) → WorkerConfig → Bool
  | _, [], _ => true
  | waited, f :: others, c =>
    respects pipeline waited f c &&
      respectfulRun dispatcher pipeline (startsWait pipeline { c with shared := f c.shared })
        others (workerStep dispatcher pipeline { c with shared := f c.shared })

/-- Whether a wait is owed after the step taken at `c`: a scan that selects
nothing makes one owed, a wait pays it. -/
def nextOwed (pipeline : AXP_PIPELINE) (owed : Bool) (c : WorkerConfig) : Bool :=
  if startsScan c then scanFindsNothing pipeline c
  else if startsWait pipeline c then false
  else owed

/-- A monitor over the configurations of a run: no scan starts while a wait
is owed, that is, after a scan that selected nothing the worker waits at
least once before it scans again. -/
def waitsBeforeRescan (pipeline : AXP_PIPELINE) : Bool → List WorkerConfig → Bool
  | _, [] => true
  | owed, c :: cs =>
    (!(startsScan c && owed)) && waitsBeforeRescan pipeline (nextOwed pipeline owed c) cs

/-- The invariant behind the monitor: a running worker that stands at the
wait predicate or at the test of line 352 holds the queue mutex; at line 352
either the CPU is shutting down or the queue is not empty, the counter of the
worker's slot is not zero and `nothingReadyForMe` is false; and while a wait
is owed `nothingReadyForMe` is true. -/
def scanInv (pipeline : AXP_PIPELINE) (c : WorkerConfig) (owed : Bool) : Prop :=
  c.blocked = true ∨
  ((c.pc = WorkerPC.waitTest → AXP_MUTEX.queueMutex ∈ c.held) ∧
   (c.pc = WorkerPC.shutdownTest →
      AXP_MUTEX.queueMutex ∈ c.held ∧
      (c.shared.cpu.cpuState = AXP_CPU_STATE.ShuttingDown ∨
       (c.shared.queue.isEmpty = false ∧ clusterCounterOf c.shared.cpu pipeline ≠ 0 ∧
        c.nothingReadyForMe = false))) ∧
   (owed = true → c.nothingReadyForMe = true))

/-- Unless the worker is blocked, its flag `nothingReadyForMe` is `nr`. -/
def flagIs (c : WorkerConfig) (nr : Bool) : Prop :=
  c.blocked = true ∨ c.nothingReadyForMe = nr

/-! ## Concrete inputs used by the checks below -/

/-- An integer register file: registers 1 and 2 hold 11 and 22 and are
`Valid`, every other register is `PendingUpdate` with value 0. -/
def exRegs : Nat → AXP_REGISTERS := fun i =>
  if i = 1 then ⟨11, Valid⟩ else if i = 2 then ⟨22, Valid⟩ else ⟨0, PendingUpdate⟩

/-- A floating-point register file: register 1 holds 77 and is `Valid`, register
2 holds 88 and is `Valid`, every other register is `PendingUpdate`. -/
def exFRegs : Nat → AXP_REGISTERS := fun i =>
  if i = 1 then ⟨77, Valid⟩ else if i = 2 then ⟨88, Valid⟩ else ⟨0, PendingUpdate⟩

/-- Cluster counters of the integer queue `exQueue`: L0 = 1, L1 = 0, U0 = 2,
U1 = 2. -/
def exECounters : Nat → Nat := fun i =>
  if i = 0 then 1 else if i = 1 then 0 else if i = 2 then 2 else if i = 3 then 2 else 0

/-- A CPU with floating point enabled. -/
def exCpu : AXP_21264_CPU :=
  { pr := exRegs, pf := exFRegs, eBoxClusterCounter := exECounters,
    fBoxClusterCounter := fun _ => 0, fpe := 1, b_endian := 0,
    cpuState := AXP_CPU_STATE.Run }

/-- An integer instruction reading physical registers 1 and 2 and writing
physical register 3; its operand slots hold 0. -/
def exIns : AXP_INSTRUCTION :=
  { pc := 4096, opcode := 16, displacement := 0, decSrc1 := 1, decSrc2 := 2, decDest := 3,
    src1 := 1, src2 := 2, dest := 3, src1v := 0, src2v := 0, destv := 0,
    state := Queued, excRegMask := NoException }

/-- A queued entry for the upper pipelines, not yet claimed. -/
def exEntry : AXP_QUEUE_ENTRY :=
  { ins := exIns, pipeline := EboxU0U1, processing := false }

/-- The same entry while another worker is processing it. -/
def exBusy : AXP_QUEUE_ENTRY :=
  { ins := exIns, pipeline := EboxU0U1, processing := true }

/-- An entry for L0 whose instruction has been aborted, not yet claimed. -/
def exAborted : AXP_QUEUE_ENTRY :=
  { ins := { exIns with state := Aborted }, pipeline := EboxL0, processing := false }

/-- The aborted entry once a worker has claimed it. -/
def exClaimedAborted : AXP_QUEUE_ENTRY :=
  { exAborted with processing := true }

/-- An integer issue queue of three entries. -/
def exQueue : List AXP_QUEUE_ENTRY := [exBusy, exEntry, exAborted]

/-- A dispatcher that only marks the instruction as waiting for retirement. -/
def exDispatcher : Dispatcher :=
  fun cpu ins => (cpu, { ins with state := WaitingRetirement })

/-- A state in which the aborted entry at position 2 has been claimed. -/
def exState : ExecState :=
  { cpu := exCpu, queue := [exBusy, exEntry, exClaimedAborted], returned := [],
    dispatched := [] }

/-- A floating-point entry for the multiply pipeline, claimed by its worker. -/
def exFpEntry : AXP_QUEUE_ENTRY :=
  { ins := { exIns with decSrc1 := 9, decSrc2 := 10, decDest := 11 },
    pipeline := FboxMul, processing := true }

/-- A state with floating point disabled and one claimed floating-point
entry. -/
def exFpState : ExecState :=
  { cpu := { exCpu with fpe := 0, eBoxClusterCounter := fun _ => 0,
                        fBoxClusterCounter := fun i => if i = 0 then 1 else 0 },
    queue := [exFpEntry], returned := [], dispatched := [] }

/-- The VAX F memory word with sign 1, exponent 0x81 and fraction 0x123456
(fraction high 0x12, fraction low 0x3456). -/
def exFWord : Nat := 0x12 + 0x81 * 2 ^ 7 + 1 * 2 ^ 15 + 0x3456 * 2 ^ 16

/-- Another thread sets the CPU state to `ShuttingDown`. -/
def exShutdown : ExecState → ExecState :=
  fun s => { s with cpu := { s.cpu with cpuState := AXP_CPU_STATE.ShuttingDown } }

/-- A running CPU with the three entries of `exQueue` queued and nothing
returned or dispatched yet. -/
def exStart : ExecState :=
  { cpu := exCpu, queue := exQueue, returned := [], dispatched := [] }

/-- A running CPU with an empty queue. -/
def exIdle : ExecState :=
  { cpu := exCpu, queue := [], returned := [], dispatched := [] }

/-- The IEEE S memory word with sign 1, exponent 0xFF (all ones) and fraction
0x400001. -/
def exSNaN : Nat := 0x400001 + 0xFF * 2 ^ 23 + 1 * 2 ^ 31

/-- A VAX G memory word with sign 1, exponent 0x401, fraction high 0x5 and
the fraction words 0x1111, 0x2222, 0x3333. -/
def exGWord : Nat :=
  0x5 + 0x401 * 2 ^ 4 + 1 * 2 ^ 15 + 0x1111 * 2 ^ 16 + 0x2222 * 2 ^ 32 + 0x3333 * 2 ^ 48

/-- A register value with sign 1, exponent 0x401, fraction high 0x12, fraction
low 0x3456 and zero padding. -/
def exFReg : Nat := 0x3456 * 2 ^ 29 + 0x12 * 2 ^ 45 + 0x401 * 2 ^ 52 + 1 * 2 ^ 63

/-- The CPU `exCpu` in big-endian mode. -/
def exBigEndianCpu : AXP_21264_CPU := { exCpu with b_endian := 1 }

/-- A load whose base register holds 0x100, displacement 0. -/
def exLoadAt100 : AXP_INSTRUCTION := { exIns with src1v := 0x100, state := Executing }

/-- The same load with the base register holding 0x104. -/
def exLoadAt104 : AXP_INSTRUCTION := { exIns with src1v := 0x104, state := Executing }

/-- The floating-point state with the entry not yet claimed. -/
def exFpStart : ExecState :=
  { exFpState with queue := [{ exFpEntry with processing := false }] }

/-- A memory subsystem that reports an access violation at every address. -/
def exFaultyMemory : Nat → Option MemFault :=
  fun _ => some MemFault.AccessViolation

/-- An entry whose second source, physical register 3, is still
`PendingUpdate`; its first source, register 1, is `Valid` and holds 11. -/
def exNotReady : AXP_QUEUE_ENTRY :=
  { ins := { exIns with src2 := 3 }, pipeline := EboxU0U1, processing := false }

/-- An entry that any of the four integer pipelines may execute. -/
def exAnyInteger : AXP_QUEUE_ENTRY :=
  { ins := exIns, pipeline := EboxL0L1U0U1, processing := false }

/-- A CPU whose four integer cluster counters are 1: the counters of a queue
holding `exAnyInteger` alone. -/
def exAnyIntegerCpu : AXP_21264_CPU :=
  { exCpu with eBoxClusterCounter := fun i => if i < 4 then 1 else 0 }

/-- A register value with sign 1, exponent 896, fraction 0x400001 and zero
padding. -/
def exSReg896 : Nat := 0x400001 * 2 ^ 29 + 896 * 2 ^ 52 + 1 * 2 ^ 63

/-- A register value with sign 0, exponent 1151, fraction 1 and zero padding. -/
def exSReg1151 : Nat := 1 * 2 ^ 29 + 1151 * 2 ^ 52

/-- A register value with sign 1, exponent 1000, fraction 0x400001 and zero
padding. -/
def exSReg1000 : Nat := 0x400001 * 2 ^ 29 + 1000 * 2 ^ 52 + 1 * 2 ^ 63

/-- A running CPU whose queue holds one entry that is not ready: the worker
of U1 scans it and selects nothing. -/
def exStalled : ExecState :=
  { cpu := exCpu, queue := [exNotReady], returned := [], dispatched := [] }

/-- The load at 0x104 with a destination slot that holds all ones from an
earlier instruction. -/
def exLoadAt104Used : AXP_INSTRUCTION := { exLoadAt104 with destv := 0xFFFFFFFFFFFFFFFF }

/-- A running CPU whose queue holds only `exBusy`, an entry with ready
registers that another worker has claimed. -/
def exBusyOnly : ExecState :=
  { cpu := exCpu, queue := [exBusy], returned := [], dispatched := [] }

/-! ## Lemmas: readiness check and queue scan -/

theorem registersReady_frame (cpu : AXP_21264_CPU) (entry : AXP_QUEUE_ENTRY) :
    (AXP_RegistersReady cpu entry).2.processing = entry.processing ∧
    (AXP_RegistersReady cpu entry).2.pipeline = entry.pipeline ∧
    (AXP_RegistersReady cpu entry).2.ins.state = entry.ins.state := by
  simp [AXP_RegistersReady]

theorem registersReady_slots (cpu : AXP_21264_CPU) (entry : AXP_QUEUE_ENTRY) :
    (AXP_RegistersReady cpu entry).2.ins.src2v = entry.ins.src2v ∧
    (AXP_RegistersReady cpu entry).2.ins.src1v =
      ((if isFloatReg entry.ins.decSrc2 then cpu.pf else cpu.pr) entry.ins.src1).value := by
  simp [AXP_RegistersReady, regFile]

theorem scanCondition_frame (cpu : AXP_21264_CPU) (pipeline : AXP_PIPELINE)
    (entry : AXP_QUEUE_ENTRY) :
    (scanCondition cpu pipeline entry).2.processing = entry.processing ∧
    (scanCondition cpu pipeline entry).2.pipeline = entry.pipeline ∧
    (scanCondition cpu pipeline entry).2.ins.state = entry.ins.state := by
  unfold scanCondition
  by_cases h : pipelineTest pipeline entry.pipeline = true
  · simp only [h, if_true]; exact registersReady_frame cpu entry
  · simp [h]

theorem scanCondition_eq_qualifies (cpu : AXP_21264_CPU) (pipeline : AXP_PIPELINE)
    (entry : AXP_QUEUE_ENTRY) :
    (scanCondition cpu pipeline entry).1 = qualifies cpu pipeline entry := by
  have hf := registersReady_frame cpu entry
  unfold scanCondition qualifies
  by_cases h : pipelineTest pipeline entry.pipeline = true
  · simp only [h, if_true, hf.1, hf.2.2, Bool.true_and]
    cases (AXP_RegistersReady cpu entry).1 <;> cases entry.processing <;>
      cases (entry.ins.state == Aborted) <;> rfl
  · simp only [h, Bool.false_eq_true, if_false, Bool.false_or, Bool.false_and, Bool.or_false]
    cases entry.processing <;> cases (entry.ins.state == Aborted) <;> rfl

theorem scanCondition_true_processing (cpu : AXP_21264_CPU) (pipeline : AXP_PIPELINE)
    (entry : AXP_QUEUE_ENTRY) (h : (scanCondition cpu pipeline entry).1 = true) :
    entry.processing = false := by
  have hf := (scanCondition_frame cpu pipeline entry).1
  unfold scanCondition at h hf
  simp only [Bool.and_eq_true, beq_iff_eq] at h
  rw [← hf]; exact h.2

theorem scanQueue_flags (cpu : AXP_21264_CPU) (pipeline : AXP_PIPELINE)
    (queue : List AXP_QUEUE_ENTRY) :
    match (scanQueue cpu pipeline queue).1 with
    | some i => (flags queue)[i]? = some false ∧
        flags (scanQueue cpu pipeline queue).2 = (flags queue).set i true
    | none => flags (scanQueue cpu pipeline queue).2 = flags queue := by
  induction queue with
  | nil => simp [scanQueue, flags]
  | cons entry rest ih =>
    have hf := (scanCondition_frame cpu pipeline entry).1
    by_cases hc : (scanCondition cpu pipeline entry).1 = true
    · have hp := scanCondition_true_processing cpu pipeline entry hc
      simp [scanQueue, hc, flags, hp]
    · simp only [scanQueue, hc, Bool.false_eq_true, if_false]
      cases hr : (scanQueue cpu pipeline rest).1 with
      | none =>
        rw [hr] at ih
        simp only [Option.map_none']
        simp only [flags, List.map_cons, hf] at ih ⊢
        rw [ih]
      | some k =>
        rw [hr] at ih
        simp only [Option.map_some']
        simp only [flags, List.map_cons, hf, List.getElem?_cons_succ, List.set_cons_succ] at ih ⊢
        exact ⟨ih.1, by rw [ih.2]⟩

theorem flags_index_lt (fl : List Bool) (k : Nat) (b : Bool) (h : fl[k]? = some b) :
    k < fl.length := by
  rcases Nat.lt_or_ge k fl.length with hl | hl
  · exact hl
  · rw [List.getElem?_eq_none hl] at h; simp at h

theorem applyOther_flags (f : Nat → AXP_INSTRUCTION → AXP_INSTRUCTION) (k : Nat)
    (queue : List AXP_QUEUE_ENTRY) : flags (applyOther f k queue) = flags queue := by
  induction queue generalizing k with
  | nil => simp [applyOther, flags]
  | cons e rest ih =>
    have := ih (k + 1)
    simp only [flags, applyOther, List.map_cons] at this ⊢
    rw [this]

theorem runSteps_claims_unprocessed (steps : List QueueStep) :
    ∀ (queue : List AXP_QUEUE_ENTRY) (i : Nat), i ∈ (runSteps steps queue).1 →
      (flags queue)[i]? = some false := by
  induction steps with
  | nil => intro queue i h; simp [runSteps] at h
  | cons step steps ih =>
    intro queue i h
    cases step with
    | scan cpu pipeline =>
      simp only [runSteps, List.mem_append] at h
      have hs := scanQueue_flags cpu pipeline queue
      cases hr : (scanQueue cpu pipeline queue).1 with
      | none =>
        rw [hr] at hs h
        simp only [Option.toList, List.not_mem_nil, false_or] at h
        have := ih _ i h
        rw [hs] at this; exact this
      | some k =>
        rw [hr] at hs h
        simp only [Option.toList, List.mem_singleton] at h
        rcases h with h | h
        · subst h; exact hs.1
        · have := ih _ i h
          rw [hs.2] at this
          by_cases hik : k = i
          · subst hik
            rw [List.getElem?_set_eq_of_lt _ (flags_index_lt _ _ _ hs.1)] at this
            simp at this
          · rw [List.getElem?_set_ne hik] at this; exact this
    | other f =>
      simp only [runSteps] at h
      have := ih _ i h
      rw [applyOther_flags] at this; exact this

theorem runSteps_nodup (steps : List QueueStep) :
    ∀ (queue : List AXP_QUEUE_ENTRY), (runSteps steps queue).1.Nodup := by
  induction steps with
  | nil => intro queue; simp [runSteps]
  | cons step steps ih =>
    intro queue
    cases step with
    | scan cpu pipeline =>
      simp only [runSteps]
      have hs := scanQueue_flags cpu pipeline queue
      cases hr : (scanQueue cpu pipeline queue).1 with
      | none => simpa [Option.toList] using ih _
      | some k =>
        rw [hr] at hs
        simp only [Option.toList, List.singleton_append, List.nodup_cons]
        refine ⟨?_, ih _⟩
        intro hk
        have := runSteps_claims_unprocessed steps _ k hk
        rw [hs.2, List.getElem?_set_eq_of_lt _ (flags_index_lt _ _ _ hs.1)] at this
        simp at this
    | other f => simpa [runSteps] using ih _

/-! ## Lemmas: the rest of a worker iteration -/

theorem abortDecrement_frame (cpu : AXP_21264_CPU) (p : AXP_PIPELINE) :
    (abortDecrement cpu p).fpe = cpu.fpe ∧ (abortDecrement cpu p).pr = cpu.pr ∧
    (abortDecrement cpu p).pf = cpu.pf ∧ (abortDecrement cpu p).b_endian = cpu.b_endian ∧
    (abortDecrement cpu p).cpuState = cpu.cpuState := by
  cases p <;> exact ⟨rfl, rfl, rfl, rfl, rfl⟩

theorem dispatchDecrement_frame (cpu : AXP_21264_CPU) (p : AXP_PIPELINE) :
    (dispatchDecrement cpu p).fpe = cpu.fpe ∧ (dispatchDecrement cpu p).pr = cpu.pr ∧
    (dispatchDecrement cpu p).pf = cpu.pf ∧ (dispatchDecrement cpu p).b_endian = cpu.b_endian ∧
    (dispatchDecrement cpu p).cpuState = cpu.cpuState := by
  cases p <;> exact ⟨rfl, rfl, rfl, rfl, rfl⟩

theorem abortDecrement_counter (cpu : AXP_21264_CPU) (c slot : AXP_PIPELINE)
    (hslot : slot ∈ workerSlots) :
    clusterCounterOf (abortDecrement cpu c) slot =
      if c ∈ specMatch slot then (clusterCounterOf cpu slot + 65535) % 65536
      else clusterCounterOf cpu slot := by
  simp only [workerSlots, List.mem_cons, List.mem_singleton, List.not_mem_nil, or_false] at hslot
  rcases hslot with h | h | h | h | h | h <;> subst h <;> cases c <;>
    simp [abortDecrement, clusterCounterOf, decU16, specMatch, AXP_21264_EBOX_L0,
      AXP_21264_EBOX_L1, AXP_21264_EBOX_U0, AXP_21264_EBOX_U1, AXP_21264_FBOX_MULTIPLY,
      AXP_21264_FBOX_OTHER]

theorem dispatchDecrement_counter (cpu : AXP_21264_CPU) (c slot : AXP_PIPELINE)
    (hslot : slot ∈ workerSlots) :
    clusterCounterOf (dispatchDecrement cpu c) slot =
      if c ∈ specMatch slot then (clusterCounterOf cpu slot + 65535) % 65536
      else clusterCounterOf cpu slot := by
  simp only [workerSlots, List.mem_cons, List.mem_singleton, List.not_mem_nil, or_false] at hslot
  rcases hslot with h | h | h | h | h | h <;> subst h <;> cases c <;>
    simp [dispatchDecrement, clusterCounterOf, decU16, specMatch, AXP_21264_EBOX_L0,
      AXP_21264_EBOX_L1, AXP_21264_EBOX_U0, AXP_21264_EBOX_U1, AXP_21264_FBOX_MULTIPLY,
      AXP_21264_FBOX_OTHER]

theorem processClaimed_aborted (dispatcher : Dispatcher) (pipeline : AXP_PIPELINE)
    (s : ExecState) (idx : Nat) (entry : AXP_QUEUE_ENTRY)
    (hget : s.queue[idx]? = some entry) (hab : entry.ins.state = Aborted) :
    processClaimed dispatcher pipeline s idx = abortPath s idx entry := by
  simp [processClaimed, hget, robCheck, hab]

theorem processClaimed_not_aborted (dispatcher : Dispatcher) (pipeline : AXP_PIPELINE)
    (s : ExecState) (idx : Nat) (entry : AXP_QUEUE_ENTRY)
    (hget : s.queue[idx]? = some entry) (hab : entry.ins.state ≠ Aborted) :
    processClaimed dispatcher pipeline s idx =
      dispatchPath dispatcher pipeline s idx { entry with ins := (robCheck entry.ins).2 } := by
  simp [processClaimed, hget, robCheck, hab]

theorem fpEnable_dispatchDecrement (cpu : AXP_21264_CPU) (c pipeline : AXP_PIPELINE) :
    fpEnable (dispatchDecrement cpu c) pipeline = fpEnable cpu pipeline := by
  simp only [fpEnable, (dispatchDecrement_frame cpu c).1]

theorem dispatchPath_enabled (dispatcher : Dispatcher) (pipeline : AXP_PIPELINE)
    (s : ExecState) (idx : Nat) (entry : AXP_QUEUE_ENTRY)
    (h : fpEnable s.cpu pipeline = true) :
    (dispatchPath dispatcher pipeline s idx entry).dispatched = s.dispatched ++ [entry.ins] := by
  have he : fpEnable (dispatchDequeue s idx entry).cpu pipeline = true := by
    simp only [dispatchDequeue, fpEnable_dispatchDecrement, h]
  simp only [dispatchPath, dispatchExecute, he, if_true]
  rfl

theorem dispatchPath_disabled (dispatcher : Dispatcher) (pipeline : AXP_PIPELINE)
    (s : ExecState) (idx : Nat) (entry : AXP_QUEUE_ENTRY)
    (h : fpEnable s.cpu pipeline = false) :
    (dispatchPath dispatcher pipeline s idx entry).dispatched = s.dispatched ∧
    (dispatchPath dispatcher pipeline s idx entry).returned =
      s.returned ++ [{ entry with
        ins := { entry.ins with excRegMask := FloatingDisabledFault,
                                state := WaitingRetirement },
        processing := false }] := by
  have he : fpEnable (dispatchDequeue s idx entry).cpu pipeline = false := by
    simp only [dispatchDequeue, fpEnable_dispatchDecrement, h]
  simp only [dispatchPath, dispatchExecute, he, Bool.false_eq_true, if_false]
  exact ⟨rfl, rfl⟩

theorem fpEnable_iff (cpu : AXP_21264_CPU) (pipeline : AXP_PIPELINE)
    (hslot : pipeline ∈ workerSlots) :
    fpEnable cpu pipeline = true ↔
      (pipeline ∈ [EboxL0, EboxL1, EboxU0, EboxU1] ∨ cpu.fpe = 1) := by
  simp only [workerSlots, List.mem_cons, List.mem_singleton, List.not_mem_nil, or_false] at hslot
  rcases hslot with h | h | h | h | h | h <;> subst h <;> simp [fpEnable]

theorem countP_eraseIdx_add {α : Type} (p : α → Bool) (l : List α) (i : Nat) (a : α)
    (h : l[i]? = some a) :
    (l.eraseIdx i).countP p + (if p a then 1 else 0) = l.countP p := by
  induction l generalizing i with
  | nil => simp at h
  | cons x xs ih =>
    cases i with
    | zero =>
      simp only [List.getElem?_cons_zero, Option.some.injEq] at h
      subst h
      simp [List.countP_cons]
    | succ i =>
      simp only [List.getElem?_cons_succ] at h
      have := ih i h
      simp only [List.eraseIdx_cons_succ, List.countP_cons]
      omega

theorem occupancy_remove (queue : List AXP_QUEUE_ENTRY) (idx : Nat) (entry : AXP_QUEUE_ENTRY)
    (slot : AXP_PIPELINE) (h : queue[idx]? = some entry) :
    occupancy (AXP_RemoveCountedQueue queue idx) slot +
      (if entry.pipeline ∈ specMatch slot then 1 else 0) = occupancy queue slot := by
  have := countP_eraseIdx_add (fun e => decide (e.pipeline ∈ specMatch slot)) queue idx entry h
  simpa [occupancy, AXP_RemoveCountedQueue] using this

/-! ## Lemmas: bit fields and the VAX F conversions -/

theorem setField_canonical (w lo n v : Nat) :
    setField w lo n v = w / 2 ^ (lo + n) * 2 ^ (lo + n) + (v % 2 ^ n) * 2 ^ lo + w % 2 ^ lo := by
  have h1 := Nat.div_add_mod w (2 ^ lo)
  have h2 := Nat.div_add_mod (w / 2 ^ lo) (2 ^ n)
  have h3 : w / 2 ^ lo / 2 ^ n = w / 2 ^ (lo + n) := by
    rw [Nat.div_div_eq_div_mul, pow_add]
  rw [h3] at h2
  have h4 : w / 2 ^ (lo + n) * 2 ^ (lo + n) =
      2 ^ lo * (2 ^ n * (w / 2 ^ (lo + n))) := by rw [pow_add]; ring
  unfold setField getField
  rw [h4]
  generalize w / 2 ^ (lo + n) = D at *
  generalize w / 2 ^ lo % 2 ^ n = m at *
  generalize w / 2 ^ lo = q at *
  have h5 : 2 ^ lo * q = 2 ^ lo * (2 ^ n * D) + m * 2 ^ lo := by
    rw [← h2]; ring
  generalize 2 ^ lo * (2 ^ n * D) = P at *
  generalize m * 2 ^ lo = Q at *
  generalize (v % 2 ^ n) * 2 ^ lo = R at *
  generalize 2 ^ lo * q = S at *
  omega

theorem setField_mod_low (w lo n v : Nat) :
    setField w lo n v % 2 ^ lo = w % 2 ^ lo := by
  rw [setField_canonical]
  have : w / 2 ^ (lo + n) * 2 ^ (lo + n) + (v % 2 ^ n) * 2 ^ lo + w % 2 ^ lo =
      w % 2 ^ lo + (w / 2 ^ (lo + n) * 2 ^ n + v % 2 ^ n) * 2 ^ lo := by
    rw [pow_add]; ring
  rw [this, Nat.add_mul_mod_self_right, Nat.mod_mod]

theorem setField_div_low (w lo n v : Nat) :
    setField w lo n v / 2 ^ lo = w / 2 ^ (lo + n) * 2 ^ n + v % 2 ^ n := by
  rw [setField_canonical]
  have : w / 2 ^ (lo + n) * 2 ^ (lo + n) + (v % 2 ^ n) * 2 ^ lo + w % 2 ^ lo =
      w % 2 ^ lo + (w / 2 ^ (lo + n) * 2 ^ n + v % 2 ^ n) * 2 ^ lo := by
    rw [pow_add]; ring
  rw [this, Nat.add_mul_div_right _ _ (Nat.two_pow_pos lo),
    Nat.div_eq_of_lt (Nat.mod_lt _ (Nat.two_pow_pos lo)), Nat.zero_add]

theorem setField_div_high (w lo n v : Nat) :
    setField w lo n v / 2 ^ (lo + n) = w / 2 ^ (lo + n) := by
  have key : ∀ x : Nat, x / 2 ^ (lo + n) = x / 2 ^ lo / 2 ^ n := by
    intro x; rw [Nat.div_div_eq_div_mul, pow_add]
  rw [key, setField_div_low, Nat.add_comm,
    Nat.add_mul_div_right _ _ (Nat.two_pow_pos n),
    Nat.div_eq_of_lt (Nat.mod_lt _ (Nat.two_pow_pos n)), Nat.zero_add]

theorem getField_setField_same (w lo n v : Nat) :
    getField (setField w lo n v) lo n = v % 2 ^ n := by
  unfold getField
  rw [setField_div_low, Nat.add_comm, Nat.add_mul_mod_self_right, Nat.mod_mod]

theorem getField_setField_below (w lo n v lo2 n2 : Nat) (h : lo2 + n2 ≤ lo) :
    getField (setField w lo n v) lo2 n2 = getField w lo2 n2 := by
  have key : ∀ x : Nat, x / 2 ^ lo2 % 2 ^ n2 = x % 2 ^ lo % 2 ^ (lo2 + n2) / 2 ^ lo2 := by
    intro x
    rw [Nat.mod_mod_of_dvd _ (pow_dvd_pow 2 h), pow_add, Nat.mod_mul_right_div_self]
  unfold getField
  rw [key, key w, setField_mod_low]

theorem getField_setField_above (w lo n v lo2 n2 : Nat) (h : lo + n ≤ lo2) :
    getField (setField w lo n v) lo2 n2 = getField w lo2 n2 := by
  have key : ∀ x : Nat, x / 2 ^ lo2 = x / 2 ^ (lo + n) / 2 ^ (lo2 - (lo + n)) := by
    intro x
    rw [Nat.div_div_eq_div_mul, ← pow_add, Nat.add_sub_cancel' h]
  unfold getField
  rw [key, key w, setField_div_high]

theorem setField_lt (w lo n v k : Nat) (hw : w < 2 ^ k) (h : lo + n ≤ k) :
    setField w lo n v < 2 ^ k := by
  have h1 := setField_div_high w lo n v
  have h2 : 2 ^ k = 2 ^ (k - (lo + n)) * 2 ^ (lo + n) := by
    rw [← pow_add, Nat.sub_add_cancel h]
  rw [h2] at hw ⊢
  rw [← Nat.div_lt_iff_lt_mul (Nat.two_pow_pos _)] at hw ⊢
  rw [h1]; exact hw

theorem rd_wr_same (w : Nat) (f : Nat × Nat) (v : Nat) :
    rd (wr w f v) f = v % 2 ^ f.2 :=
  getField_setField_same w f.1 f.2 v

theorem rd_wr_other (w : Nat) (f g : Nat × Nat) (v : Nat)
    (h : g.1 + g.2 ≤ f.1 ∨ f.1 + f.2 ≤ g.1) :
    rd (wr w f v) g = rd w g := by
  rcases h with h | h
  · exact getField_setField_below w f.1 f.2 v g.1 g.2 h
  · exact getField_setField_above w f.1 f.2 v g.1 g.2 h

theorem rd_lt (w : Nat) (f : Nat × Nat) : rd w f < 2 ^ f.2 :=
  Nat.mod_lt _ (Nat.two_pow_pos _)

theorem wr_lt (w : Nat) (f : Nat × Nat) (v k : Nat) (hw : w < 2 ^ k) (h : f.1 + f.2 ≤ k) :
    wr w f v < 2 ^ k :=
  setField_lt w f.1 f.2 v k hw h

theorem ldf_fields (tmp destv : Nat) :
    rd (AXP_LDF_convert tmp destv) F_CVT_sign = rd tmp F_MEM_sign ∧
    rd (AXP_LDF_convert tmp destv) F_CVT_exponent =
      (if rd tmp F_MEM_exponent = 0 then 0 else rd tmp F_MEM_exponent + 896) ∧
    rd (AXP_LDF_convert tmp destv) F_CVT_fractionHigh = rd tmp F_MEM_fractionHigh ∧
    rd (AXP_LDF_convert tmp destv) F_CVT_fractionLow = rd tmp F_MEM_fractionLow ∧
    rd (AXP_LDF_convert tmp destv) F_CVT_zero = 0 := by
  have hs : rd tmp F_MEM_sign < 2 := rd_lt tmp F_MEM_sign
  have he : rd tmp F_MEM_exponent < 256 := rd_lt tmp F_MEM_exponent
  have hh : rd tmp F_MEM_fractionHigh < 128 := rd_lt tmp F_MEM_fractionHigh
  have hl : rd tmp F_MEM_fractionLow < 65536 := rd_lt tmp F_MEM_fractionLow
  simp only [AXP_LDF_convert]
  generalize rd tmp F_MEM_sign = s at *
  generalize rd tmp F_MEM_exponent = e at *
  generalize rd tmp F_MEM_fractionHigh = fh at *
  generalize rd tmp F_MEM_fractionLow = fl at *
  refine ⟨?_, ?_, ?_, ?_, ?_⟩
  · rw [rd_wr_other _ _ _ _ (by decide), rd_wr_other _ _ _ _ (by decide),
      rd_wr_other _ _ _ _ (by decide), rd_wr_other _ _ _ _ (by decide), rd_wr_same]
    exact Nat.mod_eq_of_lt hs
  · rw [rd_wr_other _ _ _ _ (by decide), rd_wr_other _ _ _ _ (by decide),
      rd_wr_other _ _ _ _ (by decide), rd_wr_same]
    simp only [AXP_G_BIAS, AXP_F_BIAS, F_CVT_exponent, bne_iff_ne, ne_eq, ite_not,
      Nat.reducePow, Nat.reduceSub]
    split_ifs <;> omega
  · rw [rd_wr_other _ _ _ _ (by decide), rd_wr_other _ _ _ _ (by decide), rd_wr_same]
    exact Nat.mod_eq_of_lt hh
  · rw [rd_wr_other _ _ _ _ (by decide), rd_wr_same]
    exact Nat.mod_eq_of_lt hl
  · rw [rd_wr_same]; rfl

theorem f_mem_decompose (w : Nat) (hw : w < 2 ^ 32) :
    w = rd w F_MEM_fractionHigh + 128 * rd w F_MEM_exponent + 32768 * rd w F_MEM_sign +
      65536 * rd w F_MEM_fractionLow := by
  simp only [rd, getField, F_MEM_fractionHigh, F_MEM_exponent, F_MEM_sign, F_MEM_fractionLow,
    Nat.reducePow] at *
  omega

theorem stf_fields (src1v tmpF : Nat) :
    rd (AXP_STF_convert src1v tmpF) F_MEM_sign = rd src1v F_CVT_sign ∧
    rd (AXP_STF_convert src1v tmpF) F_MEM_exponent =
      (if rd src1v F_REG_exponent = 0 then 0
       else (rd src1v F_REG_exponent + 2 ^ 64 - 896) % 256) ∧
    rd (AXP_STF_convert src1v tmpF) F_MEM_fractionHigh = rd src1v F_CVT_fractionHigh ∧
    rd (AXP_STF_convert src1v tmpF) F_MEM_fractionLow = rd src1v F_CVT_fractionLow := by
  have hs : rd src1v F_CVT_sign < 2 := rd_lt src1v F_CVT_sign
  have he : rd src1v F_REG_exponent < 2048 := rd_lt src1v F_REG_exponent
  have hh : rd src1v F_CVT_fractionHigh < 128 := rd_lt src1v F_CVT_fractionHigh
  have hl : rd src1v F_CVT_fractionLow < 65536 := rd_lt src1v F_CVT_fractionLow
  simp only [AXP_STF_convert]
  generalize rd src1v F_CVT_sign = s at *
  generalize rd src1v F_REG_exponent = e at *
  generalize rd src1v F_CVT_fractionHigh = fh at *
  generalize rd src1v F_CVT_fractionLow = fl at *
  refine ⟨?_, ?_, ?_, ?_⟩
  · rw [rd_wr_other _ _ _ _ (by decide), rd_wr_other _ _ _ _ (by decide),
      rd_wr_other _ _ _ _ (by decide), rd_wr_same]
    exact Nat.mod_eq_of_lt hs
  · rw [rd_wr_other _ _ _ _ (by decide), rd_wr_other _ _ _ _ (by decide), rd_wr_same]
    simp only [AXP_G_BIAS, AXP_F_BIAS, F_MEM_exponent, bne_iff_ne, ne_eq, ite_not,
      Nat.reducePow]
    split_ifs <;> omega
  · rw [rd_wr_other _ _ _ _ (by decide), rd_wr_same]
    exact Nat.mod_eq_of_lt hh
  · rw [rd_wr_same]
    exact Nat.mod_eq_of_lt hl

theorem stf_lt (src1v tmpF : Nat) (hF : tmpF < 2 ^ 32) :
    AXP_STF_convert src1v tmpF < 2 ^ 32 := by
  simp only [AXP_STF_convert]
  exact wr_lt _ _ _ _ (wr_lt _ _ _ _ (wr_lt _ _ _ _ (wr_lt _ _ _ _ hF (by decide))
    (by decide)) (by decide)) (by decide)

theorem ldf_stf_exponent (e : Nat) (he : e < 256) :
    (if (if e = 0 then 0 else e + 896) = 0 then 0
      else ((if e = 0 then 0 else e + 896) + 2 ^ 64 - 896) % 256) = e := by
  by_cases h0 : e = 0
  · simp [h0]
  · have h1 : e + 896 ≠ 0 := by omega
    simp only [h0, if_false, h1, Nat.reducePow]
    omega

/-! ## Lemmas: the worker loop and its locks -/

theorem lockState_running (c : WorkerConfig) (h : List AXP_MUTEX) (hs : lockState c h)
    (hb : ¬ c.blocked = true) : c.held = h := by
  rcases hs.2 with hh | hh
  · exact absurd hh hb
  · exact hh

theorem events_append_ok (c : WorkerConfig) (ev : LockEvent)
    (he : ∀ e ∈ c.events, lockOrderOK e = true) (hev : lockOrderOK ev = true) :
    ∀ e ∈ c.events ++ [ev], lockOrderOK e = true := by
  intro e hmem
  simp only [List.mem_append, List.mem_singleton] at hmem
  rcases hmem with hmem | hmem
  · exact he e hmem
  · rw [hmem]; exact hev

theorem mutexLock_ok (m : AXP_MUTEX) (c : WorkerConfig) (h : List AXP_MUTEX)
    (hs : lockState c h) (ho : lockOrderOK ⟨LockOp.lock, m, h⟩ = true) :
    lockState (mutexLock m c) (m :: h) := by
  unfold mutexLock
  split_ifs with hb hm
  · exact ⟨hs.1, Or.inl hb⟩
  · have hheld := lockState_running c h hs hb
    exact ⟨events_append_ok c _ hs.1 (by rw [hheld]; exact ho), Or.inl rfl⟩
  · have hheld := lockState_running c h hs hb
    refine ⟨events_append_ok c _ hs.1 (by rw [hheld]; exact ho), Or.inr ?_⟩
    show m :: c.held = m :: h
    rw [hheld]

theorem mutexLock_blocks (m : AXP_MUTEX) (c : WorkerConfig) (h : List AXP_MUTEX)
    (h2 : List AXP_MUTEX)
    (hs : lockState c h) (hm : m ∈ h) (ho : lockOrderOK ⟨LockOp.lock, m, h⟩ = true) :
    lockState (mutexLock m c) h2 := by
  unfold mutexLock
  split_ifs with hb hm2
  · exact ⟨hs.1, Or.inl hb⟩
  · have hheld := lockState_running c h hs hb
    exact ⟨events_append_ok c _ hs.1 (by rw [hheld]; exact ho), Or.inl rfl⟩
  · have hheld := lockState_running c h hs hb
    rw [hheld] at hm2
    exact absurd hm hm2

theorem mutexUnlock_ok (m : AXP_MUTEX) (c : WorkerConfig) (h : List AXP_MUTEX)
    (hs : lockState c h) : lockState (mutexUnlock m c) (h.erase m) := by
  unfold mutexUnlock
  split_ifs with hb
  · exact ⟨hs.1, Or.inl hb⟩
  · have hheld := lockState_running c h hs hb
    refine ⟨events_append_ok c ⟨LockOp.unlock, m, c.held⟩ hs.1 rfl, Or.inr ?_⟩
    show c.held.erase m = h.erase m
    rw [hheld]

theorem condWait_ok (c : WorkerConfig) (h : List AXP_MUTEX) (hs : lockState c h) :
    lockState (condWait c) h ∧ (condWait c).pc = c.pc := by
  unfold condWait
  split_ifs with hb
  · exact ⟨⟨hs.1, Or.inl hb⟩, rfl⟩
  · have hheld := lockState_running c h hs hb
    exact ⟨⟨events_append_ok c ⟨LockOp.condWait, AXP_MUTEX.queueMutex, c.held⟩ hs.1 rfl,
      Or.inr hheld⟩, rfl⟩

theorem setShared_ok (f : ExecState → ExecState) (c : WorkerConfig) (h : List AXP_MUTEX)
    (hs : lockState c h) : lockState (setShared f c) h := by
  unfold setShared
  split_ifs with hb
  · exact ⟨hs.1, Or.inl hb⟩
  · exact ⟨hs.1, Or.inr (lockState_running c h hs hb)⟩

theorem setNothingReady_ok (b : Bool) (c : WorkerConfig) (h : List AXP_MUTEX)
    (hs : lockState c h) :
    lockState (setNothingReady b c) h ∧ (setNothingReady b c).pc = c.pc := by
  unfold setNothingReady
  split_ifs with hb
  · exact ⟨⟨hs.1, Or.inl hb⟩, rfl⟩
  · exact ⟨⟨hs.1, Or.inr (lockState_running c h hs hb)⟩, rfl⟩

theorem goTo_ok (pc : WorkerPC) (c : WorkerConfig) (h : List AXP_MUTEX)
    (hs : lockState c h) (hp : heldAt pc h = true) : lockInv (goTo pc c) := by
  unfold goTo
  split_ifs with hb
  · exact ⟨hs.1, Or.inl hb⟩
  · have hheld := lockState_running c h hs hb
    refine ⟨hs.1, Or.inr ?_⟩
    show heldAt pc c.held = true
    rw [hheld]; exact hp

theorem workerStep_lockInv (dispatcher : Dispatcher) (pipeline : AXP_PIPELINE)
    (c : WorkerConfig) (hinv : lockInv c) : lockInv (workerStep dispatcher pipeline c) := by
  obtain ⟨he, hh⟩ := hinv
  unfold workerStep
  by_cases hb : c.blocked = true
  · simp only [hb, if_true]; exact ⟨he, Or.inl hb⟩
  · simp only [hb, Bool.false_eq_true, if_false]
    have hat : heldAt c.pc c.held = true := by
      rcases hh with hh | hh
      · exact absurd hh hb
      · exact hh
    have hrun : ∀ h, c.held = h → lockState c h := fun h hc => ⟨he, Or.inr hc⟩
    cases hpc : c.pc with
    | loopHead =>
      rw [hpc] at hat
      simp only [heldAt, Bool.or_eq_true, beq_iff_eq] at hat
      simp only
      split_ifs with hs
      · rcases hat with hat | hat
        · exact goTo_ok _ _ _ (mutexLock_ok _ _ _ (hrun _ hat) (by decide)) rfl
        · exact goTo_ok _ _ _
            (mutexLock_blocks _ _ _ [AXP_MUTEX.queueMutex] (hrun _ hat) (by decide) (by decide))
            rfl
      · rcases hat with hat | hat
        · exact goTo_ok _ _ _ (mutexUnlock_ok _ _ _ (hrun _ hat)) rfl
        · exact goTo_ok _ _ _ (mutexUnlock_ok _ _ _ (hrun _ hat)) rfl
    | waitTest =>
      rw [hpc] at hat
      simp only [heldAt, beq_iff_eq] at hat
      simp only
      split_ifs with hw
      · obtain ⟨h1, h3⟩ := setNothingReady_ok false c _ (hrun _ hat)
        obtain ⟨h4, h6⟩ := condWait_ok _ _ h1
        refine ⟨h4.1, ?_⟩
        rcases h4.2 with h5 | h5
        · exact Or.inl h5
        · right; rw [h6, h3, hpc, h5]; rfl
      · exact goTo_ok _ _ _ (hrun _ hat) rfl
    | shutdownTest =>
      rw [hpc] at hat
      simp only [heldAt, beq_iff_eq] at hat
      simp only
      split_ifs with hs
      · split
        · exact goTo_ok _ _ _ (mutexUnlock_ok _ _ _
            (setNothingReady_ok _ _ _ (setShared_ok _ _ _ (hrun _ hat))).1) rfl
        · split
          · exact goTo_ok _ _ _ (mutexUnlock_ok _ _ _ (setShared_ok _ _ _ (hrun _ hat))) rfl
          · exact ⟨he, Or.inr (by rw [hpc, hat]; rfl)⟩
      · exact goTo_ok _ _ _ (hrun _ hat) rfl
    | robTest idx entry =>
      rw [hpc] at hat
      simp only [heldAt, beq_iff_eq] at hat
      simp only
      exact goTo_ok _ _ _ (mutexUnlock_ok _ _ _ (setShared_ok _ _ _
        (mutexLock_ok _ _ _ (hrun _ hat) (by decide)))) rfl
    | pathTest idx entry state =>
      rw [hpc] at hat
      simp only [heldAt, beq_iff_eq] at hat
      simp only
      split_ifs with hs
      · exact goTo_ok _ _ _ (mutexUnlock_ok _ _ _ (setShared_ok _ _ _
          (mutexLock_ok _ _ _ (hrun _ hat) (by decide)))) rfl
      · exact goTo_ok _ _ _ (mutexUnlock_ok _ _ _ (setShared_ok _ _ _
          (mutexLock_ok _ _ _ (hrun _ hat) (by decide)))) rfl
    | execute entry =>
      rw [hpc] at hat
      simp only [heldAt, beq_iff_eq] at hat
      simp only
      have hipr : lockState (mutexUnlock AXP_MUTEX.iBoxIPRMutex
          (mutexLock AXP_MUTEX.iBoxIPRMutex c)) [] :=
        mutexUnlock_ok _ _ _ (mutexLock_ok _ _ _ (hrun _ hat) (by decide))
      split_ifs with hp hf
      · exact goTo_ok _ _ _ (setShared_ok _ _ _ hipr) rfl
      · exact goTo_ok _ _ _ (setShared_ok _ _ _ (hrun _ hat)) rfl
      · exact goTo_ok _ _ _ (mutexUnlock_ok _ _ _ (setShared_ok _ _ _
          (mutexLock_ok _ _ _ hipr (by decide)))) rfl
      · exact goTo_ok _ _ _ (mutexUnlock_ok _ _ _ (setShared_ok _ _ _
          (mutexLock_ok _ _ _ (hrun _ hat) (by decide)))) rfl
    | returned =>
      simp only
      exact ⟨he, Or.inr (by rw [hpc]; rfl)⟩

theorem runWorker_lockInv (dispatcher : Dispatcher) (pipeline : AXP_PIPELINE)
    (others : List (ExecState → ExecState)) :
    ∀ c, lockInv c → lockInv (runWorker dispatcher pipeline others c) := by
  induction others with
  | nil => intro c h; exact h
  | cons f others ih =>
    intro c h
    simp only [runWorker]
    exact ih _ (workerStep_lockInv dispatcher pipeline _ h)

/-! ## Lemmas: a whole worker iteration -/

theorem scanQueue_some (cpu : AXP_21264_CPU) (pipeline : AXP_PIPELINE)
    (queue : List AXP_QUEUE_ENTRY) (i : Nat)
    (h : (scanQueue cpu pipeline queue).1 = some i) :
    ∃ e, queue[i]? = some e ∧ qualifies cpu pipeline e = true ∧
      (scanQueue cpu pipeline queue).2[i]? =
        some { (scanCondition cpu pipeline e).2 with processing := true } := by
  induction queue generalizing i with
  | nil => simp [scanQueue] at h
  | cons entry rest ih =>
    have hq := scanCondition_eq_qualifies cpu pipeline entry
    by_cases hc : (scanCondition cpu pipeline entry).1 = true
    · simp only [scanQueue, hc, if_true, Option.some.injEq] at h ⊢
      subst h
      exact ⟨entry, by simp, by rw [← hq]; exact hc, by simp⟩
    · simp only [scanQueue, hc, Bool.false_eq_true, if_false, Option.map_eq_some'] at h ⊢
      obtain ⟨k, hk, rfl⟩ := h
      obtain ⟨e, he, hqe, hpost⟩ := ih k hk
      exact ⟨e, by simpa using he, hqe, by simpa using hpost⟩

theorem registersReady_true (cpu : AXP_21264_CPU) (entry : AXP_QUEUE_ENTRY)
    (h : (AXP_RegistersReady cpu entry).1 = true) :
    (regFile cpu (isFloatReg entry.ins.decSrc1) entry.ins.src1).state = Valid ∧
    (regFile cpu (isFloatReg entry.ins.decSrc2) entry.ins.src2).state = Valid ∧
    (regFile cpu (isFloatReg entry.ins.decDest) entry.ins.dest).state =
      expectedDestState entry.ins.dest := by
  simpa [AXP_RegistersReady, and_assoc] using h

theorem workerIteration_none (dispatcher : Dispatcher) (pipeline : AXP_PIPELINE)
    (s : ExecState) (h : (scanQueue s.cpu pipeline s.queue).1 = none) :
    workerIteration dispatcher pipeline s =
      { s with queue := (scanQueue s.cpu pipeline s.queue).2 } := by
  simp only [workerIteration, h]

theorem workerIteration_some (dispatcher : Dispatcher) (pipeline : AXP_PIPELINE)
    (s : ExecState) (i : Nat) (h : (scanQueue s.cpu pipeline s.queue).1 = some i) :
    workerIteration dispatcher pipeline s =
      processClaimed dispatcher pipeline
        { s with queue := (scanQueue s.cpu pipeline s.queue).2 } i := by
  simp only [workerIteration, h]

/-! ## Lemmas: the IEEE S and VAX G conversions -/

theorem lds_exponent (e : Nat) (he : e < 256) :
    (if (e == AXP_S_NAN) = true then AXP_R_NAN
      else if (e != 0) = true then (e + (AXP_T_BIAS - AXP_S_BIAS)) % 2 ^ 64 else e) % 2 ^ 11 =
    (if e = 255 then 2047 else if e = 0 then 0 else e + 896) := by
  simp only [AXP_S_NAN, AXP_R_NAN, AXP_T_BIAS, AXP_S_BIAS, beq_iff_eq, bne_iff_ne, ne_eq,
    ite_not, Nat.reducePow, Nat.reduceSub]
  by_cases h1 : e = 255
  · simp [h1]
  · by_cases h0 : e = 0
    · simp [h0]
    · simp only [h1, h0, if_false]; omega

theorem lds_fields (tmp destv : Nat) :
    rd (AXP_LDS_convert tmp destv) S_CVT_sign = rd tmp S_MEM_sign ∧
    rd (AXP_LDS_convert tmp destv) S_CVT_exponent =
      (if rd tmp S_MEM_exponent = 255 then 2047
       else if rd tmp S_MEM_exponent = 0 then 0 else rd tmp S_MEM_exponent + 896) ∧
    rd (AXP_LDS_convert tmp destv) S_CVT_fraction = rd tmp S_MEM_fraction ∧
    rd (AXP_LDS_convert tmp destv) S_CVT_zero = 0 := by
  have hs : rd tmp S_MEM_sign < 2 := rd_lt tmp S_MEM_sign
  have he : rd tmp S_MEM_exponent < 256 := rd_lt tmp S_MEM_exponent
  have hf : rd tmp S_MEM_fraction < 2 ^ 23 := rd_lt tmp S_MEM_fraction
  simp only [AXP_LDS_convert]
  refine ⟨?_, ?_, ?_, ?_⟩
  · rw [rd_wr_other _ _ _ _ (by decide), rd_wr_other _ _ _ _ (by decide),
      rd_wr_other _ _ _ _ (by decide), rd_wr_same]
    exact Nat.mod_eq_of_lt hs
  · rw [rd_wr_other _ _ _ _ (by decide), rd_wr_other _ _ _ _ (by decide), rd_wr_same]
    exact lds_exponent _ he
  · rw [rd_wr_other _ _ _ _ (by decide), rd_wr_same]
    exact Nat.mod_eq_of_lt hf
  · rw [rd_wr_same]; rfl

theorem sts_exponent (e : Nat) (he : e < 2048) :
    (if (e == AXP_R_NAN) = true then AXP_S_NAN
      else if (e != 0) = true then (e + 2 ^ 64 - AXP_T_BIAS + AXP_S_BIAS) % 2 ^ 64 else e) % 2 ^ 8 =
    (if e = 2047 then 255 else if e = 0 then 0 else (e + 2 ^ 64 - 896) % 256) := by
  simp only [AXP_S_NAN, AXP_R_NAN, AXP_T_BIAS, AXP_S_BIAS, beq_iff_eq, bne_iff_ne, ne_eq,
    ite_not, Nat.reducePow]
  by_cases h1 : e = 2047
  · simp [h1]
  · by_cases h0 : e = 0
    · simp [h0]
    · simp only [h1, h0, if_false]; omega

theorem sts_fields (src1v tmpS : Nat) :
    rd (AXP_STS_convert src1v tmpS) S_MEM_sign = rd src1v S_CVT_sign ∧
    rd (AXP_STS_convert src1v tmpS) S_MEM_exponent =
      (if rd src1v S_CVT_exponent = 2047 then 255
       else if rd src1v S_CVT_exponent = 0 then 0
       else (rd src1v S_CVT_exponent + 2 ^ 64 - 896) % 256) ∧
    rd (AXP_STS_convert src1v tmpS) S_MEM_fraction = rd src1v S_CVT_fraction := by
  have hs : rd src1v S_CVT_sign < 2 := rd_lt src1v S_CVT_sign
  have he : rd src1v S_CVT_exponent < 2048 := rd_lt src1v S_CVT_exponent
  have hf : rd src1v S_CVT_fraction < 2 ^ 23 := rd_lt src1v S_CVT_fraction
  simp only [AXP_STS_convert]
  refine ⟨?_, ?_, ?_⟩
  · rw [rd_wr_other _ _ _ _ (by decide), rd_wr_other _ _ _ _ (by decide), rd_wr_same]
    exact Nat.mod_eq_of_lt hs
  · rw [rd_wr_other _ _ _ _ (by decide), rd_wr_same]
    exact sts_exponent _ he
  · rw [rd_wr_same]
    exact Nat.mod_eq_of_lt hf

theorem sts_lt (src1v tmpS : Nat) (hS : tmpS < 2 ^ 32) :
    AXP_STS_convert src1v tmpS < 2 ^ 32 := by
  simp only [AXP_STS_convert]
  exact wr_lt _ _ _ _ (wr_lt _ _ _ _ (wr_lt _ _ _ _ hS (by decide)) (by decide)) (by decide)

theorem s_mem_decompose (w : Nat) (hw : w < 2 ^ 32) :
    w = rd w S_MEM_fraction + 2 ^ 23 * rd w S_MEM_exponent + 2 ^ 31 * rd w S_MEM_sign := by
  simp only [rd, getField, S_MEM_fraction, S_MEM_exponent, S_MEM_sign, Nat.reducePow] at *
  omega

theorem lds_sts_exponent (e : Nat) (he : e < 256) :
    (if (if e = 255 then 2047 else if e = 0 then 0 else e + 896) = 2047 then 255
      else if (if e = 255 then 2047 else if e = 0 then 0 else e + 896) = 0 then 0
      else ((if e = 255 then 2047 else if e = 0 then 0 else e + 896) + 2 ^ 64 - 896) % 256) = e := by
  by_cases h1 : e = 255
  · simp [h1]
  · by_cases h0 : e = 0
    · simp [h0]
    · have h2 : e + 896 ≠ 2047 := by omega
      have h3 : e + 896 ≠ 0 := by omega
      simp only [h1, h0, if_false, h2, h3, Nat.reducePow]
      omega

theorem ldg_fields (tmp destv : Nat) :
    rd (AXP_LDG_convert tmp destv) G_CVT_sign = rd tmp G_MEM_sign ∧
    rd (AXP_LDG_convert tmp destv) G_CVT_exponent = rd tmp G_MEM_exponent ∧
    rd (AXP_LDG_convert tmp destv) G_CVT_fractionHigh = rd tmp G_MEM_fractionHigh ∧
    rd (AXP_LDG_convert tmp destv) G_CVT_fractionMidHigh = rd tmp G_MEM_fractionMidHigh ∧
    rd (AXP_LDG_convert tmp destv) G_CVT_fractionMidLow = rd tmp G_MEM_fractionMidLow ∧
    rd (AXP_LDG_convert tmp destv) G_CVT_fractionLow = rd tmp G_MEM_fractionLow := by
  simp only [AXP_LDG_convert]
  refine ⟨?_, ?_, ?_, ?_, ?_, ?_⟩
  · rw [rd_wr_other _ _ _ _ (by decide), rd_wr_other _ _ _ _ (by decide),
      rd_wr_other _ _ _ _ (by decide), rd_wr_other _ _ _ _ (by decide),
      rd_wr_other _ _ _ _ (by decide), rd_wr_same]
    exact Nat.mod_eq_of_lt (rd_lt tmp G_MEM_sign)
  · rw [rd_wr_other _ _ _ _ (by decide), rd_wr_other _ _ _ _ (by decide),
      rd_wr_other _ _ _ _ (by decide), rd_wr_other _ _ _ _ (by decide), rd_wr_same]
    exact Nat.mod_eq_of_lt (rd_lt tmp G_MEM_exponent)
  · rw [rd_wr_other _ _ _ _ (by decide), rd_wr_other _ _ _ _ (by decide),
      rd_wr_other _ _ _ _ (by decide), rd_wr_same]
    exact Nat.mod_eq_of_lt (rd_lt tmp G_MEM_fractionHigh)
  · rw [rd_wr_other _ _ _ _ (by decide), rd_wr_other _ _ _ _ (by decide), rd_wr_same]
    exact Nat.mod_eq_of_lt (rd_lt tmp G_MEM_fractionMidHigh)
  · rw [rd_wr_other _ _ _ _ (by decide), rd_wr_same]
    exact Nat.mod_eq_of_lt (rd_lt tmp G_MEM_fractionMidLow)
  · rw [rd_wr_same]
    exact Nat.mod_eq_of_lt (rd_lt tmp G_MEM_fractionLow)

theorem stg_fields (src1v tmpG : Nat) :
    rd (AXP_STG_convert src1v tmpG) G_MEM_sign = rd src1v G_CVT_sign ∧
    rd (AXP_STG_convert src1v tmpG) G_MEM_exponent = rd src1v G_CVT_exponent ∧
    rd (AXP_STG_convert src1v tmpG) G_MEM_fractionHigh = rd src1v G_CVT_fractionHigh ∧
    rd (AXP_STG_convert src1v tmpG) G_MEM_fractionMidHigh = rd src1v G_CVT_fractionMidHigh ∧
    rd (AXP_STG_convert src1v tmpG) G_MEM_fractionMidLow = rd src1v G_CVT_fractionMidLow ∧
    rd (AXP_STG_convert src1v tmpG) G_MEM_fractionLow = rd src1v G_CVT_fractionLow := by
  simp only [AXP_STG_convert]
  refine ⟨?_, ?_, ?_, ?_, ?_, ?_⟩
  · rw [rd_wr_other _ _ _ _ (by decide), rd_wr_other _ _ _ _ (by decide),
      rd_wr_other _ _ _ _ (by decide), rd_wr_other _ _ _ _ (by decide),
      rd_wr_other _ _ _ _ (by decide), rd_wr_same]
    exact Nat.mod_eq_of_lt (rd_lt src1v G_CVT_sign)
  · rw [rd_wr_other _ _ _ _ (by decide), rd_wr_other _ _ _ _ (by decide),
      rd_wr_other _ _ _ _ (by decide), rd_wr_other _ _ _ _ (by decide), rd_wr_same]
    exact Nat.mod_eq_of_lt (rd_lt src1v G_CVT_exponent)
  · rw [rd_wr_other _ _ _ _ (by decide), rd_wr_other _ _ _ _ (by decide),
      rd_wr_other _ _ _ _ (by decide), rd_wr_same]
    exact Nat.mod_eq_of_lt (rd_lt src1v G_CVT_fractionHigh)
  · rw [rd_wr_other _ _ _ _ (by decide), rd_wr_other _ _ _ _ (by decide), rd_wr_same]
    exact Nat.mod_eq_of_lt (rd_lt src1v G_CVT_fractionMidHigh)
  · rw [rd_wr_other _ _ _ _ (by decide), rd_wr_same]
    exact Nat.mod_eq_of_lt (rd_lt src1v G_CVT_fractionMidLow)
  · rw [rd_wr_same]
    exact Nat.mod_eq_of_lt (rd_lt src1v G_CVT_fractionLow)

theorem stg_lt (src1v tmpG : Nat) (hG : tmpG < 2 ^ 64) :
    AXP_STG_convert src1v tmpG < 2 ^ 64 := by
  simp only [AXP_STG_convert]
  exact wr_lt _ _ _ _ (wr_lt _ _ _ _ (wr_lt _ _ _ _ (wr_lt _ _ _ _ (wr_lt _ _ _ _
    (wr_lt _ _ _ _ hG (by decide)) (by decide)) (by decide)) (by decide)) (by decide)) (by decide)

theorem g_mem_decompose (w : Nat) (hw : w < 2 ^ 64) :
    w = rd w G_MEM_fractionHigh + 2 ^ 4 * rd w G_MEM_exponent + 2 ^ 15 * rd w G_MEM_sign +
      2 ^ 16 * rd w G_MEM_fractionMidHigh + 2 ^ 32 * rd w G_MEM_fractionMidLow +
      2 ^ 48 * rd w G_MEM_fractionLow := by
  simp only [rd, getField, G_MEM_fractionHigh, G_MEM_exponent, G_MEM_sign,
    G_MEM_fractionMidHigh, G_MEM_fractionMidLow, G_MEM_fractionLow, Nat.reducePow] at *
  omega

/-! ## Lemmas: register words and the lock order -/

theorem f_reg_decompose (w : Nat) (hw : w < 2 ^ 64) :
    w = rd w F_CVT_zero + 2 ^ 29 * rd w F_CVT_fractionLow + 2 ^ 45 * rd w F_CVT_fractionHigh +
      2 ^ 52 * rd w F_CVT_exponent + 2 ^ 63 * rd w F_CVT_sign := by
  simp only [rd, getField, F_CVT_zero, F_CVT_fractionLow, F_CVT_fractionHigh, F_CVT_exponent,
    F_CVT_sign, Nat.reducePow] at *
  omega

theorem s_reg_decompose (w : Nat) (hw : w < 2 ^ 64) :
    w = rd w S_CVT_zero + 2 ^ 29 * rd w S_CVT_fraction + 2 ^ 52 * rd w S_CVT_exponent +
      2 ^ 63 * rd w S_CVT_sign := by
  simp only [rd, getField, S_CVT_zero, S_CVT_fraction, S_CVT_exponent, S_CVT_sign,
    Nat.reducePow] at *
  omega

theorem ldf_lt (tmp destv : Nat) (hd : destv < 2 ^ 64) : AXP_LDF_convert tmp destv < 2 ^ 64 := by
  simp only [AXP_LDF_convert]
  exact wr_lt _ _ _ _ (wr_lt _ _ _ _ (wr_lt _ _ _ _ (wr_lt _ _ _ _ (wr_lt _ _ _ _ hd
    (by decide)) (by decide)) (by decide)) (by decide)) (by decide)

theorem lds_lt (tmp destv : Nat) (hd : destv < 2 ^ 64) : AXP_LDS_convert tmp destv < 2 ^ 64 := by
  simp only [AXP_LDS_convert]
  exact wr_lt _ _ _ _ (wr_lt _ _ _ _ (wr_lt _ _ _ _ (wr_lt _ _ _ _ hd
    (by decide)) (by decide)) (by decide)) (by decide)

theorem lockOrderOK_spec (e : LockEvent) (h : lockOrderOK e = true) (hl : e.op = LockOp.lock) :
    (e.mutex = AXP_MUTEX.robMutex → AXP_MUTEX.queueMutex ∉ e.held) ∧
    (e.mutex = AXP_MUTEX.queueMutex →
      AXP_MUTEX.robMutex ∉ e.held ∧ AXP_MUTEX.iBoxIPRMutex ∉ e.held) := by
  obtain ⟨op, m, held⟩ := e
  simp only at hl
  subst hl
  cases m <;> simp_all [lockOrderOK]

theorem initWorker_lockInv (s : ExecState) : lockInv (initWorker s) := by
  refine ⟨?_, Or.inr rfl⟩
  intro e he
  simp [initWorker] at he

/-! ## Lemmas: what a scan leaves alone, and scans and waits in a run -/

theorem ldf_convert_destv (tmp d1 d2 : Nat) (h1 : d1 < 2 ^ 64) (h2 : d2 < 2 ^ 64) :
    AXP_LDF_convert tmp d1 = AXP_LDF_convert tmp d2 := by
  have a := f_reg_decompose _ (ldf_lt tmp d1 h1)
  have b := f_reg_decompose _ (ldf_lt tmp d2 h2)
  have fa := ldf_fields tmp d1
  have fb := ldf_fields tmp d2
  rw [fa.1, fa.2.1, fa.2.2.1, fa.2.2.2.1, fa.2.2.2.2] at a
  rw [fb.1, fb.2.1, fb.2.2.1, fb.2.2.2.1, fb.2.2.2.2] at b
  exact a.trans b.symm

theorem lds_convert_destv (tmp d1 d2 : Nat) (h1 : d1 < 2 ^ 64) (h2 : d2 < 2 ^ 64) :
    AXP_LDS_convert tmp d1 = AXP_LDS_convert tmp d2 := by
  have a := s_reg_decompose _ (lds_lt tmp d1 h1)
  have b := s_reg_decompose _ (lds_lt tmp d2 h2)
  have fa := lds_fields tmp d1
  have fb := lds_fields tmp d2
  rw [fa.1, fa.2.1, fa.2.2.1, fa.2.2.2] at a
  rw [fb.1, fb.2.1, fb.2.2.1, fb.2.2.2] at b
  exact a.trans b.symm

theorem sts_lds_exponent (e : Nat) (he : e < 2048) :
    ((if (if e = 2047 then 255 else if e = 0 then 0 else (e + 2 ^ 64 - 896) % 256) = 255
        then 2047
      else if (if e = 2047 then 255 else if e = 0 then 0 else (e + 2 ^ 64 - 896) % 256) = 0
        then 0
      else (if e = 2047 then 255 else if e = 0 then 0 else (e + 2 ^ 64 - 896) % 256) + 896)
      = e) ↔ (e = 0 ∨ e = 2047 ∨ (897 ≤ e ∧ e ≤ 1150)) := by
  by_cases h1 : e = 2047
  · simp [h1]
  · by_cases h0 : e = 0
    · simp [h0]
    · simp only [h1, h0, if_false, Nat.reducePow, false_or]
      split_ifs <;> omega

theorem sameExceptOperands_refl (e : AXP_QUEUE_ENTRY) : sameExceptOperands e e :=
  ⟨rfl, rfl, rfl⟩

theorem registersReady_same (cpu : AXP_21264_CPU) (entry : AXP_QUEUE_ENTRY) :
    sameExceptOperands entry (AXP_RegistersReady cpu entry).2 := by
  refine ⟨rfl, rfl, ?_⟩
  simp [AXP_RegistersReady]

theorem scanCondition_snd (cpu : AXP_21264_CPU) (pipeline : AXP_PIPELINE)
    (entry : AXP_QUEUE_ENTRY) :
    (scanCondition cpu pipeline entry).2 =
      if pipelineTest pipeline entry.pipeline then (AXP_RegistersReady cpu entry).2
      else entry := by
  unfold scanCondition
  by_cases h : pipelineTest pipeline entry.pipeline = true
  · simp [h]
  · simp [h]

theorem scanCondition_same (cpu : AXP_21264_CPU) (pipeline : AXP_PIPELINE)
    (entry : AXP_QUEUE_ENTRY) :
    sameExceptOperands entry (scanCondition cpu pipeline entry).2 := by
  rw [scanCondition_snd]
  split_ifs
  · exact registersReady_same cpu entry
  · exact sameExceptOperands_refl entry

theorem scanQueue_getElem (cpu : AXP_21264_CPU) (pipeline : AXP_PIPELINE)
    (queue : List AXP_QUEUE_ENTRY) (i : Nat) (e : AXP_QUEUE_ENTRY)
    (h : queue[i]? = some e) :
    ∃ e2, (scanQueue cpu pipeline queue).2[i]? = some e2 ∧
      (e2 = e ∨ e2 = (scanCondition cpu pipeline e).2 ∨
       ((scanQueue cpu pipeline queue).1 = some i ∧
        (scanCondition cpu pipeline e).1 = true ∧
        e2 = { (scanCondition cpu pipeline e).2 with processing := true })) := by
  induction queue generalizing i with
  | nil => simp at h
  | cons entry rest ih =>
    by_cases hc : (scanCondition cpu pipeline entry).1 = true
    · simp only [scanQueue, hc, if_true]
      cases i with
      | zero =>
        simp only [List.getElem?_cons_zero, Option.some.injEq] at h
        subst h
        exact ⟨_, by simp, Or.inr (Or.inr ⟨rfl, hc, rfl⟩)⟩
      | succ i =>
        simp only [List.getElem?_cons_succ] at h
        exact ⟨e, by simpa using h, Or.inl rfl⟩
    · simp only [scanQueue, hc, Bool.false_eq_true, if_false]
      cases i with
      | zero =>
        simp only [List.getElem?_cons_zero, Option.some.injEq] at h
        subst h
        exact ⟨_, by simp, Or.inr (Or.inl rfl)⟩
      | succ i =>
        simp only [List.getElem?_cons_succ] at h
        obtain ⟨e2, he2, hcase⟩ := ih i h
        refine ⟨e2, by simpa using he2, ?_⟩
        rcases hcase with hcase | hcase | ⟨h1, h2, h3⟩
        · exact Or.inl hcase
        · exact Or.inr (Or.inl hcase)
        · exact Or.inr (Or.inr ⟨by simp [h1], h2, h3⟩)

theorem sameUpToScan_refl (pipeline : AXP_PIPELINE) (e : AXP_QUEUE_ENTRY) :
    sameUpToScan pipeline e e :=
  ⟨sameExceptOperands_refl e, fun _ => rfl⟩

theorem scanCondition_upToScan (cpu : AXP_21264_CPU) (pipeline : AXP_PIPELINE)
    (entry : AXP_QUEUE_ENTRY) :
    sameUpToScan pipeline entry (scanCondition cpu pipeline entry).2 := by
  refine ⟨scanCondition_same cpu pipeline entry, ?_⟩
  intro hpt
  rw [scanCondition_snd]; simp [hpt]

theorem scanQueue_leaves (cpu : AXP_21264_CPU) (pipeline : AXP_PIPELINE)
    (queue : List AXP_QUEUE_ENTRY) :
    match (scanQueue cpu pipeline queue).1 with
    | none => List.Forall₂ (sameUpToScan pipeline) queue (scanQueue cpu pipeline queue).2
    | some i => List.Forall₂ (sameUpToScan pipeline) (queue.eraseIdx i)
        ((scanQueue cpu pipeline queue).2.eraseIdx i) := by
  induction queue with
  | nil => simp [scanQueue]
  | cons entry rest ih =>
    by_cases hc : (scanCondition cpu pipeline entry).1 = true
    · simp only [scanQueue, hc, if_true, List.eraseIdx_cons_zero]
      exact List.forall₂_same.mpr (fun e _ => sameUpToScan_refl pipeline e)
    · simp only [scanQueue, hc, Bool.false_eq_true, if_false]
      cases hr : (scanQueue cpu pipeline rest).1 with
      | none =>
        rw [hr] at ih
        simp only [Option.map_none']
        exact List.Forall₂.cons (scanCondition_upToScan cpu pipeline entry) ih
      | some k =>
        rw [hr] at ih
        simp only [Option.map_some', List.eraseIdx_cons_succ]
        exact List.Forall₂.cons (scanCondition_upToScan cpu pipeline entry) ih

theorem processClaimed_queue (dispatcher : Dispatcher) (pipeline : AXP_PIPELINE)
    (s : ExecState) (idx : Nat) (entry : AXP_QUEUE_ENTRY)
    (hget : s.queue[idx]? = some entry) :
    (processClaimed dispatcher pipeline s idx).queue = s.queue.eraseIdx idx ∧
    ∃ e2, (processClaimed dispatcher pipeline s idx).returned = s.returned ++ [e2] ∧
      e2.processing = false ∧ e2.pipeline = entry.pipeline ∧
      (entry.ins.state = Aborted → e2 = { entry with processing := false }) := by
  by_cases hab : entry.ins.state = Aborted
  · rw [processClaimed_aborted dispatcher pipeline s idx entry hget hab]
    exact ⟨rfl, _, rfl, rfl, rfl, fun _ => rfl⟩
  · rw [processClaimed_not_aborted dispatcher pipeline s idx entry hget hab]
    simp only [dispatchPath, dispatchExecute, dispatchDequeue]
    split_ifs
    · exact ⟨rfl, _, rfl, rfl, rfl, fun h => absurd h hab⟩
    · exact ⟨rfl, _, rfl, rfl, rfl, fun h => absurd h hab⟩

theorem respects_spec (pipeline : AXP_PIPELINE) (f : ExecState → ExecState)
    (c : WorkerConfig) (hr : respects pipeline false f c = true) :
    (c.shared.cpu.cpuState = AXP_CPU_STATE.ShuttingDown →
      (f c.shared).cpu.cpuState = AXP_CPU_STATE.ShuttingDown) ∧
    (AXP_MUTEX.queueMutex ∈ c.held →
      (f c.shared).queue.isEmpty = c.shared.queue.isEmpty ∧
      clusterCounterOf (f c.shared).cpu pipeline = clusterCounterOf c.shared.cpu pipeline) := by
  simp only [respects, Bool.and_eq_true, Bool.or_eq_true, Bool.not_eq_true', beq_iff_eq,
    beq_eq_false_iff_ne, ne_eq, Bool.false_eq_true, false_or] at hr
  refine ⟨?_, ?_⟩
  · intro hsd
    rcases hr.1 with h | h
    · exact absurd hsd h
    · exact h
  · intro hheld
    rcases hr.2 with h | h
    · have : c.held.contains AXP_MUTEX.queueMutex = true := List.elem_eq_true_of_mem hheld
      rw [h] at this; exact Bool.noConfusion this
    · exact h

theorem scanInv_others (pipeline : AXP_PIPELINE) (waited : Bool) (f : ExecState → ExecState)
    (c : WorkerConfig) (owed : Bool) (hr : respects pipeline waited f c = true)
    (hw : waited = true → c.blocked = true ∨ c.pc = WorkerPC.waitTest)
    (hinv : scanInv pipeline c owed) :
    scanInv pipeline { c with shared := f c.shared } owed := by
  rcases hinv with hb | ⟨hwt, hs, ho⟩
  · exact Or.inl hb
  · cases waited with
    | true =>
      rcases hw rfl with hb | hpc
      · exact Or.inl hb
      · right
        refine ⟨hwt, ?_, ho⟩
        intro hpc2
        have hpc3 : c.pc = WorkerPC.shutdownTest := hpc2
        rw [hpc] at hpc3
        exact WorkerPC.noConfusion hpc3
    | false =>
      obtain ⟨hr1, hr2⟩ := respects_spec pipeline f c hr
      right
      refine ⟨hwt, ?_, ho⟩
      intro hpc
      obtain ⟨hheld, hfacts⟩ := hs hpc
      refine ⟨hheld, ?_⟩
      rcases hfacts with hsd | ⟨hq, hcnt, hn⟩
      · exact Or.inl (hr1 hsd)
      · obtain ⟨h1, h2⟩ := hr2 hheld
        right
        refine ⟨?_, ?_, hn⟩
        · show (f c.shared).queue.isEmpty = false
          rw [h1]; exact hq
        · show clusterCounterOf (f c.shared).cpu pipeline ≠ 0
          rw [h2]; exact hcnt

theorem scanInv_scan (pipeline : AXP_PIPELINE) (c : WorkerConfig) (owed : Bool)
    (hinv : scanInv pipeline c owed) (hs : startsScan c = true) :
    c.shared.cpu.cpuState ≠ AXP_CPU_STATE.ShuttingDown ∧ c.shared.queue ≠ [] ∧
    clusterCounterOf c.shared.cpu pipeline ≠ 0 ∧ c.nothingReadyForMe = false ∧
    owed = false := by
  simp only [startsScan, Bool.and_eq_true, Bool.not_eq_true', beq_iff_eq, bne_iff_ne,
    ne_eq] at hs
  obtain ⟨⟨hb, hpc⟩, hsd⟩ := hs
  rcases hinv with hb2 | ⟨_, hsc, ho⟩
  · rw [hb] at hb2; exact Bool.noConfusion hb2
  · obtain ⟨_, hfacts⟩ := hsc hpc
    rcases hfacts with h | ⟨hq, hcnt, hn⟩
    · exact absurd h hsd
    · refine ⟨hsd, ?_, hcnt, hn, ?_⟩
      · intro he; rw [he] at hq; simp at hq
      · cases owed with
        | false => rfl
        | true => have := ho rfl; rw [hn] at this; exact Bool.noConfusion this

theorem mutexLock_flag (m : AXP_MUTEX) (c : WorkerConfig) (nr : Bool) (h : flagIs c nr) :
    flagIs (mutexLock m c) nr := by
  unfold mutexLock
  split_ifs with hb hm
  · exact h
  · exact Or.inl rfl
  · rcases h with h | h
    · exact absurd h hb
    · exact Or.inr h

theorem mutexUnlock_flag (m : AXP_MUTEX) (c : WorkerConfig) (nr : Bool) (h : flagIs c nr) :
    flagIs (mutexUnlock m c) nr := by
  unfold mutexUnlock
  split_ifs with hb
  · exact h
  · rcases h with h | h
    · exact absurd h hb
    · exact Or.inr h

theorem setShared_flag (f : ExecState → ExecState) (c : WorkerConfig) (nr : Bool)
    (h : flagIs c nr) : flagIs (setShared f c) nr := by
  unfold setShared
  split_ifs with hb
  · exact h
  · rcases h with h | h
    · exact absurd h hb
    · exact Or.inr h

theorem setNothingReady_flag (b : Bool) (c : WorkerConfig) :
    flagIs (setNothingReady b c) b := by
  unfold setNothingReady
  split_ifs with hb
  · exact Or.inl hb
  · exact Or.inr rfl

theorem goTo_away (pipeline : AXP_PIPELINE) (pc : WorkerPC) (c : WorkerConfig)
    (nr owed : Bool) (h : flagIs c nr) (h1 : pc ≠ WorkerPC.waitTest)
    (h2 : pc ≠ WorkerPC.shutdownTest) (ho : owed = true → nr = true) :
    scanInv pipeline (goTo pc c) owed := by
  unfold goTo
  split_ifs with hb
  · exact Or.inl hb
  · rcases h with h | h
    · exact absurd h hb
    · right
      refine ⟨fun hp => absurd hp h1, fun hp => absurd hp h2, ?_⟩
      intro hw
      show c.nothingReadyForMe = true
      rw [h]; exact ho hw

theorem nextOwed_other (pipeline : AXP_PIPELINE) (owed : Bool) (c : WorkerConfig)
    (h1 : c.pc ≠ WorkerPC.waitTest) (h2 : c.pc ≠ WorkerPC.shutdownTest) :
    nextOwed pipeline owed c = owed := by
  simp [nextOwed, startsScan, startsWait, h1, h2]

theorem workerStep_scanInv (dispatcher : Dispatcher) (pipeline : AXP_PIPELINE)
    (c : WorkerConfig) (owed : Bool) (hinv : scanInv pipeline c owed) :
    scanInv pipeline (workerStep dispatcher pipeline c) (nextOwed pipeline owed c) := by
  by_cases hb : c.blocked = true
  · unfold workerStep
    simp only [hb, if_true]; exact Or.inl hb
  · rcases hinv with hb2 | ⟨hwt, hsc, ho⟩
    · exact absurd hb2 hb
    · have hfl : flagIs c c.nothingReadyForMe := Or.inr rfl
      have hbf : c.blocked = false := by
        cases h : c.blocked with
        | true => exact absurd h hb
        | false => rfl
      unfold workerStep
      simp only [hb, Bool.false_eq_true, if_false]
      cases hpc : c.pc with
      | loopHead =>
        rw [nextOwed_other pipeline owed c (by rw [hpc]; exact WorkerPC.noConfusion)
          (by rw [hpc]; exact WorkerPC.noConfusion)]
        simp only
        split_ifs with hs
        · unfold goTo mutexLock
          simp only [hbf, Bool.false_eq_true, if_false]
          by_cases hm : AXP_MUTEX.queueMutex ∈ c.held
          · simp only [hm, if_true]; exact Or.inl rfl
          · simp only [hm, if_false, hbf, Bool.false_eq_true]
            right
            refine ⟨fun _ => List.mem_cons_self _ _, fun hp => WorkerPC.noConfusion hp, ho⟩
        · exact goTo_away _ _ _ _ _ (mutexUnlock_flag _ _ _ hfl) WorkerPC.noConfusion
            WorkerPC.noConfusion ho
      | waitTest =>
        have hheld := hwt hpc
        simp only
        split_ifs with hw
        · have hno : nextOwed pipeline owed c = false := by
            simp [nextOwed, startsScan, startsWait, hpc, hw, hbf]
          rw [hno]
          unfold condWait setNothingReady
          simp only [hbf, Bool.false_eq_true, if_false]
          right
          refine ⟨fun _ => hheld, ?_, fun h => Bool.noConfusion h⟩
          intro hp
          have hp2 : c.pc = WorkerPC.shutdownTest := hp
          rw [hpc] at hp2
          exact WorkerPC.noConfusion hp2
        · have hno : nextOwed pipeline owed c = owed := by
            simp [nextOwed, startsScan, startsWait, hpc, hw, hbf]
          rw [hno]
          unfold goTo
          simp only [hbf, Bool.false_eq_true, if_false]
          right
          refine ⟨fun hp => WorkerPC.noConfusion hp, fun _ => ⟨hheld, ?_⟩, ho⟩
          show c.shared.cpu.cpuState = AXP_CPU_STATE.ShuttingDown ∨
            (c.shared.queue.isEmpty = false ∧ clusterCounterOf c.shared.cpu pipeline ≠ 0 ∧
              c.nothingReadyForMe = false)
          simp only [waitPredicate, Bool.and_eq_true, Bool.or_eq_true, bne_iff_ne, ne_eq,
            beq_iff_eq, not_and, not_or] at hw
          by_cases hsd : c.shared.cpu.cpuState = AXP_CPU_STATE.ShuttingDown
          · exact Or.inl hsd
          · obtain ⟨⟨h1, h2⟩, h3⟩ := hw hsd
            right
            refine ⟨?_, h2, ?_⟩
            · cases h : c.shared.queue.isEmpty with
              | true => exact absurd h h1
              | false => rfl
            · cases h : c.nothingReadyForMe with
              | true => exact absurd h h3
              | false => rfl
      | shutdownTest =>
        obtain ⟨hheld, hfacts⟩ := hsc hpc
        simp only
        split_ifs with hs
        · have hno : nextOwed pipeline owed c =
              (scanQueue c.shared.cpu pipeline c.shared.queue).1.isNone := by
            simp [nextOwed, startsScan, scanFindsNothing, hpc, hs, hbf]
          rw [hno]
          split
          · rename_i hnone
            exact goTo_away _ _ _ _ _
              (mutexUnlock_flag _ _ _ (setNothingReady_flag true _))
              WorkerPC.noConfusion WorkerPC.noConfusion (fun _ => rfl)
          · rename_i idx hsome
            rw [hsome]
            split
            · exact goTo_away _ _ _ _ _
                (mutexUnlock_flag _ _ _ (setShared_flag _ _ _ hfl))
                WorkerPC.noConfusion WorkerPC.noConfusion (fun h => Bool.noConfusion h)
            · right
              exact ⟨hwt, hsc, fun h => Bool.noConfusion h⟩
        · have hno : nextOwed pipeline owed c = owed := by
            simp [nextOwed, startsScan, startsWait, hpc, hs, hbf]
          rw [hno]
          exact goTo_away _ _ _ _ _ hfl WorkerPC.noConfusion WorkerPC.noConfusion ho
      | robTest idx entry =>
        rw [nextOwed_other pipeline owed c (by rw [hpc]; exact WorkerPC.noConfusion)
          (by rw [hpc]; exact WorkerPC.noConfusion)]
        simp only
        exact goTo_away _ _ _ _ _
          (mutexUnlock_flag _ _ _ (setShared_flag _ _ _ (mutexLock_flag _ _ _ hfl)))
          WorkerPC.noConfusion WorkerPC.noConfusion ho
      | pathTest idx entry state =>
        rw [nextOwed_other pipeline owed c (by rw [hpc]; exact WorkerPC.noConfusion)
          (by rw [hpc]; exact WorkerPC.noConfusion)]
        simp only
        split_ifs with hs
        · exact goTo_away _ _ _ _ _
            (mutexUnlock_flag _ _ _ (setShared_flag _ _ _ (mutexLock_flag _ _ _ hfl)))
            WorkerPC.noConfusion WorkerPC.noConfusion ho
        · exact goTo_away _ _ _ _ _
            (mutexUnlock_flag _ _ _ (setShared_flag _ _ _ (mutexLock_flag _ _ _ hfl)))
            WorkerPC.noConfusion WorkerPC.noConfusion ho
      | execute entry =>
        rw [nextOwed_other pipeline owed c (by rw [hpc]; exact WorkerPC.noConfusion)
          (by rw [hpc]; exact WorkerPC.noConfusion)]
        simp only
        have hipr : flagIs (mutexUnlock AXP_MUTEX.iBoxIPRMutex
            (mutexLock AXP_MUTEX.iBoxIPRMutex c)) c.nothingReadyForMe :=
          mutexUnlock_flag _ _ _ (mutexLock_flag _ _ _ hfl)
        split_ifs with hp hf
        · exact goTo_away _ _ _ _ _ (setShared_flag _ _ _ hipr)
            WorkerPC.noConfusion WorkerPC.noConfusion ho
        · exact goTo_away _ _ _ _ _ (setShared_flag _ _ _ hfl)
            WorkerPC.noConfusion WorkerPC.noConfusion ho
        · exact goTo_away _ _ _ _ _
            (mutexUnlock_flag _ _ _ (setShared_flag _ _ _ (mutexLock_flag _ _ _ hipr)))
            WorkerPC.noConfusion WorkerPC.noConfusion ho
        · exact goTo_away _ _ _ _ _
            (mutexUnlock_flag _ _ _ (setShared_flag _ _ _ (mutexLock_flag _ _ _ hfl)))
            WorkerPC.noConfusion WorkerPC.noConfusion ho
      | returned =>
        rw [nextOwed_other pipeline owed c (by rw [hpc]; exact WorkerPC.noConfusion)
          (by rw [hpc]; exact WorkerPC.noConfusion)]
        simp only
        right
        exact ⟨hwt, hsc, ho⟩

theorem workerStep_wait (dispatcher : Dispatcher) (pipeline : AXP_PIPELINE)
    (c : WorkerConfig) (hw : startsWait pipeline c = true) :
    (workerStep dispatcher pipeline c).pc = WorkerPC.waitTest ∧
    (workerStep dispatcher pipeline c).nothingReadyForMe = false := by
  simp only [startsWait, Bool.and_eq_true, Bool.not_eq_true', beq_iff_eq] at hw
  obtain ⟨⟨hb, hpc⟩, hp⟩ := hw
  unfold workerStep
  simp only [hb, Bool.false_eq_true, if_false]
  rw [hpc]
  simp only [hp, if_true]
  unfold condWait setNothingReady
  simp only [hb, Bool.false_eq_true, if_false]
  exact ⟨hpc, trivial⟩

theorem runConfigs_scanInv (dispatcher : Dispatcher) (pipeline : AXP_PIPELINE)
    (others : List (ExecState → ExecState)) :
    ∀ (c : WorkerConfig) (owed waited : Bool),
      scanInv pipeline c owed →
      (waited = true → c.blocked = true ∨ c.pc = WorkerPC.waitTest) →
      respectfulRun dispatcher pipeline waited others c = true →
      (∀ x ∈ runConfigs dispatcher pipeline others c, startsScan x = true →
        x.shared.cpu.cpuState ≠ AXP_CPU_STATE.ShuttingDown ∧ x.shared.queue ≠ [] ∧
        clusterCounterOf x.shared.cpu pipeline ≠ 0) ∧
      waitsBeforeRescan pipeline owed (runConfigs dispatcher pipeline others c) = true := by
  induction others with
  | nil =>
    intro c owed waited _ _ _
    exact ⟨fun x hx => absurd hx (List.not_mem_nil x), rfl⟩
  | cons f others ih =>
    intro c owed waited hinv hw hr
    simp only [respectfulRun, Bool.and_eq_true] at hr
    obtain ⟨hr1, hr2⟩ := hr
    have hinv1 := scanInv_others pipeline waited f c owed hr1 hw hinv
    have hinv2 := workerStep_scanInv dispatcher pipeline _ owed hinv1
    have hw2 : startsWait pipeline { c with shared := f c.shared } = true →
        (workerStep dispatcher pipeline { c with shared := f c.shared }).blocked = true ∨
        (workerStep dispatcher pipeline { c with shared := f c.shared }).pc =
          WorkerPC.waitTest :=
      fun h => Or.inr (workerStep_wait dispatcher pipeline _ h).1
    obtain ⟨ih1, ih2⟩ := ih _ _ _ hinv2 hw2 hr2
    refine ⟨?_, ?_⟩
    · intro x hx hs
      simp only [runConfigs, List.mem_cons] at hx
      rcases hx with hx | hx
      · rw [hx] at hs ⊢
        obtain ⟨h1, h2, h3, _, _⟩ := scanInv_scan pipeline _ owed hinv1 hs
        exact ⟨h1, h2, h3⟩
      · exact ih1 x hx hs
    · simp only [runConfigs, waitsBeforeRescan, Bool.and_eq_true, Bool.not_eq_true',
        Bool.and_eq_false_iff]
      refine ⟨?_, ih2⟩
      cases hs : startsScan { c with shared := f c.shared } with
      | false => exact Or.inl rfl
      | true => exact Or.inr (scanInv_scan pipeline _ owed hinv1 hs).2.2.2.2

theorem initWorker_scanInv (pipeline : AXP_PIPELINE) (s : ExecState) :
    scanInv pipeline (initWorker s) false :=
  Or.inr ⟨fun h => WorkerPC.noConfusion h, fun h => WorkerPC.noConfusion h,
    fun h => Bool.noConfusion h⟩

/-! ## The claims -/

/-- Claim C1, evaluated on the code: the pipeline test of the scan compares the
entry's capability with columns 0 and 1 of the worker's `pipeCond` row only
(column 0 twice, column 2 never), so it agrees with membership in the match
set of the specification exactly when the capability is not `EboxL0L1U0U1`
tested by an integer worker.  For the worker U0 and the capability
`EboxL0L1U0U1`, which is column 2 of the row of U0 and a member of Match(U0),
the test is false. -/
theorem pipelineTest_omits_column_two :
    (∀ S c, pipelineTest S c = true ↔ (c = pipeCondAt S 0 ∨ c = pipeCondAt S 1)) ∧
    (∀ S ∈ workerSlots, ∀ c,
      ((pipelineTest S c = true ↔ c ∈ specMatch S) ↔
        ¬ (c = EboxL0L1U0U1 ∧ S ∈ [EboxL0, EboxL1, EboxU0, EboxU1]))) ∧
    pipeCondAt EboxU0 2 = EboxL0L1U0U1 ∧
    EboxL0L1U0U1 ∈ specMatch EboxU0 ∧
    pipelineTest EboxU0 EboxL0L1U0U1 = false := by
  refine ⟨?_, ?_, by decide, by decide, by decide⟩
  · intro S c; cases S <;> cases c <;> decide
  · intro S hS c
    simp only [workerSlots, List.mem_cons, List.mem_singleton, List.not_mem_nil, or_false] at hS
    rcases hS with h | h | h | h | h | h <;> subst h <;> cases c <;> decide

/-- Claim C2: `AXP_RegistersReady` returns true if and only if the scoreboard
entry of `src1` and that of `src2`, each in the register file selected by the
operand's floating-point bit, are `Valid`, and the scoreboard entry of `dest`
is `PendingUpdate` when `dest` is not the unmapped register and `Valid` when
it is. -/
theorem registersReady_iff (cpu : AXP_21264_CPU) (entry : AXP_QUEUE_ENTRY) :
    (AXP_RegistersReady cpu entry).1 = true ↔
      ((if isFloatReg entry.ins.decSrc1 then cpu.pf else cpu.pr) entry.ins.src1).state = Valid ∧
      ((if isFloatReg entry.ins.decSrc2 then cpu.pf else cpu.pr) entry.ins.src2).state = Valid ∧
      (entry.ins.dest ≠ AXP_UNMAPPED_REG →
        ((if isFloatReg entry.ins.decDest then cpu.pf else cpu.pr) entry.ins.dest).state
          = PendingUpdate) ∧
      (entry.ins.dest = AXP_UNMAPPED_REG →
        ((if isFloatReg entry.ins.decDest then cpu.pf else cpu.pr) entry.ins.dest).state
          = Valid) := by
  simp only [AXP_RegistersReady, regFile, expectedDestState, Bool.and_eq_true, beq_iff_eq]
  by_cases h : entry.ins.dest = AXP_UNMAPPED_REG
  · simp [h, and_assoc]
  · simp [h, and_assoc]

/-- Check of C2 on a concrete scoreboard: sources 1 and 2 are `Valid`, the
destination 3 is `PendingUpdate`, and the function returns true. -/
theorem registersReady_iff_witness :
    (AXP_RegistersReady exCpu exEntry).1 = true :=
  (registersReady_iff exCpu exEntry).mpr (by decide)

/-- Claim C3, evaluated on the code: `AXP_RegistersReady` never writes `src2v`
and leaves in `src1v` the value found at index `src1` of the register file
selected by the floating-point bit of `src2`.  With `src1` = 1 holding 11 and
`src2` = 2 holding 22, the call returns true, `src2v` keeps its old value 0
(not 22) and `src1v` is 11. -/
theorem registersReady_src2v_not_written :
    (∀ cpu entry, (AXP_RegistersReady cpu entry).2.ins.src2v = entry.ins.src2v ∧
      (AXP_RegistersReady cpu entry).2.ins.src1v =
        ((if isFloatReg entry.ins.decSrc2 then cpu.pf else cpu.pr) entry.ins.src1).value) ∧
    (AXP_RegistersReady exCpu exEntry).1 = true ∧
    (exCpu.pr exEntry.ins.src2).value = 22 ∧
    (AXP_RegistersReady exCpu exEntry).2.ins.src2v = 0 ∧
    (AXP_RegistersReady exCpu exEntry).2.ins.src1v = 11 :=
  ⟨registersReady_slots, by decide, by decide, by decide, by decide⟩

/-- Claim C4: the queue scan selects the entry closest to the head among the
entries that qualify (not being processed, and either aborted or passing the
worker's pipeline test with registers ready), and it selects nothing if and
only if no entry qualifies. -/
theorem scanQueue_selects_first_qualifying (cpu : AXP_21264_CPU) (pipeline : AXP_PIPELINE)
    (queue : List AXP_QUEUE_ENTRY) :
    (∀ i, (scanQueue cpu pipeline queue).1 = some i →
      (∃ e, queue[i]? = some e ∧ qualifies cpu pipeline e = true) ∧
      (∀ j e, j < i → queue[j]? = some e → qualifies cpu pipeline e = false)) ∧
    ((scanQueue cpu pipeline queue).1 = none ↔
      ∀ e ∈ queue, qualifies cpu pipeline e = false) := by
  induction queue with
  | nil => simp [scanQueue]
  | cons entry rest ih =>
    have hq := scanCondition_eq_qualifies cpu pipeline entry
    by_cases hc : (scanCondition cpu pipeline entry).1 = true
    · have hq1 : qualifies cpu pipeline entry = true := by rw [← hq]; exact hc
      simp only [scanQueue, hc, if_true]
      refine ⟨?_, ?_⟩
      · intro i hi
        simp only [Option.some.injEq] at hi
        subst hi
        exact ⟨⟨entry, by simp, hq1⟩, by intro j e hj; omega⟩
      · simp [hq1]
    · have hq0 : qualifies cpu pipeline entry = false := by
        rw [← hq]; simpa using hc
      simp only [scanQueue, hc, Bool.false_eq_true, if_false]
      refine ⟨?_, ?_⟩
      · intro i hi
        simp only [Option.map_eq_some'] at hi
        obtain ⟨k, hk, rfl⟩ := hi
        obtain ⟨⟨e, he, hqe⟩, hlt⟩ := ih.1 k hk
        refine ⟨⟨e, by simpa using he, hqe⟩, ?_⟩
        intro j e' hj hje
        cases j with
        | zero => simp at hje; subst hje; exact hq0
        | succ j => exact hlt j e' (by omega) (by simpa using hje)
      · simp only [Option.map_eq_none', List.mem_cons, forall_eq_or_imp, hq0, true_and]
        exact ih.2

/-- Check of C4 on a queue of three entries scanned by the worker U1: the
entry at the head is being processed, the scan selects position 1, and no
entry before it qualifies. -/
theorem scanQueue_selects_first_qualifying_witness :
    (scanQueue exCpu EboxU1 exQueue).1 = some 1 ∧
    (∃ e, exQueue[1]? = some e ∧ qualifies exCpu EboxU1 e = true) ∧
    (∀ j e, j < 1 → exQueue[j]? = some e → qualifies exCpu EboxU1 e = false) :=
  ⟨by decide,
   (scanQueue_selects_first_qualifying exCpu EboxU1 exQueue).1 1 (by decide)⟩

/-- Claim C5: a scan never selects an entry whose `processing` flag is already
true; it sets the flag of the entry it selects and changes no other flag (and
no flag at all when it selects nothing); hence in every history of atomic scans
by any workers against any scoreboards, interleaved with changes by other
parties that clear no flag, no position of the queue is claimed twice. -/
theorem scan_claims_are_exclusive (cpu : AXP_21264_CPU) (pipeline : AXP_PIPELINE)
    (queue : List AXP_QUEUE_ENTRY) (steps : List QueueStep) :
    (∀ i, (scanQueue cpu pipeline queue).1 = some i →
      (flags queue)[i]? = some false ∧
      flags (scanQueue cpu pipeline queue).2 = (flags queue).set i true) ∧
    ((scanQueue cpu pipeline queue).1 = none →
      flags (scanQueue cpu pipeline queue).2 = flags queue) ∧
    (runSteps steps queue).1.Nodup := by
  have hs := scanQueue_flags cpu pipeline queue
  refine ⟨?_, ?_, runSteps_nodup steps queue⟩
  · intro i hi
    rw [hi] at hs; exact hs
  · intro hn
    rw [hn] at hs; exact hs

/-- Check of C5 on a history of three scans (workers U1, U0, L1) of a queue of
three entries: positions 1 and 2 are claimed, each once, and the last scan
claims nothing. -/
theorem scan_claims_are_exclusive_witness :
    (runSteps [QueueStep.scan exCpu EboxU1, QueueStep.scan exCpu EboxU0,
      QueueStep.scan exCpu EboxL1] exQueue).1 = [1, 2] ∧
    (runSteps [QueueStep.scan exCpu EboxU1, QueueStep.scan exCpu EboxU0,
      QueueStep.scan exCpu EboxL1] exQueue).1.Nodup :=
  ⟨by decide,
   (scan_claims_are_exclusive exCpu EboxU1 exQueue
      [QueueStep.scan exCpu EboxU1, QueueStep.scan exCpu EboxU0,
       QueueStep.scan exCpu EboxL1]).2.2⟩

/-- Claim C6: when the state read under the ROB lock is `Aborted`, the
iteration does not call the dispatcher, hands to `returnEntry` the entry with
the same instruction record (state still `Aborted`, exception mask and
destination value untouched) and `processing` cleared, unlinks the entry,
decrements the cluster counters matching its capability, and changes nothing
else of the CPU (register files, FPE bit, endian bit, CPU state). -/
theorem abort_path_effects (dispatcher : Dispatcher) (pipeline : AXP_PIPELINE)
    (s : ExecState) (idx : Nat) (entry : AXP_QUEUE_ENTRY)
    (hget : s.queue[idx]? = some entry) (hab : entry.ins.state = Aborted) :
    (processClaimed dispatcher pipeline s idx).dispatched = s.dispatched ∧
    (processClaimed dispatcher pipeline s idx).returned =
      s.returned ++ [{ entry with processing := false }] ∧
    (processClaimed dispatcher pipeline s idx).queue = s.queue.eraseIdx idx ∧
    (∀ slot ∈ workerSlots,
      clusterCounterOf (processClaimed dispatcher pipeline s idx).cpu slot =
        if entry.pipeline ∈ specMatch slot then (clusterCounterOf s.cpu slot + 65535) % 65536
        else clusterCounterOf s.cpu slot) ∧
    (processClaimed dispatcher pipeline s idx).cpu.fpe = s.cpu.fpe ∧
    (processClaimed dispatcher pipeline s idx).cpu.pr = s.cpu.pr ∧
    (processClaimed dispatcher pipeline s idx).cpu.pf = s.cpu.pf ∧
    (processClaimed dispatcher pipeline s idx).cpu.b_endian = s.cpu.b_endian ∧
    (processClaimed dispatcher pipeline s idx).cpu.cpuState = s.cpu.cpuState := by
  rw [processClaimed_aborted dispatcher pipeline s idx entry hget hab]
  have hf := abortDecrement_frame s.cpu entry.pipeline
  exact ⟨rfl, rfl, rfl, fun slot hslot => abortDecrement_counter s.cpu entry.pipeline slot hslot,
    hf.1, hf.2.1, hf.2.2.1, hf.2.2.2.1, hf.2.2.2.2⟩

/-- Check of C6 on a queue whose claimed entry at position 2 is aborted: the
dispatcher log stays empty and the entry comes back with its instruction
record unchanged. -/
theorem abort_path_effects_witness :
    exState.queue[2]? = some exClaimedAborted ∧
    exClaimedAborted.ins.state = Aborted ∧
    (processClaimed exDispatcher EboxL0 exState 2).dispatched = [] ∧
    (processClaimed exDispatcher EboxL0 exState 2).returned = [exAborted] :=
  ⟨by decide, by decide,
   (abort_path_effects exDispatcher EboxL0 exState 2 exClaimedAborted
      (by decide) (by decide)).1,
   (abort_path_effects exDispatcher EboxL0 exState 2 exClaimedAborted
      (by decide) (by decide)).2.1⟩

/-- Claim C7: on the dispatch path the dispatcher is called (once, with the
instruction as the ROB check left it) if and only if the worker is an integer
worker or the FPE bit is 1; for a floating-point worker with the FPE bit not 1
the dispatcher is not called and the entry comes back with exception mask
`FloatingDisabledFault` and state `WaitingRetirement`. -/
theorem dispatch_gate (dispatcher : Dispatcher) (pipeline : AXP_PIPELINE)
    (s : ExecState) (idx : Nat) (entry : AXP_QUEUE_ENTRY)
    (hget : s.queue[idx]? = some entry) (hab : entry.ins.state ≠ Aborted)
    (hslot : pipeline ∈ workerSlots) :
    ((processClaimed dispatcher pipeline s idx).dispatched.length = s.dispatched.length + 1 ↔
      (pipeline ∈ [EboxL0, EboxL1, EboxU0, EboxU1] ∨ s.cpu.fpe = 1)) ∧
    ((pipeline ∈ [EboxL0, EboxL1, EboxU0, EboxU1] ∨ s.cpu.fpe = 1) →
      (processClaimed dispatcher pipeline s idx).dispatched =
        s.dispatched ++ [(robCheck entry.ins).2]) ∧
    ((pipeline ∈ [FboxMul, FboxOther] ∧ s.cpu.fpe ≠ 1) →
      (processClaimed dispatcher pipeline s idx).dispatched = s.dispatched ∧
      ∃ e, (processClaimed dispatcher pipeline s idx).returned = s.returned ++ [e] ∧
        e.ins.excRegMask = FloatingDisabledFault ∧ e.ins.state = WaitingRetirement) := by
  rw [processClaimed_not_aborted dispatcher pipeline s idx entry hget hab]
  have hiff := fpEnable_iff s.cpu pipeline hslot
  cases hen : fpEnable s.cpu pipeline with
  | true =>
    have hd := dispatchPath_enabled dispatcher pipeline s idx
      { entry with ins := (robCheck entry.ins).2 } hen
    have hc := hiff.mp hen
    refine ⟨?_, fun _ => hd, ?_⟩
    · rw [hd]
      exact ⟨fun _ => hc, fun _ => by simp⟩
    · rintro ⟨hp, hne⟩
      rcases hc with hc | hc
      · exfalso
        simp only [List.mem_cons, List.mem_singleton, List.not_mem_nil, or_false] at hp hc
        rcases hp with hp | hp <;> subst hp <;> simp at hc
      · exact absurd hc hne
  | false =>
    have hd := dispatchPath_disabled dispatcher pipeline s idx
      { entry with ins := (robCheck entry.ins).2 } hen
    have hc : ¬ (pipeline ∈ [EboxL0, EboxL1, EboxU0, EboxU1] ∨ s.cpu.fpe = 1) := by
      intro h; have := hiff.mpr h; rw [hen] at this; exact Bool.noConfusion this
    refine ⟨?_, fun h => absurd h hc, fun _ => ⟨hd.1, _, hd.2, rfl, rfl⟩⟩
    rw [hd.1]
    constructor
    · intro h; omega
    · intro h; exact absurd h hc

/-- Check of C7 with the multiply worker and the FPE bit 0: the dispatcher log
stays empty. -/
theorem dispatch_gate_witness :
    exFpState.queue[0]? = some exFpEntry ∧ exFpEntry.ins.state ≠ Aborted ∧
    FboxMul ∈ workerSlots ∧ exFpState.cpu.fpe ≠ 1 ∧
    (processClaimed exDispatcher FboxMul exFpState 0).dispatched = exFpState.dispatched :=
  ⟨by decide, by decide, by decide, by decide,
   ((dispatch_gate exDispatcher FboxMul exFpState 0 exFpEntry (by decide) (by decide)
      (by decide)).2.2 ⟨by decide, by decide⟩).1⟩

/-- Claim C8: when an entry of capability c is removed, on the abort path and
on the dispatch path alike (neither looks at the worker's own pipeline), each
of the six cluster counters is decremented by one modulo 2^16 if c is in the
set of that counter's slot and is left unchanged otherwise. -/
theorem cluster_decrement_rule (s : ExecState) (idx : Nat) (entry : AXP_QUEUE_ENTRY)
    (slot : AXP_PIPELINE) (hslot : slot ∈ workerSlots) :
    ((clusterCounterOf (abortPath s idx entry).cpu slot : Int) =
      if entry.pipeline ∈ specMatch slot then ((clusterCounterOf s.cpu slot : Int) - 1) % 65536
      else (clusterCounterOf s.cpu slot : Int)) ∧
    ((clusterCounterOf (dispatchDequeue s idx entry).cpu slot : Int) =
      if entry.pipeline ∈ specMatch slot then ((clusterCounterOf s.cpu slot : Int) - 1) % 65536
      else (clusterCounterOf s.cpu slot : Int)) := by
  have ha := abortDecrement_counter s.cpu entry.pipeline slot hslot
  have hd := dispatchDecrement_counter s.cpu entry.pipeline slot hslot
  simp only [abortPath, dispatchDequeue]
  rw [ha, hd]
  by_cases hm : entry.pipeline ∈ specMatch slot
  · simp only [hm, if_true]; omega
  · simp only [hm, if_false, and_self]

/-- Check of C8: removing an entry of capability U0U1 takes the U1 counter
from 2 to 1 on the dispatch path. -/
theorem cluster_decrement_rule_witness :
    EboxU1 ∈ workerSlots ∧ exEntry.pipeline ∈ specMatch EboxU1 ∧
    clusterCounterOf exState.cpu EboxU1 = 2 ∧
    (clusterCounterOf (dispatchDequeue exState 1 exEntry).cpu EboxU1 : Int) =
      if exEntry.pipeline ∈ specMatch EboxU1
      then ((clusterCounterOf exState.cpu EboxU1 : Int) - 1) % 65536
      else (clusterCounterOf exState.cpu EboxU1 : Int) :=
  ⟨by decide, by decide, by decide,
   (cluster_decrement_rule exState 1 exEntry EboxU1 (by decide)).2⟩

/-- Claim C9: if every cluster counter (a `u16`) equals the number of linked
entries whose capability is in the match set of its slot, then after a worker
has removed a linked entry, on the abort path or on the dispatch path, every
cluster counter again equals that number for the remaining entries, and each
decrement was a true decrement: no counter wrapped below zero. -/
theorem occupancy_preserved (s : ExecState) (idx : Nat) (entry : AXP_QUEUE_ENTRY)
    (hget : s.queue[idx]? = some entry)
    (hu16 : ∀ slot ∈ workerSlots, clusterCounterOf s.cpu slot < 65536)
    (hinv : ∀ slot ∈ workerSlots, clusterCounterOf s.cpu slot = occupancy s.queue slot) :
    ∀ slot ∈ workerSlots,
      (clusterCounterOf (abortPath s idx { entry with ins := (robCheck entry.ins).2 }).cpu slot =
        occupancy (abortPath s idx { entry with ins := (robCheck entry.ins).2 }).queue slot ∧
       clusterCounterOf (abortPath s idx { entry with ins := (robCheck entry.ins).2 }).cpu slot +
        (if entry.pipeline ∈ specMatch slot then 1 else 0) = clusterCounterOf s.cpu slot) ∧
      (clusterCounterOf
          (dispatchDequeue s idx { entry with ins := (robCheck entry.ins).2 }).cpu slot =
        occupancy (dispatchDequeue s idx { entry with ins := (robCheck entry.ins).2 }).queue slot ∧
       clusterCounterOf
          (dispatchDequeue s idx { entry with ins := (robCheck entry.ins).2 }).cpu slot +
        (if entry.pipeline ∈ specMatch slot then 1 else 0) = clusterCounterOf s.cpu slot) := by
  intro slot hslot
  have ha := abortDecrement_counter s.cpu entry.pipeline slot hslot
  have hd := dispatchDecrement_counter s.cpu entry.pipeline slot hslot
  have ho := occupancy_remove s.queue idx entry slot hget
  have h1 := hu16 slot hslot
  have h2 := hinv slot hslot
  simp only [abortPath, dispatchDequeue]
  rw [ha, hd]
  by_cases hm : entry.pipeline ∈ specMatch slot
  · simp only [hm, if_true] at ho ⊢
    omega
  · simp only [hm, if_false] at ho ⊢
    omega

/-- Check of C9 on a queue of three entries whose counters are L0 = 1, L1 = 0,
U0 = 2, U1 = 2: after the aborted L0 entry at position 2 is removed, the L0
counter is 0, the number of remaining L0 entries. -/
theorem occupancy_preserved_witness :
    exState.queue[2]? = some exClaimedAborted ∧
    (∀ slot ∈ workerSlots, clusterCounterOf exState.cpu slot < 65536) ∧
    (∀ slot ∈ workerSlots, clusterCounterOf exState.cpu slot = occupancy exState.queue slot) ∧
    clusterCounterOf
      (abortPath exState 2
        { exClaimedAborted with ins := (robCheck exClaimedAborted.ins).2 }).cpu EboxL0 =
      occupancy
        (abortPath exState 2
          { exClaimedAborted with ins := (robCheck exClaimedAborted.ins).2 }).queue EboxL0 :=
  ⟨by decide, by decide, by decide,
   ((occupancy_preserved exState 2 exClaimedAborted (by decide) (by decide) (by decide))
      EboxL0 (by decide)).1.1⟩

/-- Claim C10: for every 32-bit pattern x, the VAX F memory to register
conversion of `AXP_LDF` followed by the register to memory conversion of
`AXP_STF` gives back exactly x, whatever the destination slot and the local
`tmpF` held before. -/
theorem ldf_stf_roundtrip (x destv tmpF : Nat) (hx : x < 2 ^ 32) (hF : tmpF < 2 ^ 32) :
    AXP_STF_convert (AXP_LDF_convert x destv) tmpF = x := by
  have hl := ldf_fields x destv
  have hs := stf_fields (AXP_LDF_convert x destv) tmpF
  have hb := stf_lt (AXP_LDF_convert x destv) tmpF hF
  have hreg : rd (AXP_LDF_convert x destv) F_REG_exponent =
      rd (AXP_LDF_convert x destv) F_CVT_exponent := rfl
  have hexp : rd (AXP_STF_convert (AXP_LDF_convert x destv) tmpF) F_MEM_exponent =
      rd x F_MEM_exponent := by
    rw [hs.2.1, hreg, hl.2.1]
    exact ldf_stf_exponent _ (rd_lt x F_MEM_exponent)
  rw [f_mem_decompose _ hb, hexp, hs.1, hs.2.2.1, hs.2.2.2, hl.1, hl.2.2.1, hl.2.2.2.1]
  exact (f_mem_decompose x hx).symm

/-- Check of C10 on the pattern with sign 1, exponent 0x81 and fraction
0x123456: the register exponent is 0x401 and the stored word is the loaded
one. -/
theorem ldf_stf_roundtrip_witness :
    exFWord < 2 ^ 32 ∧ 0 < 2 ^ 32 ∧
    rd exFWord F_MEM_sign = 1 ∧ rd exFWord F_MEM_exponent = 0x81 ∧
    rd (AXP_LDF_convert exFWord 0) F_CVT_exponent = 0x401 ∧
    AXP_STF_convert (AXP_LDF_convert exFWord 0) 0 = exFWord :=
  ⟨by decide, by decide, by decide, by decide, by decide,
   ldf_stf_roundtrip exFWord 0 0 (by decide) (by decide)⟩

/-- Claim C11: for every 32-bit pattern x, with an all-ones exponent and with
a zero exponent too, the IEEE S memory to register conversion of `AXP_LDS`
followed by the register to memory conversion of `AXP_STS` gives back exactly
x, whatever the destination slot and the local `tmpS` held before. -/
theorem lds_sts_roundtrip (x destv tmpS : Nat) (hx : x < 2 ^ 32) (hS : tmpS < 2 ^ 32) :
    AXP_STS_convert (AXP_LDS_convert x destv) tmpS = x := by
  have hl := lds_fields x destv
  have hs := sts_fields (AXP_LDS_convert x destv) tmpS
  have hb := sts_lt (AXP_LDS_convert x destv) tmpS hS
  have hexp : rd (AXP_STS_convert (AXP_LDS_convert x destv) tmpS) S_MEM_exponent =
      rd x S_MEM_exponent := by
    rw [hs.2.1, hl.2.1]
    exact lds_sts_exponent _ (rd_lt x S_MEM_exponent)
  rw [s_mem_decompose _ hb, hexp, hs.1, hs.2.2, hl.1, hl.2.2.1]
  exact (s_mem_decompose x hx).symm

/-- Check of C11 on a NaN pattern (sign 1, exponent 0xFF, fraction 0x400001):
the register exponent is 0x7FF and the stored word is the loaded one. -/
theorem lds_sts_roundtrip_witness :
    exSNaN < 2 ^ 32 ∧ 0 < 2 ^ 32 ∧ rd exSNaN S_MEM_exponent = 0xFF ∧
    rd (AXP_LDS_convert exSNaN 0) S_CVT_exponent = 0x7FF ∧
    AXP_STS_convert (AXP_LDS_convert exSNaN 0) 0 = exSNaN :=
  ⟨by decide, by decide, by decide, by decide,
   lds_sts_roundtrip exSNaN 0 0 (by decide) (by decide)⟩

/-- Claim C12: for every VAX F memory word, the register value `AXP_LDF` builds
has the sign and the two fraction parts of the word unchanged, a zero padding
field equal to 0, and an 11-bit exponent equal to 0 when the memory exponent e
is 0 and to e + (1024 - 128) = e + 896 otherwise; e + 896 always fits in 11
bits.  When the destination slot held a 64-bit value, these fields are the
whole register value. -/
theorem ldf_register_value (x destv : Nat) :
    rd (AXP_LDF_convert x destv) F_CVT_sign = rd x F_MEM_sign ∧
    rd (AXP_LDF_convert x destv) F_CVT_fractionHigh = rd x F_MEM_fractionHigh ∧
    rd (AXP_LDF_convert x destv) F_CVT_fractionLow = rd x F_MEM_fractionLow ∧
    rd (AXP_LDF_convert x destv) F_CVT_zero = 0 ∧
    (rd x F_MEM_exponent = 0 → rd (AXP_LDF_convert x destv) F_CVT_exponent = 0) ∧
    (rd x F_MEM_exponent ≠ 0 →
      rd (AXP_LDF_convert x destv) F_CVT_exponent = rd x F_MEM_exponent + (1024 - 128)) ∧
    rd x F_MEM_exponent + (1024 - 128) < 2 ^ 11 ∧
    (destv < 2 ^ 64 →
      AXP_LDF_convert x destv =
        2 ^ 63 * rd x F_MEM_sign +
        2 ^ 52 * (if rd x F_MEM_exponent = 0 then 0 else rd x F_MEM_exponent + 896) +
        2 ^ 45 * rd x F_MEM_fractionHigh + 2 ^ 29 * rd x F_MEM_fractionLow) := by
  have hl := ldf_fields x destv
  have he : rd x F_MEM_exponent < 2 ^ 8 := rd_lt x F_MEM_exponent
  refine ⟨hl.1, hl.2.2.1, hl.2.2.2.1, hl.2.2.2.2, ?_, ?_, ?_, ?_⟩
  · intro h0; rw [hl.2.1]; simp [h0]
  · intro h0; rw [hl.2.1]; simp [h0]
  · simp only [Nat.reducePow] at he ⊢; omega
  · intro hd
    have hdec := f_reg_decompose _ (ldf_lt x destv hd)
    rw [hl.1, hl.2.1, hl.2.2.1, hl.2.2.2.1, hl.2.2.2.2] at hdec
    rw [hdec]; omega

/-- Check of C12 on the word with sign 1, exponent 0x81, fraction 0x123456:
whatever 64 bits the destination held, the register value is sign 1, exponent
0x401, the same fraction, zero padding. -/
theorem ldf_register_value_witness :
    rd exFWord F_MEM_sign = 1 ∧ rd exFWord F_MEM_exponent = 0x81 ∧
    rd exFWord F_MEM_fractionHigh = 0x12 ∧ rd exFWord F_MEM_fractionLow = 0x3456 ∧
    AXP_LDF_convert exFWord 0xFFFFFFFFFFFFFFFF = exFReg :=
  ⟨by decide, by decide, by decide, by decide,
   ((ldf_register_value exFWord 0xFFFFFFFFFFFFFFFF).2.2.2.2.2.2.2 (by decide)).trans
     (by decide)⟩

/-- Claim C13: for every IEEE S memory word, the register value `AXP_LDS` builds
has the sign and the 23-bit fraction of the word unchanged, a zero padding
field equal to 0, and an 11-bit exponent equal to 0x7FF when the memory
exponent e is 0xFF, to 0 when e is 0, and to e + (1023 - 127) = e + 896
otherwise.  When the destination slot held a 64-bit value, these fields are
the whole register value. -/
theorem lds_register_value (x destv : Nat) :
    rd (AXP_LDS_convert x destv) S_CVT_sign = rd x S_MEM_sign ∧
    rd (AXP_LDS_convert x destv) S_CVT_fraction = rd x S_MEM_fraction ∧
    rd (AXP_LDS_convert x destv) S_CVT_zero = 0 ∧
    (rd x S_MEM_exponent = 0xFF → rd (AXP_LDS_convert x destv) S_CVT_exponent = 0x7FF) ∧
    (rd x S_MEM_exponent = 0 → rd (AXP_LDS_convert x destv) S_CVT_exponent = 0) ∧
    (rd x S_MEM_exponent ≠ 0xFF → rd x S_MEM_exponent ≠ 0 →
      rd (AXP_LDS_convert x destv) S_CVT_exponent = rd x S_MEM_exponent + (1023 - 127)) ∧
    (destv < 2 ^ 64 →
      AXP_LDS_convert x destv =
        2 ^ 63 * rd x S_MEM_sign +
        2 ^ 52 * (if rd x S_MEM_exponent = 255 then 2047
                  else if rd x S_MEM_exponent = 0 then 0 else rd x S_MEM_exponent + 896) +
        2 ^ 29 * rd x S_MEM_fraction) := by
  have hl := lds_fields x destv
  refine ⟨hl.1, hl.2.2.1, hl.2.2.2, ?_, ?_, ?_, ?_⟩
  · intro h; rw [hl.2.1]; simp [h]
  · intro h; rw [hl.2.1]; simp [h]
  · intro h1 h0; rw [hl.2.1]; simp [h1, h0]
  · intro hd
    have hdec := s_reg_decompose _ (lds_lt x destv hd)
    rw [hl.1, hl.2.1, hl.2.2.1, hl.2.2.2] at hdec
    rw [hdec]; omega

/-- Check of C13 on a NaN pattern: memory exponent 0xFF gives register
exponent 0x7FF. -/
theorem lds_register_value_witness :
    rd exSNaN S_MEM_exponent = 0xFF ∧
    rd (AXP_LDS_convert exSNaN 0) S_CVT_exponent = 0x7FF :=
  ⟨by decide, (lds_register_value exSNaN 0).2.2.2.1 (by decide)⟩

/-- Claim C14: the memory word `AXP_STF` builds has the sign and the fraction
parts of the register value unchanged and 8-bit exponent 0 when the register
exponent e is 0 and (e - 896) mod 256 otherwise; the memory word `AXP_STS`
builds has sign and fraction unchanged and 8-bit exponent 0xFF when e is
0x7FF, 0 when e is 0, and (e - 896) mod 256 otherwise. -/
theorem store_memory_words (src1v tmpF tmpS : Nat) :
    (rd (AXP_STF_convert src1v tmpF) F_MEM_sign = rd src1v F_CVT_sign ∧
     rd (AXP_STF_convert src1v tmpF) F_MEM_fractionHigh = rd src1v F_CVT_fractionHigh ∧
     rd (AXP_STF_convert src1v tmpF) F_MEM_fractionLow = rd src1v F_CVT_fractionLow ∧
     (rd src1v F_REG_exponent = 0 → rd (AXP_STF_convert src1v tmpF) F_MEM_exponent = 0) ∧
     (rd src1v F_REG_exponent ≠ 0 →
       (rd (AXP_STF_convert src1v tmpF) F_MEM_exponent : Int) =
         ((rd src1v F_REG_exponent : Int) - 896) % 256)) ∧
    (rd (AXP_STS_convert src1v tmpS) S_MEM_sign = rd src1v S_CVT_sign ∧
     rd (AXP_STS_convert src1v tmpS) S_MEM_fraction = rd src1v S_CVT_fraction ∧
     (rd src1v S_CVT_exponent = 0x7FF → rd (AXP_STS_convert src1v tmpS) S_MEM_exponent = 0xFF) ∧
     (rd src1v S_CVT_exponent = 0 → rd (AXP_STS_convert src1v tmpS) S_MEM_exponent = 0) ∧
     (rd src1v S_CVT_exponent ≠ 0x7FF → rd src1v S_CVT_exponent ≠ 0 →
       (rd (AXP_STS_convert src1v tmpS) S_MEM_exponent : Int) =
         ((rd src1v S_CVT_exponent : Int) - 896) % 256)) := by
  have hf := stf_fields src1v tmpF
  have hs := sts_fields src1v tmpS
  refine ⟨⟨hf.1, hf.2.2.1, hf.2.2.2, ?_, ?_⟩, ⟨hs.1, hs.2.2, ?_, ?_, ?_⟩⟩
  · intro h; rw [hf.2.1]; simp [h]
  · intro h; rw [hf.2.1]; simp only [h, if_false, Nat.reducePow]; omega
  · intro h; rw [hs.2.1]; simp [h]
  · intro h; rw [hs.2.1]; simp [h]
  · intro h1 h0; rw [hs.2.1]; simp only [h1, h0, if_false, Nat.reducePow]; omega

/-- Check of C14 on a register value with exponent 0x401: `AXP_STF` stores
exponent 0x81. -/
theorem store_memory_words_witness :
    rd exFReg F_REG_exponent = 0x401 ∧
    (rd (AXP_STF_convert exFReg 0) F_MEM_exponent : Int) = ((0x401 : Int) - 896) % 256 :=
  ⟨by decide,
   ((store_memory_words exFReg 0 0).1.2.2.2.2 (by decide)).trans (by decide)⟩

/-- Claim C15: the address computed for the access by `AXP_LDF`, `AXP_LDS`,
`AXP_STF` and `AXP_STS` is (src1v + displacement) mod 2^64 when `b_endian` is
0 and that value XOR 4 when `b_endian` is 1; `AXP_LDG`, `AXP_LDT`, `AXP_STG`
and `AXP_STT` compute (src1v + displacement) mod 2^64 whatever `b_endian` is;
hence a 32-bit load at address a in big-endian mode leaves the same register
contents as the same load at address a XOR 4 in little-endian mode, whatever
64-bit values the two destination slots held before. -/
theorem access_addresses (cpu : AXP_21264_CPU) (instr : AXP_INSTRUCTION) (tmpF tmpS tmpG : Nat) :
    (cpu.b_endian = 0 →
      (AXP_LDF cpu instr).va = (instr.src1v + instr.displacement) % 2 ^ 64 ∧
      (AXP_LDS cpu instr).va = (instr.src1v + instr.displacement) % 2 ^ 64 ∧
      (AXP_STF cpu instr tmpF).va = (instr.src1v + instr.displacement) % 2 ^ 64 ∧
      (AXP_STS cpu instr tmpS).va = (instr.src1v + instr.displacement) % 2 ^ 64) ∧
    (cpu.b_endian = 1 →
      (AXP_LDF cpu instr).va = ((instr.src1v + instr.displacement) % 2 ^ 64) ^^^ 4 ∧
      (AXP_LDS cpu instr).va = ((instr.src1v + instr.displacement) % 2 ^ 64) ^^^ 4 ∧
      (AXP_STF cpu instr tmpF).va = ((instr.src1v + instr.displacement) % 2 ^ 64) ^^^ 4 ∧
      (AXP_STS cpu instr tmpS).va = ((instr.src1v + instr.displacement) % 2 ^ 64) ^^^ 4) ∧
    ((AXP_LDG cpu instr).va = (instr.src1v + instr.displacement) % 2 ^ 64 ∧
     (AXP_LDT cpu instr).va = (instr.src1v + instr.displacement) % 2 ^ 64 ∧
     (AXP_STG cpu instr tmpG).va = (instr.src1v + instr.displacement) % 2 ^ 64 ∧
     (AXP_STT cpu instr).va = (instr.src1v + instr.displacement) % 2 ^ 64) ∧
    (∀ (cpu0 : AXP_21264_CPU) (instr0 : AXP_INSTRUCTION),
      cpu.b_endian = 1 → cpu0.b_endian = 0 →
      (instr0.src1v + instr0.displacement) % 2 ^ 64 =
        ((instr.src1v + instr.displacement) % 2 ^ 64) ^^^ 4 →
      instr.destv < 2 ^ 64 → instr0.destv < 2 ^ 64 →
      (AXP_LDF cpu instr).instr.destv = (AXP_LDF cpu0 instr0).instr.destv ∧
      (AXP_LDS cpu instr).instr.destv = (AXP_LDS cpu0 instr0).instr.destv) := by
  refine ⟨?_, ?_, ⟨rfl, rfl, rfl, rfl⟩, ?_⟩
  · intro h
    simp [AXP_LDF, AXP_LDS, AXP_STF, AXP_STS, effectiveAddress, h]
  · intro h
    simp [AXP_LDF, AXP_LDS, AXP_STF, AXP_STS, effectiveAddress, AXP_BIG_ENDIAN_LONG, h]
  · intro cpu0 instr0 h1 h0 hva hd hd0
    simp only [AXP_LDF, AXP_LDS, effectiveAddress, AXP_BIG_ENDIAN_LONG, h1, h0, hva]
    exact ⟨by simpa using ldf_convert_destv _ _ _ hd hd0,
           by simpa using lds_convert_destv _ _ _ hd hd0⟩

/-- Check of C15 at 0x100 (big-endian) and 0x104 (little-endian), the two
destination slots holding different values before: both loads access 0x104,
the load overwrites its slot, and `AXP_LDF` and `AXP_LDS` each leave the same
register value in both. -/
theorem access_addresses_witness :
    exBigEndianCpu.b_endian = 1 ∧ exCpu.b_endian = 0 ∧
    (AXP_LDF exBigEndianCpu exLoadAt100).va = 0x104 ∧
    (AXP_LDF exCpu exLoadAt104Used).va = 0x104 ∧
    exLoadAt100.destv ≠ exLoadAt104Used.destv ∧
    (AXP_LDF exCpu exLoadAt104Used).instr.destv ≠ exLoadAt104Used.destv ∧
    (AXP_LDF exBigEndianCpu exLoadAt100).instr.destv =
      (AXP_LDF exCpu exLoadAt104Used).instr.destv ∧
    (AXP_LDS exBigEndianCpu exLoadAt100).instr.destv =
      (AXP_LDS exCpu exLoadAt104Used).instr.destv :=
  ⟨by decide, by decide, by decide, by decide, by decide, by decide,
   ((access_addresses exBigEndianCpu exLoadAt100 0 0 0).2.2.2 exCpu exLoadAt104Used
      (by decide) (by decide) (by decide) (by decide) (by decide)).1,
   ((access_addresses exBigEndianCpu exLoadAt100 0 0 0).2.2.2 exCpu exLoadAt104Used
      (by decide) (by decide) (by decide) (by decide) (by decide)).2⟩

/-- Claim C16: for every 64-bit pattern x, the field-by-field copy of `AXP_LDG`
followed by the field-by-field copy of `AXP_STG` gives back exactly x,
whatever the destination slot and the local `tmpG` held before, and so does
the plain copy of `AXP_LDT` followed by that of `AXP_STT`. -/
theorem g_and_t_roundtrip (x destv tmpG : Nat) (hx : x < 2 ^ 64) (hG : tmpG < 2 ^ 64) :
    AXP_STG_convert (AXP_LDG_convert x destv) tmpG = x ∧
    AXP_STT_convert (AXP_LDT_convert x) = x := by
  have hl := ldg_fields x destv
  have hs := stg_fields (AXP_LDG_convert x destv) tmpG
  have hb := stg_lt (AXP_LDG_convert x destv) tmpG hG
  refine ⟨?_, rfl⟩
  rw [g_mem_decompose _ hb, hs.1, hs.2.1, hs.2.2.1, hs.2.2.2.1, hs.2.2.2.2.1, hs.2.2.2.2.2,
    hl.1, hl.2.1, hl.2.2.1, hl.2.2.2.1, hl.2.2.2.2.1, hl.2.2.2.2.2]
  exact (g_mem_decompose x hx).symm

/-- Check of C16 on a VAX G word with all six fields nonzero. -/
theorem g_and_t_roundtrip_witness :
    exGWord < 2 ^ 64 ∧ 0 < 2 ^ 64 ∧
    AXP_STG_convert (AXP_LDG_convert exGWord 0) 0 = exGWord ∧
    AXP_STT_convert (AXP_LDT_convert exGWord) = exGWord :=
  ⟨by decide, by decide,
   (g_and_t_roundtrip exGWord 0 0 (by decide) (by decide)).1,
   (g_and_t_roundtrip exGWord 0 0 (by decide) (by decide)).2⟩

/-- Claim C17: the abort check reads the instruction state, changes it if and
only if the state read is `Queued` (then to `Executing`), leaves the
instruction as it is for every other state, and the worker goes on with the
abort path if the state read is `Aborted` and with the dispatch path
otherwise. -/
theorem abort_check (dispatcher : Dispatcher) (pipeline : AXP_PIPELINE)
    (s : ExecState) (idx : Nat) (entry : AXP_QUEUE_ENTRY)
    (hget : s.queue[idx]? = some entry) :
    (robCheck entry.ins).1 = entry.ins.state ∧
    ((robCheck entry.ins).2.state ≠ entry.ins.state ↔ entry.ins.state = Queued) ∧
    (entry.ins.state = Queued →
      (robCheck entry.ins).2 = { entry.ins with state := Executing }) ∧
    (entry.ins.state ≠ Queued → (robCheck entry.ins).2 = entry.ins) ∧
    processClaimed dispatcher pipeline s idx =
      (if (robCheck entry.ins).1 = Aborted
       then abortPath s idx { entry with ins := (robCheck entry.ins).2 }
       else dispatchPath dispatcher pipeline s idx
              { entry with ins := (robCheck entry.ins).2 }) := by
  refine ⟨rfl, ?_, ?_, ?_, ?_⟩
  · by_cases hq : entry.ins.state = Queued
    · simp [robCheck, hq]
    · simp [robCheck, hq]
  · intro hq; simp [robCheck, hq]
  · intro hq; simp [robCheck, hq]
  · simp only [processClaimed, hget]
    by_cases ha : (robCheck entry.ins).1 = Aborted
    · simp [ha]
    · simp [ha]

/-- Check of C17 on a claimed entry in state `Queued`: the state becomes
`Executing` and the iteration is the dispatch path. -/
theorem abort_check_witness :
    exStart.queue[1]? = some exEntry ∧ exEntry.ins.state = Queued ∧
    (robCheck exEntry.ins).2.state = Executing ∧
    processClaimed exDispatcher EboxU1 exStart 1 =
      (if (robCheck exEntry.ins).1 = Aborted
       then abortPath exStart 1 { exEntry with ins := (robCheck exEntry.ins).2 }
       else dispatchPath exDispatcher EboxU1 exStart 1
              { exEntry with ins := (robCheck exEntry.ins).2 }) :=
  ⟨by decide, by decide, by decide,
   (abort_check exDispatcher EboxU1 exStart 1 exEntry (by decide)).2.2.2.2⟩

/-- Claim C18: when an iteration of a worker (scan, abort check and dispatch,
with nobody else acting in between) calls the dispatcher, the entry it claimed
had, in the scoreboard the scan looked at, `src1` and `src2` `Valid` and
`dest` either `PendingUpdate` or the unmapped register. -/
theorem dispatched_entries_were_ready (dispatcher : Dispatcher) (pipeline : AXP_PIPELINE)
    (s : ExecState)
    (hd : (workerIteration dispatcher pipeline s).dispatched ≠ s.dispatched) :
    ∃ i e, (scanQueue s.cpu pipeline s.queue).1 = some i ∧ s.queue[i]? = some e ∧
      ((if isFloatReg e.ins.decSrc1 then s.cpu.pf else s.cpu.pr) e.ins.src1).state = Valid ∧
      ((if isFloatReg e.ins.decSrc2 then s.cpu.pf else s.cpu.pr) e.ins.src2).state = Valid ∧
      (((if isFloatReg e.ins.decDest then s.cpu.pf else s.cpu.pr) e.ins.dest).state
          = PendingUpdate ∨ e.ins.dest = AXP_UNMAPPED_REG) := by
  cases hr : (scanQueue s.cpu pipeline s.queue).1 with
  | none =>
    rw [workerIteration_none dispatcher pipeline s hr] at hd
    exact absurd rfl hd
  | some i =>
    rw [workerIteration_some dispatcher pipeline s i hr] at hd
    obtain ⟨e, he, hq, hpost⟩ := scanQueue_some s.cpu pipeline s.queue i hr
    have hst := (scanCondition_frame s.cpu pipeline e).2.2
    refine ⟨i, e, rfl, he, ?_⟩
    by_cases hab : e.ins.state = Aborted
    · exfalso
      apply hd
      rw [processClaimed_aborted dispatcher pipeline _ i _ hpost (by rw [← hab]; exact hst)]
      rfl
    · have hrr : (AXP_RegistersReady s.cpu e).1 = true := by
        simp only [qualifies, Bool.and_eq_true, Bool.or_eq_true, beq_iff_eq] at hq
        rcases hq.2 with h | h
        · exact absurd h hab
        · exact h.2
      obtain ⟨h1, h2, h3⟩ := registersReady_true s.cpu e hrr
      simp only [regFile] at h1 h2 h3
      refine ⟨h1, h2, ?_⟩
      by_cases hu : e.ins.dest = AXP_UNMAPPED_REG
      · exact Or.inr hu
      · left
        rw [h3]
        simp [expectedDestState, hu]

/-- Check of C18 on a queue whose entry at position 1 is ready: the worker U1
dispatches it. -/
theorem dispatched_entries_were_ready_witness :
    (workerIteration exDispatcher EboxU1 exStart).dispatched ≠ exStart.dispatched ∧
    ∃ i e, (scanQueue exStart.cpu EboxU1 exStart.queue).1 = some i ∧
      exStart.queue[i]? = some e ∧
      ((if isFloatReg e.ins.decSrc1 then exStart.cpu.pf else exStart.cpu.pr)
        e.ins.src1).state = Valid ∧
      ((if isFloatReg e.ins.decSrc2 then exStart.cpu.pf else exStart.cpu.pr)
        e.ins.src2).state = Valid ∧
      (((if isFloatReg e.ins.decDest then exStart.cpu.pf else exStart.cpu.pr)
        e.ins.dest).state = PendingUpdate ∨ e.ins.dest = AXP_UNMAPPED_REG) :=
  ⟨by decide, dispatched_entries_were_ready exDispatcher EboxU1 exStart (by decide)⟩

/-- Claim C19, evaluated on the code: a worker that finds the CPU state
`ShuttingDown` at the head of its loop while it does not hold the queue mutex
(on entry, or after an iteration that handled an entry) returns through the
unlock of line 616 and so unlocks a mutex it does not hold.  When the shutdown
is seen in the wait predicate instead, the worker holds the mutex, and its
calls are balanced.  In both cases it returns holding no mutex. -/
theorem shutdown_at_loop_head_unlocks_unheld_mutex :
    (∀ (dispatcher : Dispatcher) (pipeline : AXP_PIPELINE) (s : ExecState),
      s.cpu.cpuState = AXP_CPU_STATE.ShuttingDown →
      (workerStep dispatcher pipeline (initWorker s)).pc = WorkerPC.returned ∧
      (workerStep dispatcher pipeline (initWorker s)).events =
        [⟨LockOp.unlock, AXP_MUTEX.queueMutex, []⟩]) ∧
    (runWorker exDispatcher EboxU1 [id] (initWorker (exShutdown exStart))).pc
      = WorkerPC.returned ∧
    (runWorker exDispatcher EboxU1 [id] (initWorker (exShutdown exStart))).events
      = [⟨LockOp.unlock, AXP_MUTEX.queueMutex, []⟩] ∧
    (runWorker exDispatcher EboxU1 [id] (initWorker (exShutdown exStart))).held = [] ∧
    balancedCall ⟨LockOp.unlock, AXP_MUTEX.queueMutex, []⟩ = false ∧
    (runWorker exDispatcher EboxU1 [id, id, id, id, id, id, exShutdown]
        (initWorker exStart)).pc = WorkerPC.returned ∧
    (runWorker exDispatcher EboxU1 [id, id, id, id, id, id, exShutdown]
        (initWorker exStart)).held = [] ∧
    (runWorker exDispatcher EboxU1 [id, id, id, id, id, id, exShutdown]
        (initWorker exStart)).events.map balancedCall
      = [true, true, true, true, true, true, false] ∧
    (runWorker exDispatcher EboxU1 [id, id, exShutdown, id, id] (initWorker exIdle)).pc
      = WorkerPC.returned ∧
    (runWorker exDispatcher EboxU1 [id, id, exShutdown, id, id] (initWorker exIdle)).held = [] ∧
    (runWorker exDispatcher EboxU1 [id, id, exShutdown, id, id]
        (initWorker exIdle)).events.map balancedCall = [true, true, true] := by
  refine ⟨?_, by decide, by decide, by decide, by decide, by decide, by decide, by decide,
    by decide, by decide, by decide⟩
  intro dispatcher pipeline s hs
  simp [workerStep, initWorker, hs, mutexUnlock, goTo]

/-- Claim C20: in every run of a worker, whatever the other threads do between
its steps, each time it locks the ROB mutex it does not hold the queue mutex,
and each time it locks the queue mutex it holds neither the ROB mutex nor the
IPR mutex. -/
theorem worker_lock_order (dispatcher : Dispatcher) (pipeline : AXP_PIPELINE)
    (others : List (ExecState → ExecState)) (s : ExecState) :
    ∀ e ∈ (runWorker dispatcher pipeline others (initWorker s)).events,
      e.op = LockOp.lock →
      (e.mutex = AXP_MUTEX.robMutex → AXP_MUTEX.queueMutex ∉ e.held) ∧
      (e.mutex = AXP_MUTEX.queueMutex →
        AXP_MUTEX.robMutex ∉ e.held ∧ AXP_MUTEX.iBoxIPRMutex ∉ e.held) := by
  intro e he hl
  have hinv := runWorker_lockInv dispatcher pipeline others _ (initWorker_lockInv s)
  exact lockOrderOK_spec e (hinv.1 e he) hl

/-- Check of C20 on a run of the multiply worker with floating point
disabled, which takes all three mutexes. -/
theorem worker_lock_order_witness :
    (runWorker exDispatcher FboxMul [id, id, id, id, id, id] (initWorker exFpStart)).events.map
        (fun e => (e.op, e.mutex)) =
      [(LockOp.lock, AXP_MUTEX.queueMutex), (LockOp.unlock, AXP_MUTEX.queueMutex),
       (LockOp.lock, AXP_MUTEX.robMutex), (LockOp.unlock, AXP_MUTEX.robMutex),
       (LockOp.lock, AXP_MUTEX.queueMutex), (LockOp.unlock, AXP_MUTEX.queueMutex),
       (LockOp.lock, AXP_MUTEX.iBoxIPRMutex), (LockOp.unlock, AXP_MUTEX.iBoxIPRMutex),
       (LockOp.lock, AXP_MUTEX.robMutex), (LockOp.unlock, AXP_MUTEX.robMutex)] ∧
    (∀ e ∈ (runWorker exDispatcher FboxMul [id, id, id, id, id, id]
        (initWorker exFpStart)).events,
      e.op = LockOp.lock →
      (e.mutex = AXP_MUTEX.robMutex → AXP_MUTEX.queueMutex ∉ e.held) ∧
      (e.mutex = AXP_MUTEX.queueMutex →
        AXP_MUTEX.robMutex ∉ e.held ∧ AXP_MUTEX.iBoxIPRMutex ∉ e.held)) :=
  ⟨by decide, worker_lock_order exDispatcher FboxMul [id, id, id, id, id, id] exFpStart⟩

/-- Claim C21, counterexample: `exFaultyMemory` reports an access violation
for the address that `AXP_LDF` accesses for `exLoadAt100`, and yet the load
returns `NoException` and leaves the exception mask of the instruction at
`NoException`: the fault is not surfaced. -/
theorem load_ignores_reported_fault :
    exFaultyMemory (AXP_LDF exCpu exLoadAt100).va = some MemFault.AccessViolation ∧
    (AXP_LDF exCpu exLoadAt100).retVal = NoException ∧
    (AXP_LDF exCpu exLoadAt100).instr.excRegMask = NoException ∧
    ¬ honoursFaults exFaultyMemory (AXP_LDF exCpu exLoadAt100) := by
  refine ⟨rfl, rfl, rfl, ?_⟩
  intro h
  have := h MemFault.AccessViolation rfl
  revert this
  decide

/-- Claim C21, amended: each of the eight floating-point load/store functions
returns `NoException`, leaves the exception mask of the instruction as it was
and moves the instruction to `WaitingRetirement`; the memory access and its
fault checks are not implemented, so no memory fault reaches the result. -/
theorem load_store_results (cpu : AXP_21264_CPU) (instr : AXP_INSTRUCTION)
    (tmpF tmpG tmpS : Nat) :
    ((AXP_LDF cpu instr).retVal = NoException ∧
     (AXP_LDF cpu instr).instr.excRegMask = instr.excRegMask ∧
     (AXP_LDF cpu instr).instr.state = WaitingRetirement) ∧
    ((AXP_LDG cpu instr).retVal = NoException ∧
     (AXP_LDG cpu instr).instr.excRegMask = instr.excRegMask ∧
     (AXP_LDG cpu instr).instr.state = WaitingRetirement) ∧
    ((AXP_LDS cpu instr).retVal = NoException ∧
     (AXP_LDS cpu instr).instr.excRegMask = instr.excRegMask ∧
     (AXP_LDS cpu instr).instr.state = WaitingRetirement) ∧
    ((AXP_LDT cpu instr).retVal = NoException ∧
     (AXP_LDT cpu instr).instr.excRegMask = instr.excRegMask ∧
     (AXP_LDT cpu instr).instr.state = WaitingRetirement) ∧
    ((AXP_STF cpu instr tmpF).retVal = NoException ∧
     (AXP_STF cpu instr tmpF).instr.excRegMask = instr.excRegMask ∧
     (AXP_STF cpu instr tmpF).instr.state = WaitingRetirement) ∧
    ((AXP_STG cpu instr tmpG).retVal = NoException ∧
     (AXP_STG cpu instr tmpG).instr.excRegMask = instr.excRegMask ∧
     (AXP_STG cpu instr tmpG).instr.state = WaitingRetirement) ∧
    ((AXP_STS cpu instr tmpS).retVal = NoException ∧
     (AXP_STS cpu instr tmpS).instr.excRegMask = instr.excRegMask ∧
     (AXP_STS cpu instr tmpS).instr.state = WaitingRetirement) ∧
    ((AXP_STT cpu instr).retVal = NoException ∧
     (AXP_STT cpu instr).instr.excRegMask = instr.excRegMask ∧
     (AXP_STT cpu instr).instr.state = WaitingRetirement) :=
  ⟨⟨rfl, rfl, rfl⟩, ⟨rfl, rfl, rfl⟩, ⟨rfl, rfl, rfl⟩, ⟨rfl, rfl, rfl⟩,
   ⟨rfl, rfl, rfl⟩, ⟨rfl, rfl, rfl⟩, ⟨rfl, rfl, rfl⟩, ⟨rfl, rfl, rfl⟩⟩

/-- Claim C23, counterexample: the queue of `exBusyOnly` holds one entry, whose
registers are ready and which another worker has claimed.  The scan of the
worker of U1 selects nothing, and yet the iteration leaves the operand slot
`src1v` of that entry at 11 instead of 0: the queue contents have changed. -/
theorem iteration_without_claim_writes_operands :
    (scanQueue exBusyOnly.cpu EboxU1 exBusyOnly.queue).1 = none ∧
    (exBusyOnly.queue.map fun e => (AXP_RegistersReady exBusyOnly.cpu e).1) = [true] ∧
    (exBusyOnly.queue.map fun e => e.ins.src1v) = [0] ∧
    ((workerIteration exDispatcher EboxU1 exBusyOnly).queue.map fun e => e.ins.src1v) = [11] ∧
    (workerIteration exDispatcher EboxU1 exBusyOnly).queue ≠ exBusyOnly.queue := by
  decide

/-- Claim C23, amended: a worker iteration (scan, abort check, then the abort
path or the dispatch path, with nobody else acting in between) that claims the
entry at position `i` ends with exactly that position unlinked: the queue is
one entry shorter and holds the other entries in their order, and exactly one
entry has been handed to `returnEntry`, with `processing` false and the
capability of the claimed entry (on the abort path it is the claimed entry
itself, apart from the operand slots).  An iteration whose scan selects nothing
leaves every entry linked at its position, and leaves the CPU with its cluster
counters, the returned entries and the dispatched instructions unchanged.  In
both cases an entry that stays linked is unchanged apart from the operand slots
`src1v` and `src2v`, and entirely unchanged when it fails the pipeline test of
the worker. -/
theorem iteration_removes_claimed_entry (dispatcher : Dispatcher) (pipeline : AXP_PIPELINE)
    (s : ExecState) :
    (∀ i, (scanQueue s.cpu pipeline s.queue).1 = some i →
      ∃ e e2, s.queue[i]? = some e ∧
        (workerIteration dispatcher pipeline s).queue.length + 1 = s.queue.length ∧
        List.Forall₂ (sameUpToScan pipeline) (s.queue.eraseIdx i)
          (workerIteration dispatcher pipeline s).queue ∧
        (workerIteration dispatcher pipeline s).returned = s.returned ++ [e2] ∧
        e2.processing = false ∧ e2.pipeline = e.pipeline ∧
        (e.ins.state = Aborted → sameExceptOperands e e2)) ∧
    ((scanQueue s.cpu pipeline s.queue).1 = none →
      List.Forall₂ (sameUpToScan pipeline) s.queue
        (workerIteration dispatcher pipeline s).queue ∧
      (workerIteration dispatcher pipeline s).cpu = s.cpu ∧
      (workerIteration dispatcher pipeline s).returned = s.returned ∧
      (workerIteration dispatcher pipeline s).dispatched = s.dispatched) := by
  have hf := scanQueue_leaves s.cpu pipeline s.queue
  refine ⟨?_, ?_⟩
  · intro i hi
    rw [hi] at hf
    rw [workerIteration_some dispatcher pipeline s i hi]
    obtain ⟨e, he, hqual, hpost⟩ := scanQueue_some s.cpu pipeline s.queue i hi
    obtain ⟨hq, e2, hret, hpr, hpl, hab⟩ := processClaimed_queue dispatcher pipeline
      { s with queue := (scanQueue s.cpu pipeline s.queue).2 } i _ hpost
    have hfr := scanCondition_frame s.cpu pipeline e
    have hsame := scanCondition_same s.cpu pipeline e
    have hproc : e.processing = false :=
      scanCondition_true_processing s.cpu pipeline e
        (by rw [scanCondition_eq_qualifies]; exact hqual)
    have hpipe : ({ (scanCondition s.cpu pipeline e).2 with processing := true } :
        AXP_QUEUE_ENTRY).pipeline = e.pipeline := hfr.2.1
    refine ⟨e, e2, he, ?_, ?_, hret, hpr, by rw [hpl, hpipe], ?_⟩
    · rw [hq]
      have hlen := hf.length_eq
      have hlt : i < s.queue.length := by
        rcases Nat.lt_or_ge i s.queue.length with h | h
        · exact h
        · rw [List.getElem?_eq_none h] at he; simp at he
      rw [← hlen, List.length_eraseIdx, if_pos hlt]
      omega
    · rw [hq]; exact hf
    · intro hst
      rw [hab (by show (scanCondition s.cpu pipeline e).2.ins.state = Aborted
                  rw [hfr.2.2]; exact hst)]
      exact ⟨hsame.1, hproc.symm, hsame.2.2⟩
  · intro hn
    rw [hn] at hf
    rw [workerIteration_none dispatcher pipeline s hn]
    exact ⟨hf, rfl, rfl, rfl⟩

/-- Claim C24, evaluated on the code: for `exNotReady` on `exCpu` (source 1
`Valid` holding 11, source 2 `PendingUpdate`) `AXP_RegistersReady` returns
false, and yet the operand slot `src1v` of the instruction goes from 0 to 11:
the writes of lines 200-207 are made whatever the result. -/
theorem registersReady_writes_when_false :
    (AXP_RegistersReady exCpu exNotReady).1 = false ∧
    exNotReady.ins.src1v = 0 ∧
    (AXP_RegistersReady exCpu exNotReady).2.ins.src1v = 11 ∧
    (AXP_RegistersReady exCpu exNotReady).2 ≠ exNotReady := by
  decide

/-- Claim C25, counterexample: `exBusy` has `processing` true and passes the
pipeline test of the worker of U1; the scan evaluates `AXP_RegistersReady` on
it (which returns true), selects nothing, and leaves the operand slot `src1v`
of its instruction at 11 instead of 0. -/
theorem scan_writes_processing_entry :
    exBusy.processing = true ∧
    (AXP_RegistersReady exCpu exBusy).1 = true ∧
    (scanQueue exCpu EboxU1 [exBusy]).1 = none ∧
    exBusy.ins.src1v = 0 ∧
    ((scanQueue exCpu EboxU1 [exBusy]).2.map (fun e => e.ins.src1v)) = [11] ∧
    (scanQueue exCpu EboxU1 [exBusy]).2 ≠ [exBusy] := by
  decide

/-- Claim C25, amended: an entry whose `processing` flag is true when a scan
runs is never selected by the scan; after the scan it is at the same position,
with `processing` still true, the same capability and the same instruction
record apart from the operand slots `src1v` and `src2v`; and when it fails the
pipeline test of the scanning worker it is entirely unchanged. -/
theorem scan_frame_of_processing_entry (cpu : AXP_21264_CPU) (pipeline : AXP_PIPELINE)
    (queue : List AXP_QUEUE_ENTRY) (i : Nat) (e : AXP_QUEUE_ENTRY)
    (hget : queue[i]? = some e) (hp : e.processing = true) :
    (scanQueue cpu pipeline queue).1 ≠ some i ∧
    ∃ e2, (scanQueue cpu pipeline queue).2[i]? = some e2 ∧
      e2.processing = true ∧ e2.pipeline = e.pipeline ∧
      { e2.ins with src1v := 0, src2v := 0 } = { e.ins with src1v := 0, src2v := 0 } ∧
      (pipelineTest pipeline e.pipeline = false → e2 = e) := by
  obtain ⟨e2, he2, hcase⟩ := scanQueue_getElem cpu pipeline queue i e hget
  have hnot : ¬ (scanCondition cpu pipeline e).1 = true := by
    intro hc
    have := scanCondition_true_processing cpu pipeline e hc
    rw [hp] at this
    exact Bool.noConfusion this
  have hsame := scanCondition_same cpu pipeline e
  have hsnd := scanCondition_snd cpu pipeline e
  refine ⟨?_, e2, he2, ?_⟩
  · intro hsel
    obtain ⟨e0, he0, hq, _⟩ := scanQueue_some cpu pipeline queue i hsel
    rw [hget] at he0
    simp only [Option.some.injEq] at he0
    subst he0
    rw [← scanCondition_eq_qualifies] at hq
    exact hnot hq
  · rcases hcase with hcase | hcase | ⟨_, h2, _⟩
    · subst hcase
      exact ⟨hp, rfl, rfl, fun _ => rfl⟩
    · subst hcase
      refine ⟨by rw [hsame.2.1, hp], hsame.1, hsame.2.2, ?_⟩
      intro hpt
      rw [hsnd]; simp [hpt]
    · exact absurd h2 hnot

/-- Check of the amended C25 on the queue `[exBusy]` scanned by the worker of
U1 (whose pipeline test `exBusy` passes) and by the worker of L0 (whose test it
fails). -/
theorem scan_frame_of_processing_entry_witness :
    [exBusy][0]? = some exBusy ∧ exBusy.processing = true ∧
    (scanQueue exCpu EboxU1 [exBusy]).1 ≠ some 0 ∧
    pipelineTest EboxL0 exBusy.pipeline = false ∧
    (scanQueue exCpu EboxL0 [exBusy]).2 = [exBusy] :=
  ⟨rfl, rfl, (scan_frame_of_processing_entry exCpu EboxU1 [exBusy] 0 exBusy rfl rfl).1,
   by decide, by decide⟩

/-- Claim C26: in a run of the worker in which the other threads never leave
the CPU state `ShuttingDown` once it is set and, while the worker holds the
queue mutex (a wait on the condition variable apart, which releases it), do
not change whether the queue is empty nor the cluster counter of the worker's
slot: every queue scan starts in a state where the CPU is not shutting down,
the queue is not empty and the cluster counter of the worker's slot is not
zero; after a scan that selects nothing the worker starts no scan before it
has waited on the condition variable at least once; and the step that waits
leaves `nothingReadyForMe` false. -/
theorem scan_needs_work_and_waits_before_rescan (dispatcher : Dispatcher)
    (pipeline : AXP_PIPELINE) (others : List (ExecState → ExecState)) (s : ExecState)
    (hr : respectfulRun dispatcher pipeline false others (initWorker s) = true) :
    (∀ c ∈ runConfigs dispatcher pipeline others (initWorker s), startsScan c = true →
      c.shared.cpu.cpuState ≠ AXP_CPU_STATE.ShuttingDown ∧ c.shared.queue ≠ [] ∧
      clusterCounterOf c.shared.cpu pipeline ≠ 0) ∧
    waitsBeforeRescan pipeline false
      (runConfigs dispatcher pipeline others (initWorker s)) = true ∧
    (∀ c ∈ runConfigs dispatcher pipeline others (initWorker s),
      startsWait pipeline c = true →
      (workerStep dispatcher pipeline c).nothingReadyForMe = false) := by
  obtain ⟨h1, h2⟩ := runConfigs_scanInv dispatcher pipeline others (initWorker s) false false
    (initWorker_scanInv pipeline s) (fun h => Bool.noConfusion h) hr
  exact ⟨h1, h2, fun c _ hw => (workerStep_wait dispatcher pipeline c hw).2⟩

/-- Check of C26 on a run of the worker of U1 over a queue whose only entry
is not ready: it scans at its third step and selects nothing, waits at its
fifth step, and scans again at its seventh. -/
theorem scan_needs_work_and_waits_before_rescan_witness :
    respectfulRun exDispatcher EboxU1 false [id, id, id, id, id, id, id, id, id]
      (initWorker exStalled) = true ∧
    (runConfigs exDispatcher EboxU1 [id, id, id, id, id, id, id, id, id]
      (initWorker exStalled)).map startsScan =
      [false, false, true, false, false, false, true, false, false] ∧
    (runConfigs exDispatcher EboxU1 [id, id, id, id, id, id, id, id, id]
      (initWorker exStalled)).map (startsWait EboxU1) =
      [false, false, false, false, true, false, false, false, true] ∧
    waitsBeforeRescan EboxU1 false
      (runConfigs exDispatcher EboxU1 [id, id, id, id, id, id, id, id, id]
        (initWorker exStalled)) = true :=
  ⟨by decide, by decide, by decide,
   (scan_needs_work_and_waits_before_rescan exDispatcher EboxU1
      [id, id, id, id, id, id, id, id, id] exStalled (by decide)).2.1⟩

/-- Claim C27, evaluated on the code: with the queue `[exAnyInteger]` (one
entry of capability `EboxL0L1U0U1`) every cluster counter equals the number of
linked entries the decrement rule attributes to its slot, and the counter of
U0 is 1; yet no entry of the queue passes the pipeline test of the worker of
U0, whose scan selects nothing. -/
theorem counter_nonzero_without_matching_entry :
    (∀ slot ∈ workerSlots,
      clusterCounterOf exAnyIntegerCpu slot = occupancy [exAnyInteger] slot) ∧
    clusterCounterOf exAnyIntegerCpu EboxU0 = 1 ∧
    (∀ e ∈ [exAnyInteger], pipelineTest EboxU0 e.pipeline = false) ∧
    (scanQueue exAnyIntegerCpu EboxU0 [exAnyInteger]).1 = none := by
  decide

/-- Claim C28: for a 64-bit register value `r`, converting `r` to IEEE S
memory format as `AXP_STS` does and converting the result back as `AXP_LDS`
does gives `r` again if and only if the 29-bit zero field of `r` is 0 and its
11-bit exponent is 0, 0x7FF or in the range 897..1150; an exponent of 896 is
stored as exponent 0 and an exponent of 1151 as 0xFF. -/
theorem sts_lds_roundtrip_iff (r destv tmpS : Nat) (hr : r < 2 ^ 64) (hd : destv < 2 ^ 64) :
    (AXP_LDS_convert (AXP_STS_convert r tmpS) destv = r ↔
      (rd r S_CVT_zero = 0 ∧
       (rd r S_CVT_exponent = 0 ∨ rd r S_CVT_exponent = 0x7FF ∨
        (897 ≤ rd r S_CVT_exponent ∧ rd r S_CVT_exponent ≤ 1150)))) ∧
    (rd r S_CVT_exponent = 896 → rd (AXP_STS_convert r tmpS) S_MEM_exponent = 0) ∧
    (rd r S_CVT_exponent = 1151 → rd (AXP_STS_convert r tmpS) S_MEM_exponent = 0xFF) := by
  have hl := lds_fields (AXP_STS_convert r tmpS) destv
  have hs := sts_fields r tmpS
  have he : rd r S_CVT_exponent < 2 ^ 11 := rd_lt r S_CVT_exponent
  have hlt := lds_lt (AXP_STS_convert r tmpS) destv hd
  have hexp := sts_lds_exponent (rd r S_CVT_exponent) he
  rw [hs.1, hs.2.1, hs.2.2] at hl
  refine ⟨⟨?_, ?_⟩, ?_, ?_⟩
  · intro heq
    rw [heq] at hl
    exact ⟨hl.2.2.2, hexp.mp hl.2.1.symm⟩
  · rintro ⟨hz, hrange⟩
    have hexp2 := hexp.mpr hrange
    have h1 := s_reg_decompose _ hlt
    have h2 := s_reg_decompose r hr
    rw [hl.1, hl.2.1, hl.2.2.1, hl.2.2.2, hexp2] at h1
    rw [hz] at h2
    rw [h1]; exact h2.symm
  · intro h; rw [hs.2.1]; simp [h]
  · intro h; rw [hs.2.1]; simp [h]

/-- Check of C28 on three register values: exponent 1000 survives the round
trip, exponent 896 does not, and exponent 1151 is stored as 0xFF. -/
theorem sts_lds_roundtrip_iff_witness :
    exSReg1000 < 2 ^ 64 ∧ 0 < 2 ^ 64 ∧ rd exSReg1000 S_CVT_exponent = 1000 ∧
    AXP_LDS_convert (AXP_STS_convert exSReg1000 0) 0 = exSReg1000 ∧
    rd exSReg896 S_CVT_exponent = 896 ∧
    AXP_LDS_convert (AXP_STS_convert exSReg896 0) 0 ≠ exSReg896 ∧
    rd exSReg1151 S_CVT_exponent = 1151 ∧
    rd (AXP_STS_convert exSReg1151 0) S_MEM_exponent = 0xFF :=
  ⟨by decide, by decide, by decide,
   (sts_lds_roundtrip_iff exSReg1000 0 0 (by decide) (by decide)).1.mpr (by decide),
   by decide,
   fun h => absurd ((sts_lds_roundtrip_iff exSReg896 0 0 (by decide) (by decide)).1.mp h)
     (by decide),
   by decide,
   (sts_lds_roundtrip_iff exSReg1151 0 0 (by decide) (by decide)).2.2 (by decide)⟩

end DECemu
